import Mathlib

/-!
# Verification of the `cad_import` RVM import pipeline

This file is a shallow embedding, in Lean 4, of the parts of the `cad_import`
Rust crate that the specification's testable properties talk about:

* the mesh data model (`src/structure/shape/mesh.rs`, `primitives.rs`,
  `vertices.rs`),
* the keyword scanner (`src/loader/loader_rvm/identifier_reader.rs` and
  `identifier.rs`),
* the byte-stream parser and the CAD-data creator
  (`src/loader/loader_rvm/rvm_parser.rs`, `cad_data_creator.rs`,
  `primitive.rs`, `src/structure/tree/mod.rs`),
* the circle-segment solver and the cylinder tessellation
  (`src/loader/loader_rvm/tessellate/cylinder.rs`),
* the icosahedron-subdivision sphere tessellation
  (`src/loader/loader_rvm/tessellate/sphere.rs`).

Machine bytes and 32-bit words are modelled as `Nat` (values `< 256` resp.
`< 2^32`); `f32`/`f64` arithmetic is modelled over `ℝ` (the geometric claims
are stated against real arithmetic); fallible code returns `Except`;
`assert!`-style Rust panics are modelled as a distinguished outcome; the
unbounded scanner/subdivision loops are modelled with explicit fuel.
-/

namespace CadImport

/-- The error taxonomy of `src/error.rs` (`quick_error!` enum `Error`).
Rust attaches a message string to each variant; the message contents are
irrelevant to the claims and are dropped here. -/
inductive RError where
  | indices
  | io
  | invalidArgument
  | invalidFormat
  | internal
deriving DecidableEq, Repr

/-- A 3-component real vector, the model of `nalgebra_glm::Vec3` (`f32`
components modelled over `ℝ`). -/
structure V3 where
  x : ℝ
  y : ℝ
  z : ℝ

namespace V3

/-- Componentwise addition, as in `nalgebra_glm`. -/
def add (a b : V3) : V3 := ⟨a.x + b.x, a.y + b.y, a.z + b.z⟩

/-- Componentwise subtraction. -/
def sub (a b : V3) : V3 := ⟨a.x - b.x, a.y - b.y, a.z - b.z⟩

/-- Scalar multiple. -/
def smul (c : ℝ) (a : V3) : V3 := ⟨c * a.x, c * a.y, c * a.z⟩

/-- Euclidean dot product (`nalgebra_glm::dot`). -/
def dot (a b : V3) : ℝ := a.x * b.x + a.y * b.y + a.z * b.z

/-- Cross product (`nalgebra_glm::cross`). -/
def cross (a b : V3) : V3 :=
  ⟨a.y * b.z - a.z * b.y, a.z * b.x - a.x * b.z, a.x * b.y - a.y * b.x⟩

/-- Euclidean norm (`nalgebra_glm::norm`). -/
noncomputable def norm (a : V3) : ℝ := Real.sqrt (a.x * a.x + a.y * a.y + a.z * a.z)

/-- Normalization `v / ‖v‖` (`nalgebra_glm::normalize`); in the real-valued
model the normalization of the zero vector is the zero vector. -/
noncomputable def normalize (a : V3) : V3 := smul (a.norm)⁻¹ a

/-- The zero vector. -/
def zero : V3 := ⟨0, 0, 0⟩

theorem norm_nonneg (a : V3) : 0 ≤ a.norm := Real.sqrt_nonneg _

theorem norm_sq_nonneg (a : V3) : 0 ≤ a.x * a.x + a.y * a.y + a.z * a.z :=
  add_nonneg (add_nonneg (mul_self_nonneg _) (mul_self_nonneg _)) (mul_self_nonneg _)

theorem norm_pos_of_ne_zero (a : V3) (h : a.x ≠ 0 ∨ a.y ≠ 0 ∨ a.z ≠ 0) : 0 < a.norm := by
  apply Real.sqrt_pos.mpr
  rcases h with h | h | h <;>
    nlinarith [mul_self_nonneg a.x, mul_self_nonneg a.y, mul_self_nonneg a.z,
      mul_self_pos.mpr h]

end V3

/-! ## The mesh data model

Shallow embedding of `src/structure/shape/primitives.rs`, `vertices.rs` and
`mesh.rs`. Index values (`u32` in Rust) are modelled as `Nat`. -/

/-- `PrimitiveType` from `src/structure/shape/primitives.rs`. -/
inductive PrimitiveType where
  | point
  | line
  | lineStrip
  | lineLoop
  | triangles
  | triangleStrip
  | triangleFan
deriving DecidableEq, Repr

/-- `IndexData` from `src/structure/shape/primitives.rs`. -/
inductive IndexData where
  | nonIndexed (n : Nat)
  | indices (is : List Nat)
deriving DecidableEq, Repr

namespace IndexData

/-- `IndexData::num_indices`. -/
def numIndices : IndexData → Nat
  | nonIndexed n => n
  | indices l => l.length

/-- The vertex indices an `IndexData` references: `NonIndexed(n)` implicitly
references `0, 1, …, n-1`, `Indices(l)` references the members of `l`. -/
def referenced : IndexData → List Nat
  | nonIndexed n => List.range n
  | indices l => l

end IndexData

/-- `Primitives` from `src/structure/shape/primitives.rs`. -/
structure Primitives where
  primitiveType : PrimitiveType
  indexData : IndexData
deriving DecidableEq, Repr

namespace Primitives

/-- The constraint checks of `Primitives::new`; returns the `Primitives`
or an `Indices` error, as the Rust constructor does. -/
def new (indexData : IndexData) (primitiveType : PrimitiveType) :
    Except RError Primitives :=
  let numIndices := indexData.numIndices
  match primitiveType with
  | .line =>
      if numIndices % 2 ≠ 0 then .error .indices
      else .ok ⟨primitiveType, indexData⟩
  | .lineStrip =>
      if numIndices < 2 then .error .indices
      else .ok ⟨primitiveType, indexData⟩
  | .lineLoop =>
      if numIndices < 2 then .error .indices
      else .ok ⟨primitiveType, indexData⟩
  | .triangles =>
      if numIndices % 3 ≠ 0 then .error .indices
      else .ok ⟨primitiveType, indexData⟩
  | .triangleStrip =>
      if numIndices < 3 then .error .indices
      else .ok ⟨primitiveType, indexData⟩
  | .triangleFan =>
      if numIndices < 3 then .error .indices
      else .ok ⟨primitiveType, indexData⟩
  | _ => .ok ⟨primitiveType, indexData⟩

/-- `Primitives::max_index`: the maximal referenced vertex index, `none`
when nothing is referenced. `iter().max()` over a nonempty `u32` list is
modelled as `foldl Nat.max 0` (all values are nonnegative). -/
def maxIndex (p : Primitives) : Option Nat :=
  match p.indexData with
  | .indices [] => none
  | .indices (x :: xs) => some ((x :: xs).foldl Nat.max 0)
  | .nonIndexed n => if n = 0 then none else some (n - 1)

end Primitives

/-- `Vertices` from `src/structure/shape/vertices.rs`. Colors are irrelevant
to every claim and are omitted. -/
structure Vertices where
  positions : List V3
  normals : Option (List V3)

namespace Vertices

/-- `Vertices::len`. -/
def len (v : Vertices) : Nat := v.positions.length

/-- `Vertices::from_positions`. -/
def fromPositions (positions : List V3) : Vertices := ⟨positions, none⟩

end Vertices

/-- `Mesh` from `src/structure/shape/mesh.rs`. -/
structure Mesh where
  vertices : Vertices
  primitives : Primitives

namespace Mesh

/-- `Mesh::new`: rejects index data whose maximal referenced index is `≥`
the vertex count with an `Indices` error. -/
def new (vertices : Vertices) (primitives : Primitives) : Except RError Mesh :=
  match primitives.maxIndex with
  | some m => if vertices.len ≤ m then .error .indices
      else .ok ⟨vertices, primitives⟩
  | none => .ok ⟨vertices, primitives⟩

end Mesh

/-- The initial accumulator is bounded by `foldl Nat.max`. -/
theorem foldl_max_init_le (l : List Nat) (a : Nat) : a ≤ l.foldl Nat.max a := by
  induction l generalizing a with
  | nil => exact le_refl _
  | cons x xs ih => exact le_trans (Nat.le_max_left a x) (ih _)

/-- Every member of a `Nat` list is bounded by `foldl Nat.max` of the list. -/
theorem le_foldl_max (l : List Nat) (a : Nat) : ∀ i ∈ l, i ≤ l.foldl Nat.max a := by
  induction l generalizing a with
  | nil => intro i h; cases h
  | cons x xs ih =>
      intro i h
      rcases List.mem_cons.mp h with rfl | h
      · exact le_trans (Nat.le_max_right a i) (foldl_max_init_le xs _)
      · exact ih _ i h

/-- C6: `Mesh::new(vertices, primitives)` returns an `Indices` error exactly
when the maximal vertex index referenced by the primitives' index data is
`≥` the number of vertices, and every successfully constructed mesh has all
referenced indices strictly below `positions.len()`. -/
theorem mesh_new_indices_error_iff (v : Vertices) (p : Primitives) :
    (Mesh.new v p = .error .indices ↔ ∃ m, p.maxIndex = some m ∧ v.len ≤ m) ∧
    (∀ mesh : Mesh, Mesh.new v p = .ok mesh →
      ∀ i ∈ p.indexData.referenced, i < v.len) := by
  obtain ⟨pt, idx⟩ := p
  cases idx with
  | nonIndexed n =>
      by_cases hn : n = 0
      · subst hn
        refine ⟨?_, ?_⟩
        · simp [Mesh.new, Primitives.maxIndex]
        · intro mesh _ i hi
          simp [IndexData.referenced] at hi
      · by_cases hle : v.len ≤ n - 1
        · refine ⟨?_, ?_⟩
          · simp [Mesh.new, Primitives.maxIndex, hn, hle]
          · intro mesh hok
            simp [Mesh.new, Primitives.maxIndex, hn, hle] at hok
        · refine ⟨?_, ?_⟩
          · simp only [Mesh.new, Primitives.maxIndex, hn]
            simp [hle]
          · intro mesh _ i hi
            have hin : i < n := List.mem_range.mp hi
            omega
  | indices l =>
      cases l with
      | nil =>
          refine ⟨?_, ?_⟩
          · simp [Mesh.new, Primitives.maxIndex]
          · intro mesh _ i hi
            cases hi
      | cons x xs =>
          have hfold : List.foldl Nat.max 0 (x :: xs) = List.foldl Nat.max x xs := by
            simp
          by_cases hle : v.len ≤ (x :: xs).foldl Nat.max 0
          · refine ⟨?_, ?_⟩
            · simp only [Mesh.new, Primitives.maxIndex]
              simp [hle]
            · intro mesh hok
              simp only [Mesh.new, Primitives.maxIndex] at hok
              rw [if_pos hle] at hok
              cases hok
          · refine ⟨?_, ?_⟩
            · simp only [Mesh.new, Primitives.maxIndex]
              simp [hle]
            · intro mesh _ i hi
              have := le_foldl_max (x :: xs) 0 i hi
              have hlt : ¬ v.len ≤ (x :: xs).foldl Nat.max 0 := hle
              simp only [IndexData.referenced] at hi
              omega

/-- Witness for `mesh_new_indices_error_iff`: index data referencing vertex 2
with an empty vertex list is rejected with an `Indices` error. -/
theorem mesh_new_indices_error_iff_witness :
    Mesh.new (Vertices.fromPositions [])
      ⟨PrimitiveType.triangles, IndexData.indices [0, 1, 2]⟩ = .error .indices :=
  (mesh_new_indices_error_iff (Vertices.fromPositions [])
      ⟨PrimitiveType.triangles, IndexData.indices [0, 1, 2]⟩).1.mpr
    ⟨2, rfl, by decide⟩

/-! ## The keyword scanner

Shallow embedding of `src/loader/loader_rvm/identifier.rs` and
`identifier_reader.rs`. Bytes are `Nat` values `< 256`; the reader state
carries the 16-byte rolling buffer, the number of valid buffered bytes and
the remaining input stream. The unbounded resynchronization loop of
`IdentifierReader::read` is modelled with explicit fuel (fuel exhaustion is
reported as an I/O error; `stream.length + 2` fuel always suffices). -/

/-- `Identifier` from `identifier.rs`: four character bytes, a trailing `0`
marking a three-character keyword. -/
structure Identifier where
  c0 : Nat
  c1 : Nat
  c2 : Nat
  c3 : Nat
deriving DecidableEq, Repr

namespace Identifier

/-- `PartialEq<&str> for Identifier`: compare the first three characters
when the fourth is `0`, otherwise all four (`s` is the keyword's bytes). -/
def eqStr (id : Identifier) (s : List Nat) : Bool :=
  if id.c3 = 0 then [id.c0, id.c1, id.c2] = s else [id.c0, id.c1, id.c2, id.c3] = s

/-- `Identifier::is_valid`: membership in the fixed keyword set
{HEAD, END, MODL, CNTB, PRIM, CNTE, COLR} (ASCII bytes). -/
def isValid (id : Identifier) : Bool :=
  id.eqStr [72, 69, 65, 68] || id.eqStr [69, 78, 68] || id.eqStr [77, 79, 68, 76] ||
  id.eqStr [67, 78, 84, 66] || id.eqStr [80, 82, 73, 77] || id.eqStr [67, 78, 84, 69] ||
  id.eqStr [67, 79, 76, 82]

end Identifier

/-- State of `IdentifierReader`: the 16-byte buffer (`buffer.length = 16`
by construction), the count of valid buffered bytes, and the not yet
consumed part of the input stream. -/
structure IdState where
  buffer : List Nat
  numBytes : Nat
  stream : List Nat
deriving DecidableEq, Repr

namespace IdState

/-- A fresh `IdentifierReader` over a stream (`IdentifierReader::new`):
zeroed buffer, no valid bytes. -/
def init (stream : List Nat) : IdState :=
  ⟨List.replicate 16 0, 0, stream⟩

/-- `IdentifierReader::read_bytes_until`: fill the buffer up to `n` valid
bytes from the stream (`read_exact` fails with an I/O error when the stream
is too short). Bytes beyond position `n` keep their previous (possibly
stale) values. -/
def readBytesUntil (n : Nat) (s : IdState) : Except RError IdState :=
  if s.numBytes < n then
    if s.stream.length < n - s.numBytes then .error .io
    else .ok ⟨s.buffer.take s.numBytes ++ s.stream.take (n - s.numBytes) ++ s.buffer.drop n,
      n, s.stream.drop (n - s.numBytes)⟩
  else .ok s

/-- `IdentifierReader::remove_first_byte`: `buffer.rotate_left(1)` and
decrement of the valid-byte count. -/
def removeFirstByte (s : IdState) : IdState :=
  ⟨s.buffer.drop 1 ++ s.buffer.take 1, s.numBytes - 1, s.stream⟩

/-- `IdentifierReader::read_first_three_chars`: the first three bytes of
each of the four 4-byte words of the buffer must be zero (note that the
Rust loop zips all four `chars` slots, so it also inspects buffer bytes
12–14, which may be stale); returns the extracted character bytes. -/
def readFirstThreeChars (s : IdState) : Option (Nat × Nat × Nat × Nat) :=
  if s.buffer.getD 0 0 = 0 ∧ s.buffer.getD 1 0 = 0 ∧ s.buffer.getD 2 0 = 0 then
    if s.buffer.getD 4 0 = 0 ∧ s.buffer.getD 5 0 = 0 ∧ s.buffer.getD 6 0 = 0 then
      if s.buffer.getD 8 0 = 0 ∧ s.buffer.getD 9 0 = 0 ∧ s.buffer.getD 10 0 = 0 then
        if s.buffer.getD 12 0 = 0 ∧ s.buffer.getD 13 0 = 0 ∧ s.buffer.getD 14 0 = 0 then
          some (s.buffer.getD 3 0, s.buffer.getD 7 0, s.buffer.getD 11 0, s.buffer.getD 15 0)
        else none
      else none
    else none
  else none

/-- `IdentifierReader::read_last_char`: check that buffer bytes 12–14 are
zero, reading them one at a time, then read through byte 15 and return it;
`none` signals an invalid character (Rust's `Ok(false)`). -/
def readLastChar (s : IdState) : Except RError (Option (Nat × IdState)) :=
  match readBytesUntil 13 s with
  | .error e => .error e
  | .ok s =>
    if s.buffer.getD 12 0 ≠ 0 then .ok none
    else match readBytesUntil 14 s with
      | .error e => .error e
      | .ok s =>
        if s.buffer.getD 13 0 ≠ 0 then .ok none
        else match readBytesUntil 15 s with
          | .error e => .error e
          | .ok s =>
            if s.buffer.getD 14 0 ≠ 0 then .ok none
            else match readBytesUntil 16 s with
              | .error e => .error e
              | .ok s => .ok (some (s.buffer.getD 15 0, s))

end IdState

/-- One iteration of the `IdentifierReader::read` loop: fill the buffer to
12 bytes, try the three-character extraction, recognise `END`, otherwise
complete the fourth character and validate; on failure discard the first
buffered byte and report "continue" (`Sum.inl` is the continue state,
`Sum.inr` the successful identifier). -/
def identStep (s : IdState) : Except RError (IdState ⊕ (Identifier × IdState)) :=
  match s.readBytesUntil 12 with
  | .error e => .error e
  | .ok s =>
    match s.readFirstThreeChars with
    | none => .ok (.inl s.removeFirstByte)
    | some (c0, c1, c2, _) =>
        if c0 = 69 ∧ c1 = 78 ∧ c2 = 68 then
          .ok (.inr (⟨c0, c1, c2, 0⟩, s))
        else
          match s.readLastChar with
          | .error e => .error e
          | .ok none => .ok (.inl s.removeFirstByte)
          | .ok (some (c3, s')) =>
              if (Identifier.mk c0 c1 c2 c3).isValid then .ok (.inr (⟨c0, c1, c2, c3⟩, s'))
              else .ok (.inl s.removeFirstByte)

/-- `IdentifierReader::read`: scan for the next valid keyword, discarding
one leading byte per failed attempt. `fuel` bounds the number of loop
iterations of the unbounded Rust `loop`; fuel exhaustion is reported as an
I/O error (one more iteration would have had to read past the stream). -/
def identRead (fuel : Nat) (s : IdState) : Except RError (Identifier × IdState) :=
  match fuel with
  | 0 => .error .io
  | fuel + 1 =>
      match identStep s with
      | .error e => .error e
      | .ok (.inr r) => .ok r
      | .ok (.inl s') => identRead fuel s'

theorem identRead_continue {s s' : IdState} (h : identStep s = .ok (.inl s'))
    (fuel : Nat) : identRead (fuel + 1) s = identRead fuel s' := by
  simp [identRead, h]

/-- The big-endian word encoding of a keyword: each character byte becomes
the low byte of a 32-bit big-endian word. -/
def encodeKeyword (chars : List Nat) : List Nat :=
  chars.flatMap (fun c => [0, 0, 0, c])

/-- The character bytes of the seven valid keywords. -/
def keywordChars : List (List Nat) :=
  [[72, 69, 65, 68], [69, 78, 68], [77, 79, 68, 76], [67, 78, 84, 66],
   [80, 82, 73, 77], [67, 78, 84, 69], [67, 79, 76, 82]]

/-- The identifier a keyword's characters denote (fourth slot `0` for the
three-character keyword `END`). -/
def toIdent (chars : List Nat) : Identifier :=
  ⟨chars.getD 0 0, chars.getD 1 0, chars.getD 2 0, chars.getD 3 0⟩

theorem readBytesUntil_error {s : IdState} {n : Nat} {e : RError}
    (h : s.readBytesUntil n = .error e) : e = .io := by
  unfold IdState.readBytesUntil at h
  split_ifs at h <;> cases h <;> rfl

theorem readLastChar_error {s : IdState} {e : RError}
    (h : s.readLastChar = .error e) : e = .io := by
  unfold IdState.readLastChar at h
  repeat' split at h
  all_goals cases h
  all_goals exact readBytesUntil_error (by assumption)

theorem identStep_error {s : IdState} {e : RError}
    (h : identStep s = .error e) : e = .io := by
  unfold identStep at h
  repeat' split at h
  all_goals cases h
  all_goals
    first
      | exact readBytesUntil_error (by assumption)
      | exact readLastChar_error (by assumption)

/-- Any error `IdentifierReader::read` returns is an I/O error: the scanner
never reports a format error, it only fails when the stream ends. -/
theorem identRead_error_io (fuel : Nat) (s : IdState) (e : RError)
    (h : identRead fuel s = .error e) : e = .io := by
  induction fuel generalizing s with
  | zero => cases h; rfl
  | succ fuel ih =>
      unfold identRead at h
      cases hs : identStep s with
      | error e' =>
          rw [hs] at h
          cases h
          exact identStep_error hs
      | ok r =>
          rw [hs] at h
          cases r with
          | inl s' => exact ih s' h
          | inr r => cases h

/-- The first iteration over a stream that starts with one garbage byte in
front of a word whose low-byte layout matches a keyword discards exactly
the garbage byte: either the garbage byte is nonzero and the first chunk
check fails, or it is zero and the shifted-by-one layout puts the first
keyword character (nonzero) into a checked chunk position. -/
theorem identStep_cons (g : Nat) (bs : List Nat) (hlen : 11 ≤ bs.length)
    (hb0 : bs.getD 0 0 = 0) (hb1 : bs.getD 1 0 = 0) (hb3 : bs.getD 3 0 ≠ 0) :
    identStep (IdState.init (g :: bs)) =
      .ok (.inl ⟨(bs.take 11 ++ [0, 0, 0, 0]) ++ [g], 11, bs.drop 11⟩) := by
  have h12 : (IdState.init (g :: bs)).readBytesUntil 12 =
      .ok ⟨g :: (bs.take 11 ++ [0, 0, 0, 0]), 12, bs.drop 11⟩ := by
    unfold IdState.readBytesUntil IdState.init
    rw [if_pos (by norm_num), if_neg (by simp; omega)]
    simp [List.take_succ_cons, List.drop_succ_cons, List.drop_replicate,
      List.replicate_succ]
  have hget : ∀ j, j < 11 →
      (g :: (bs.take 11 ++ [0, 0, 0, 0])).getD (j + 1) 0 = bs.getD j 0 := by
    intro j hj
    simp only [List.getD_eq_getElem?_getD, List.getElem?_cons_succ]
    rw [List.getElem?_append_left (by rw [List.length_take]; omega),
      List.getElem?_take_of_lt hj]
  have h3 : IdState.readFirstThreeChars ⟨g :: (bs.take 11 ++ [0, 0, 0, 0]), 12, bs.drop 11⟩ =
      none := by
    unfold IdState.readFirstThreeChars
    by_cases hg : g = 0
    · subst hg
      have e1 : ((0 : Nat) :: (bs.take 11 ++ [0, 0, 0, 0])).getD 1 0 = 0 := by
        rw [show (1 : Nat) = 0 + 1 from rfl, hget 0 (by omega)]; exact hb0
      have e2 : ((0 : Nat) :: (bs.take 11 ++ [0, 0, 0, 0])).getD 2 0 = 0 := by
        rw [show (2 : Nat) = 1 + 1 from rfl, hget 1 (by omega)]; exact hb1
      have e4 : ((0 : Nat) :: (bs.take 11 ++ [0, 0, 0, 0])).getD 4 0 ≠ 0 := by
        rw [show (4 : Nat) = 3 + 1 from rfl, hget 3 (by omega)]; exact hb3
      rw [if_pos ⟨rfl, e1, e2⟩, if_neg (fun hc => e4 hc.1)]
    · rw [if_neg (fun hc => hg hc.1)]
  unfold identStep
  simp only [h12, h3]
  unfold IdState.removeFirstByte
  simp

theorem identRead_done {s : IdState} {r : Identifier × IdState}
    (h : identStep s = .ok (.inr r)) (fuel : Nat) :
    identRead (fuel + 1) s = .ok r := by
  simp [identRead, h]

theorem identRead_succ_map_eq {s : IdState} {fuel : Nat} :
    (identRead (fuel + 1) s).map (fun r : Identifier × IdState => (r.1, r.2.stream)) =
      match identStep s with
      | .error e => .error e
      | .ok (.inr r) => .ok (r.1, r.2.stream)
      | .ok (.inl s') => (identRead fuel s').map (fun r => (r.1, r.2.stream)) := by
  simp only [identRead]
  cases h : identStep s with
  | error e => rfl
  | ok r =>
      cases r with
      | inl s' => rfl
      | inr r => rfl

/-- C1 (amended): over a stream that is a correctly aligned keyword
encoding preceded by at most one garbage byte, `IdentifierReader::read`
returns that keyword and consumes exactly the garbage byte plus the
keyword's own bytes (the final unread stream is empty, and success on the
exact-length stream shows the reader never needed a byte beyond the
keyword's last); and every error the reader ever reports is an I/O error
(the stream ended before a keyword completed). With two or more nonzero
garbage bytes the keyword can be missed entirely (see the counterexample
theorem). -/
theorem identifier_reader_keyword_after_at_most_one_garbage_byte :
    (∀ k ∈ keywordChars,
      ((identRead 3 (IdState.init (encodeKeyword k))).map
          (fun r => (r.1, r.2.stream)) = .ok (toIdent k, [])) ∧
      (∀ g : Nat,
        (identRead 3 (IdState.init (g :: encodeKeyword k))).map
          (fun r => (r.1, r.2.stream)) = .ok (toIdent k, []))) ∧
    (∀ (fuel : Nat) (s : IdState) (e : RError),
      identRead fuel s = .error e → e = .io) := by
  refine ⟨?_, identRead_error_io⟩
  intro k hk
  simp only [keywordChars, List.mem_cons, List.not_mem_nil, or_false] at hk
  obtain rfl | rfl | rfl | rfl | rfl | rfl | rfl := hk
  · refine ⟨by rfl, fun g => ?_⟩
    rw [show (3 : Nat) = 2 + 1 from rfl,
      identRead_continue (identStep_cons g (encodeKeyword [72, 69, 65, 68])
        (by decide) (by decide) (by decide) (by decide)) 2,
      show (2 : Nat) = 1 + 1 from rfl, identRead_succ_map_eq]
    simp [identStep, IdState.readBytesUntil, IdState.readFirstThreeChars,
      IdState.readLastChar, IdState.removeFirstByte, Identifier.isValid,
      Identifier.eqStr, encodeKeyword, toIdent, List.getD]
  · refine ⟨by rfl, fun g => ?_⟩
    rw [show (3 : Nat) = 2 + 1 from rfl,
      identRead_continue (identStep_cons g (encodeKeyword [69, 78, 68])
        (by decide) (by decide) (by decide) (by decide)) 2,
      show (2 : Nat) = 1 + 1 from rfl, identRead_succ_map_eq]
    simp [identStep, IdState.readBytesUntil, IdState.readFirstThreeChars,
      IdState.readLastChar, IdState.removeFirstByte, Identifier.isValid,
      Identifier.eqStr, encodeKeyword, toIdent, List.getD]
  · refine ⟨by rfl, fun g => ?_⟩
    rw [show (3 : Nat) = 2 + 1 from rfl,
      identRead_continue (identStep_cons g (encodeKeyword [77, 79, 68, 76])
        (by decide) (by decide) (by decide) (by decide)) 2,
      show (2 : Nat) = 1 + 1 from rfl, identRead_succ_map_eq]
    simp [identStep, IdState.readBytesUntil, IdState.readFirstThreeChars,
      IdState.readLastChar, IdState.removeFirstByte, Identifier.isValid,
      Identifier.eqStr, encodeKeyword, toIdent, List.getD]
  · refine ⟨by rfl, fun g => ?_⟩
    rw [show (3 : Nat) = 2 + 1 from rfl,
      identRead_continue (identStep_cons g (encodeKeyword [67, 78, 84, 66])
        (by decide) (by decide) (by decide) (by decide)) 2,
      show (2 : Nat) = 1 + 1 from rfl, identRead_succ_map_eq]
    simp [identStep, IdState.readBytesUntil, IdState.readFirstThreeChars,
      IdState.readLastChar, IdState.removeFirstByte, Identifier.isValid,
      Identifier.eqStr, encodeKeyword, toIdent, List.getD]
  · refine ⟨by rfl, fun g => ?_⟩
    rw [show (3 : Nat) = 2 + 1 from rfl,
      identRead_continue (identStep_cons g (encodeKeyword [80, 82, 73, 77])
        (by decide) (by decide) (by decide) (by decide)) 2,
      show (2 : Nat) = 1 + 1 from rfl, identRead_succ_map_eq]
    simp [identStep, IdState.readBytesUntil, IdState.readFirstThreeChars,
      IdState.readLastChar, IdState.removeFirstByte, Identifier.isValid,
      Identifier.eqStr, encodeKeyword, toIdent, List.getD]
  · refine ⟨by rfl, fun g => ?_⟩
    rw [show (3 : Nat) = 2 + 1 from rfl,
      identRead_continue (identStep_cons g (encodeKeyword [67, 78, 84, 69])
        (by decide) (by decide) (by decide) (by decide)) 2,
      show (2 : Nat) = 1 + 1 from rfl, identRead_succ_map_eq]
    simp [identStep, IdState.readBytesUntil, IdState.readFirstThreeChars,
      IdState.readLastChar, IdState.removeFirstByte, Identifier.isValid,
      Identifier.eqStr, encodeKeyword, toIdent, List.getD]
  · refine ⟨by rfl, fun g => ?_⟩
    rw [show (3 : Nat) = 2 + 1 from rfl,
      identRead_continue (identStep_cons g (encodeKeyword [67, 79, 76, 82])
        (by decide) (by decide) (by decide) (by decide)) 2,
      show (2 : Nat) = 1 + 1 from rfl, identRead_succ_map_eq]
    simp [identStep, IdState.readBytesUntil, IdState.readFirstThreeChars,
      IdState.readLastChar, IdState.removeFirstByte, Identifier.isValid,
      Identifier.eqStr, encodeKeyword, toIdent, List.getD]

/-- Witness for the amended C1 theorem: garbage byte `255` followed by the
aligned encoding of `HEAD` is scanned to `HEAD` with nothing left unread. -/
theorem identifier_reader_keyword_witness :
    ((identRead 3 (IdState.init (255 :: encodeKeyword [72, 69, 65, 68]))).map
        (fun r => (r.1, r.2.stream)) = .ok (toIdent [72, 69, 65, 68], [])) ∧
    RError.io = .io :=
  ⟨(identifier_reader_keyword_after_at_most_one_garbage_byte.1
      [72, 69, 65, 68] (by decide)).2 255,
    identifier_reader_keyword_after_at_most_one_garbage_byte.2
      0 (IdState.init []) .io rfl⟩

/-- Counterexample to C1 as stated: two garbage bytes `[1, 1]` followed by
the correctly aligned encoding of `HEAD` make `IdentifierReader::read`
return an I/O error instead of `HEAD` — the rotated-out garbage bytes sit
in the stale buffer tail positions 13/14 when the keyword finally reaches
the front of the buffer, the four-chunk zero check of
`read_first_three_chars` rejects the window, and the aligned keyword is
discarded byte by byte until the stream runs dry. -/
theorem identifier_reader_two_garbage_bytes_counterexample :
    identRead 20 (IdState.init ([1, 1] ++ encodeKeyword [72, 69, 65, 68])) =
      .error .io ∧
    ∀ r : Identifier × IdState,
      identRead 20 (IdState.init ([1, 1] ++ encodeKeyword [72, 69, 65, 68])) ≠ .ok r := by
  have h : identRead 20 (IdState.init ([1, 1] ++ encodeKeyword [72, 69, 65, 68])) =
      .error .io := by rfl
  refine ⟨h, fun r hr => ?_⟩
  rw [h] at hr
  cases hr

/-! ## The RVM stream parser and the CAD-data creator

Shallow embedding of `src/loader/loader_rvm/rvm_parser.rs`,
`primitive.rs`, `cad_data_creator.rs`, and the tree of
`src/structure/tree/mod.rs`. Byte streams are `List Nat`; 32-bit words are
read big-endian; `f32` fields whose numeric value no claim depends on
(translations, matrices, primitive payloads) are kept as raw 32-bit bit
patterns (`F32Raw`). The `assert!` calls of `CADDataCreator` are modelled
with a distinguished `panic` outcome. The unbounded `read_data` /
`read_group` loops carry explicit fuel; exhaustion is a distinguished
`fuelOut` outcome no theorem identifies with program behaviour. -/

/-- A raw `f32` bit pattern (the parser never interprets the ones the
claims depend on). -/
abbrev F32Raw := Nat

/-- Outcome of a parsing step: success, a propagated `Error`, a Rust
`panic!`/`assert!` abort, or model fuel exhaustion. -/
inductive PResult (α : Type) where
  | ok (value : α)
  | error (e : RError)
  | panic
  | fuelOut
deriving DecidableEq, Repr

namespace PResult

/-- Monadic bind on `PResult`. -/
def bind {α β : Type} : PResult α → (α → PResult β) → PResult β
  | ok a, f => f a
  | error e, _ => error e
  | panic, _ => panic
  | fuelOut, _ => fuelOut

end PResult

theorem PResult.bind_ok {α β : Type} (a : α) (f : α → PResult β) :
    PResult.bind (.ok a) f = f a := rfl

/-- Attach the remaining stream to a creator outcome. -/
def liftRes {α : Type} (r : PResult α) (rest : List Nat) : PResult (List Nat × α) :=
  match r with
  | .ok st => .ok (rest, st)
  | .error e => .error e
  | .panic => .panic
  | .fuelOut => .fuelOut

/-- Read a big-endian `u32` (`ReadBytesExt::read_u32::<BigEndian>`). -/
def readU32 (s : List Nat) : Except RError (Nat × List Nat) :=
  match s with
  | b0 :: b1 :: b2 :: b3 :: rest =>
      .ok (b0 * 16777216 + b1 * 65536 + b2 * 256 + b3, rest)
  | _ => .error .io

/-- Read `n` raw `f32` values (each is a 4-byte big-endian word; the bit
pattern is kept uninterpreted). -/
def readF32Array : Nat → List Nat → Except RError (List F32Raw × List Nat)
  | 0, s => .ok ([], s)
  | n + 1, s =>
      match readU32 s with
      | .error e => .error e
      | .ok (w, s) =>
          match readF32Array n s with
          | .error e => .error e
          | .ok (ws, s) => .ok (w :: ws, s)

/-- Drop everything up to the first `0` byte, as the trailing-zero trim of
`RVMParser::read_string` does (it cuts at the first NUL). -/
def trimAtZero (bytes : List Nat) : List Nat :=
  bytes.takeWhile (fun b => b ≠ 0)

/-- `RVMParser::read_string`: a `u32` word count, then a byte count
computed as `(read_u32()? * 4)` **in `u32` arithmetic** — the product
wraps modulo `2^32` for counts `≥ 2^30` — then that many bytes,
NUL-trimmed. -/
def readString (s : List Nat) : Except RError (List Nat × List Nat) :=
  match readU32 s with
  | .error e => .error e
  | .ok (count, s) =>
      if count * 4 % 4294967296 = 0 then .ok ([], s)
      else if s.length < count * 4 % 4294967296 then .error .io
      else .ok (trimAtZero (s.take (count * 4 % 4294967296)),
          s.drop (count * 4 % 4294967296))

/-- `RVMParser::skip_bytes`: skip `numDwords * 4` bytes via
`std::io::copy(take(n), sink)`, which reads at most `n` bytes and does
**not** fail when the stream ends early. -/
def skipBytes (numDwords : Nat) (s : List Nat) : List Nat :=
  s.drop (numDwords * 4)

/-- `RVMParser::read_until_valid_identifier`: run a fresh
`IdentifierReader` over the stream (`stream.length + 2` fuel always covers
the scan: each iteration past the first consumes input). -/
def readIdentifier (s : List Nat) : Except RError (Identifier × List Nat) :=
  match identRead (s.length + 2) (IdState.init s) with
  | .error e => .error e
  | .ok (id, st) => .ok (id, st.stream)

/-- `Identifier::is_empty`. -/
def Identifier.isEmpty (id : Identifier) : Bool := id.c0 = 0

/-! ### Primitive payload decoding (`primitive.rs`) -/

/-- The decoded primitive payloads of `primitive.rs` (`enum Primitive`),
with `f32` fields kept as raw bit patterns. `polygons` is the nested
polygon → contour → vertex structure, a vertex being six raw floats. -/
inductive RPrimitive where
  | pyramid (inner : List F32Raw)
  | box (inner : List F32Raw)
  | rectangularTorus (inner : List F32Raw)
  | circularTorus (inner : List F32Raw)
  | ellipticalDish (inner : List F32Raw)
  | sphericalDish (inner : List F32Raw)
  | snout (inner : List F32Raw)
  | cylinder (inner : List F32Raw)
  | sphere (diameter : F32Raw)
  | line (inner : List F32Raw)
  | polygons (polys : List (List (List (List F32Raw))))
deriving DecidableEq, Repr

/-- Read `n` vertices of 6 raw floats each. -/
def readPolyVertices : Nat → List Nat → Except RError (List (List F32Raw) × List Nat)
  | 0, s => .ok ([], s)
  | n + 1, s =>
      match readF32Array 6 s with
      | .error e => .error e
      | .ok (v, s) =>
          match readPolyVertices n s with
          | .error e => .error e
          | .ok (vs, s) => .ok (v :: vs, s)

/-- Read `n` contours: per contour a `u32` vertex count that must be
nonzero, then the vertices. -/
def readPolyContours : Nat → List Nat → Except RError (List (List (List F32Raw)) × List Nat)
  | 0, s => .ok ([], s)
  | n + 1, s =>
      match readU32 s with
      | .error e => .error e
      | .ok (numVertices, s) =>
          if numVertices = 0 then .error .invalidFormat
          else
            match readPolyVertices numVertices s with
            | .error e => .error e
            | .ok (vs, s) =>
                match readPolyContours n s with
                | .error e => .error e
                | .ok (cs, s) => .ok (vs :: cs, s)

/-- Read `n` polygons: per polygon a `u32` contour count that must be
nonzero, then the contours. -/
def readPolyList : Nat → List Nat →
    Except RError (List (List (List (List F32Raw))) × List Nat)
  | 0, s => .ok ([], s)
  | n + 1, s =>
      match readU32 s with
      | .error e => .error e
      | .ok (numContours, s) =>
          if numContours = 0 then .error .invalidFormat
          else
            match readPolyContours numContours s with
            | .error e => .error e
            | .ok (cs, s) =>
                match readPolyList n s with
                | .error e => .error e
                | .ok (ps, s) => .ok (cs :: ps, s)

/-- `PolygonsData::from_reader`: a `u32` polygon count (not itself
validated against zero), then the polygons. -/
def polygonsFromReader (s : List Nat) :
    Except RError (List (List (List (List F32Raw))) × List Nat) :=
  match readU32 s with
  | .error e => .error e
  | .ok (numPolygons, s) => readPolyList numPolygons s

/-- `Primitive::from_reader`: dispatch on the primitive type code. -/
def primFromReader (primitiveType : Nat) (s : List Nat) :
    Except RError (RPrimitive × List Nat) :=
  match primitiveType with
  | 1 => (readF32Array 7 s).map (fun r => (.pyramid r.1, r.2))
  | 2 => (readF32Array 3 s).map (fun r => (.box r.1, r.2))
  | 3 => (readF32Array 4 s).map (fun r => (.rectangularTorus r.1, r.2))
  | 4 => (readF32Array 3 s).map (fun r => (.circularTorus r.1, r.2))
  | 5 => (readF32Array 2 s).map (fun r => (.ellipticalDish r.1, r.2))
  | 6 => (readF32Array 2 s).map (fun r => (.sphericalDish r.1, r.2))
  | 7 => (readF32Array 9 s).map (fun r => (.snout r.1, r.2))
  | 8 => (readF32Array 2 s).map (fun r => (.cylinder r.1, r.2))
  | 9 => (readU32 s).map (fun r => (.sphere r.1, r.2))
  | 10 => (readF32Array 2 s).map (fun r => (.line r.1, r.2))
  | 11 => (polygonsFromReader s).map (fun r => (.polygons r.1, r.2))
  | _ => .error .invalidFormat

/-! ### The CAD-data creator (`cad_data_creator.rs`, `tree/mod.rs`) -/

/-- A node of the assembly tree, as `CADDataCreator` populates it: label
bytes, an optional translation transform (the raw `f32` triple of the CNTB
record), an optional material (modelled by its palette index, which is how
`RVMMaterialManager::create_material` resolves it), attached shapes (each
a list of shape-part tags), and child node ids. -/
structure CNode where
  label : List Nat
  translation : Option (F32Raw × F32Raw × F32Raw)
  material : Option Nat
  shapes : List (List Nat)
  children : List Nat
deriving DecidableEq, Repr

/-- `Tree`: the node pool and the root id. -/
structure CTree where
  nodePool : List CNode
  rootNodeId : Option Nat
deriving DecidableEq, Repr

namespace CTree

/-- `Tree::new`. -/
def new : CTree := ⟨[], none⟩

/-- `Tree::create_node`: append a fresh node, make it root if there is
none yet, return its id. -/
def createNode (t : CTree) (label : List Nat) : CTree × Nat :=
  let newId := t.nodePool.length
  let pool := t.nodePool ++ [⟨label, none, none, [], []⟩]
  (⟨pool, if t.rootNodeId = none then some newId else t.rootNodeId⟩, newId)

/-- Apply `f` to the node with the given id (models `get_node_mut`
mutation; ids handed out by `createNode` are always in range). -/
def modifyNode (t : CTree) (nodeId : Nat) (f : CNode → CNode) : CTree :=
  ⟨t.nodePool.set nodeId (f (t.nodePool.getD nodeId ⟨[], none, none, [], []⟩)),
    t.rootNodeId⟩

/-- `Tree::create_node_with_parent`. -/
def createNodeWithParent (t : CTree) (label : List Nat) (parentId : Nat) : CTree × Nat :=
  let (t, newId) := t.createNode label
  (t.modifyNode parentId (fun n => { n with children := n.children ++ [newId] }), newId)

end CTree

/-- The integer significand scale of a finite `f32` bit pattern: the
pattern `n` (sign bit, 8 exponent bits, 23 mantissa bits) denotes the real
value `f32Num n / 2 ^ 149` — a subnormal (`e = 0`) is `±m · 2^(-149)` and
a normal is `±(2^23 + m) · 2^(e - 150) = ±(2^23 + m) · 2^(e-1) / 2^149`.
Clearing the common denominator `2^149` keeps the model computable. -/
def f32Num (n : Nat) : ℤ :=
  let sgn : ℤ := if n / 2147483648 % 2 = 1 then -1 else 1
  let e := n / 8388608 % 256
  let m : ℤ := (n % 8388608 : Nat)
  if e = 0 then sgn * m else sgn * (8388608 + m) * 2 ^ (e - 1)

/-- The real value a finite `f32` bit pattern denotes. -/
noncomputable def f32Val (n : Nat) : ℝ := (f32Num n : ℝ) / 2 ^ 149

/-- `2^447` times the determinant of the `Mat3` transform part of a PRIM
record's 12-float matrix (the first nine words; the last three are the
translation): the determinant on the common-denominator integer scale.
The determinant is transpose-invariant, so the row/column layout of the
nine words is immaterial, and `transform.transpose()` in the tessellators
has the same determinant as `transform`. -/
def mat3Det (mat : List F32Raw) : ℤ :=
  let a := f32Num (mat.getD 0 0); let b := f32Num (mat.getD 1 0)
  let c := f32Num (mat.getD 2 0); let d := f32Num (mat.getD 3 0)
  let e := f32Num (mat.getD 4 0); let f := f32Num (mat.getD 5 0)
  let g := f32Num (mat.getD 6 0); let h := f32Num (mat.getD 7 0)
  let i := f32Num (mat.getD 8 0)
  a * (e * i - f * h) - b * (d * i - f * g) + c * (d * h - e * g)

/-- The real determinant of the decoded `Mat3`. -/
noncomputable def mat3DetR (mat : List F32Raw) : ℝ :=
  f32Val (mat.getD 0 0) *
      (f32Val (mat.getD 4 0) * f32Val (mat.getD 8 0) -
        f32Val (mat.getD 5 0) * f32Val (mat.getD 7 0)) -
    f32Val (mat.getD 1 0) *
      (f32Val (mat.getD 3 0) * f32Val (mat.getD 8 0) -
        f32Val (mat.getD 5 0) * f32Val (mat.getD 6 0)) +
    f32Val (mat.getD 2 0) *
      (f32Val (mat.getD 3 0) * f32Val (mat.getD 7 0) -
        f32Val (mat.getD 4 0) * f32Val (mat.getD 6 0))

/-- The integer-scaled determinant is the real determinant times `2^447`. -/
theorem mat3DetR_eq (mat : List F32Raw) :
    mat3DetR mat = (mat3Det mat : ℝ) / 2 ^ 447 := by
  unfold mat3DetR mat3Det f32Val
  push_cast
  ring

/-- The integer-scaled determinant vanishes exactly when the real
determinant of the decoded matrix does. -/
theorem mat3Det_zero_iff (mat : List F32Raw) :
    mat3Det mat = 0 ↔ mat3DetR mat = 0 := by
  rw [mat3DetR_eq, div_eq_zero_iff]
  norm_num

/-- The mutable state of `CADDataCreator`: the node-id stack (head of the
list is the stack top), the tree under construction, the in-progress
shape accumulator (a list of part tags), and the count of shape parts
created so far (model bookkeeping that names the parts; Rust's parts are
anonymous `ShapePart` values). -/
structure CState where
  nodeStack : List Nat
  tree : CTree
  shape : Option (List Nat)
  partCount : Nat
deriving DecidableEq, Repr

namespace CState

/-- `CADDataCreator::new`. -/
def init : CState := ⟨[], CTree.new, none, 0⟩

/-- The `model` event: create the root node labelled with the model name
and push it. -/
def model (st : CState) (modelName : List Nat) : CState :=
  let (tree, rootId) := st.tree.createNode modelName
  { st with tree := tree, nodeStack := rootId :: st.nodeStack }

/-- Is a primitive kind supported by the tessellation dispatch of
`CADDataCreator::primitive`? (Box, Cylinder, Sphere, Polygons, Pyramid
are tessellated; everything else is logged and skipped.) -/
def primSupported : RPrimitive → Bool
  | .box _ => true
  | .cylinder _ => true
  | .sphere _ => true
  | .polygons _ => true
  | .pyramid _ => true
  | _ => false

/-- The `primitive` event: a supported primitive is tessellated into a
new shape part appended to the open accumulator. Every supported
tessellator first computes `transform.transpose().try_inverse().unwrap()`
for the normal transform (`mesh_builder.rs:114` for box and pyramid,
`cylinder.rs:93`, `sphere.rs:112`, `polygon.rs:78`), which panics when
the transform's determinant is zero; past that unwrap the supported
tessellators return `Ok(mesh)`, so the primitive contributes a part. An
unsupported kind is logged and skipped. The part itself is modelled by
its creation index. -/
def primitive (st : CState) (p : RPrimitive) (matrix : List F32Raw) : PResult CState :=
  if primSupported p then
    if mat3Det matrix = 0 then .panic
    else
      let parts := (st.shape.getD []) ++ [st.partCount]
      .ok { st with shape := some parts, partCount := st.partCount + 1 }
  else .ok st

/-- The `begin_group` event: `assert!(material_id < 256)`, resolve the
material, create a child node under the stack top (`expect`ing a parent),
give it the translation transform and the material, and push it. -/
def beginGroup (st : CState) (groupName : List Nat)
    (translation : F32Raw × F32Raw × F32Raw) (materialId : Nat) : PResult CState :=
  if 256 ≤ materialId then .panic
  else
    match st.nodeStack.head? with
    | none => .panic
    | some parentId =>
        let (tree, newId) := st.tree.createNodeWithParent groupName parentId
        let tree := tree.modifyNode newId
          (fun n => { n with translation := some translation, material := some materialId })
        .ok { st with tree := tree, nodeStack := newId :: st.nodeStack }

/-- The `end_group` event: `assert!(node_stack.len() > 1)`, pop, and
attach the accumulated shape (if any) to the popped node. -/
def endGroup (st : CState) : PResult CState :=
  if st.nodeStack.length ≤ 1 then .panic
  else
    match st.nodeStack with
    | [] => .panic
    | nodeId :: restStack =>
        match st.shape with
        | some parts =>
            .ok { st with
              nodeStack := restStack,
              tree := st.tree.modifyNode nodeId
                (fun n => { n with shapes := n.shapes ++ [parts] }),
              shape := none }
        | none => .ok { st with nodeStack := restStack }

end CState

/-! ### The recursive-descent parser (`rvm_parser.rs`) -/

/-- Lift a fallible read into a `PResult` continuation. -/
def PResult.ofExcept {α β : Type} (x : Except RError α) (f : α → PResult β) : PResult β :=
  match x with
  | .error e => .error e
  | .ok a => f a

/-- `RVMParser::read_head`: scan for the identifier, demand `HEAD`, skip
two dwords, read the version and the banner/file-note/date/user strings,
plus the encoding string when `version ≥ 2`; emit the header event (a
no-op on `CADDataCreator`). -/
def parseHead (s : List Nat) (st : CState) : PResult (List Nat × CState) :=
  PResult.ofExcept (readIdentifier s) fun (id, s) =>
    if id.isEmpty then .error .invalidFormat
    else if ¬ id.eqStr [72, 69, 65, 68] then .error .invalidFormat
    else
      let s := skipBytes 2 s
      PResult.ofExcept (readU32 s) fun (version, s) =>
        PResult.ofExcept (readString s) fun (_, s) =>
          PResult.ofExcept (readString s) fun (_, s) =>
            PResult.ofExcept (readString s) fun (_, s) =>
              PResult.ofExcept (readString s) fun (_, s) =>
                if 2 ≤ version then
                  PResult.ofExcept (readString s) fun (_, s) => .ok (s, st)
                else .ok (s, st)

/-- `RVMParser::read_model`: scan for the identifier, demand `MODL`, skip
two dwords, read the version, the project name and the model name, and
emit the model event. -/
def parseModel (s : List Nat) (st : CState) : PResult (List Nat × CState) :=
  PResult.ofExcept (readIdentifier s) fun (id, s) =>
    if id.isEmpty then .error .invalidFormat
    else if ¬ id.eqStr [77, 79, 68, 76] then .error .invalidFormat
    else
      let s := skipBytes 2 s
      PResult.ofExcept (readU32 s) fun (_, s) =>
        PResult.ofExcept (readString s) fun (_, s) =>
          PResult.ofExcept (readString s) fun (modelName, s) =>
            .ok (s, st.model modelName)

/-- `RVMParser::read_primitive`: skip two dwords, read version and type
code, the 12-float matrix, skip the 6-float bounding box, decode the
payload, and emit the primitive event with the matrix. -/
def parsePrim (s : List Nat) (st : CState) : PResult (List Nat × CState) :=
  let s := skipBytes 2 s
  PResult.ofExcept (readU32 s) fun (_, s) =>
    PResult.ofExcept (readU32 s) fun (primitiveType, s) =>
      PResult.ofExcept (readF32Array 12 s) fun (matrix, s) =>
        let s := skipBytes 6 s
        PResult.ofExcept (primFromReader primitiveType s) fun (p, s) =>
          liftRes (st.primitive p matrix) s

mutual

/-- The `read_data` loop of `RVMParser`: keyword dispatch at top level
(`END` or an empty identifier terminates, `CNTB` opens a group, `PRIM`
reads a primitive, anything else is a format error). -/
def parseData : Nat → List Nat → CState → PResult (List Nat × CState)
  | 0, _, _ => .fuelOut
  | fuel + 1, s, st =>
      PResult.ofExcept (readIdentifier s) fun (id, s) =>
        if id.isEmpty ∨ id.eqStr [69, 78, 68] then .ok (s, st)
        else if id.eqStr [67, 78, 84, 66] then
          match parseGroup fuel s st with
          | .ok (s, st) => parseData fuel s st
          | .error e => .error e
          | .panic => .panic
          | .fuelOut => .fuelOut
        else if id.eqStr [80, 82, 73, 77] then
          match parsePrim s st with
          | .ok (s, st) => parseData fuel s st
          | .error e => .error e
          | .panic => .panic
          | .fuelOut => .fuelOut
        else .error .invalidFormat

/-- `RVMParser::read_group` up to its child loop: skip two dwords, read
version, name, translation and material id, emit `begin_group`, then run
the child loop. -/
def parseGroup : Nat → List Nat → CState → PResult (List Nat × CState)
  | 0, _, _ => .fuelOut
  | fuel + 1, s, st =>
      let s := skipBytes 2 s
      PResult.ofExcept (readU32 s) fun (_, s) =>
        PResult.ofExcept (readString s) fun (groupName, s) =>
          PResult.ofExcept (readU32 s) fun (t0, s) =>
            PResult.ofExcept (readU32 s) fun (t1, s) =>
              PResult.ofExcept (readU32 s) fun (t2, s) =>
                PResult.ofExcept (readU32 s) fun (materialId, s) =>
                  match st.beginGroup groupName (t0, t1, t2) materialId with
                  | .ok st => parseGroupBody fuel s st
                  | .error e => .error e
                  | .panic => .panic
                  | .fuelOut => .fuelOut

/-- The child loop of `read_group`: `CNTE` (or an empty identifier) ends
the group — three trailing dwords are skipped and `end_group` fires —
while `CNTB`/`PRIM` recurse. -/
def parseGroupBody : Nat → List Nat → CState → PResult (List Nat × CState)
  | 0, _, _ => .fuelOut
  | fuel + 1, s, st =>
      PResult.ofExcept (readIdentifier s) fun (id, s) =>
        if id.isEmpty ∨ id.eqStr [67, 78, 84, 69] then
          let s := skipBytes 3 s
          match st.endGroup with
          | .ok st => .ok (s, st)
          | .error e => .error e
          | .panic => .panic
          | .fuelOut => .fuelOut
        else if id.eqStr [67, 78, 84, 66] then
          match parseGroup fuel s st with
          | .ok (s, st) => parseGroupBody fuel s st
          | .error e => .error e
          | .panic => .panic
          | .fuelOut => .fuelOut
        else if id.eqStr [80, 82, 73, 77] then
          match parsePrim s st with
          | .ok (s, st) => parseGroupBody fuel s st
          | .error e => .error e
          | .panic => .panic
          | .fuelOut => .fuelOut
        else .error .invalidFormat

end

/-- An interpreter event of the `RVMInterpreter` callback trait, as
`CADDataCreator` consumes them. -/
inductive CEvent where
  | header
  | model (modelName : List Nat)
  | primitive (p : RPrimitive) (matrix : List F32Raw)
  | beginGroup (groupName : List Nat) (translation : F32Raw × F32Raw × F32Raw)
      (materialId : Nat)
  | endGroup

/-- Deliver one event to the creator. -/
def stepEvent (ev : CEvent) (st : CState) : PResult CState :=
  match ev with
  | .header => .ok st
  | .model n => .ok (st.model n)
  | .primitive p mat => st.primitive p mat
  | .beginGroup n t m => st.beginGroup n t m
  | .endGroup => st.endGroup

/-- Deliver a sequence of events to the creator. -/
def runEvents : List CEvent → CState → PResult CState
  | [], st => .ok st
  | ev :: evs, st =>
      match stepEvent ev st with
      | .ok st => runEvents evs st
      | .error e => .error e
      | .panic => .panic
      | .fuelOut => .fuelOut

/-- `RVMParser::parse`: header, model, then the data loop, over a fresh
`CADDataCreator`. -/
def parseRvmTail (fuel : Nat) (r : List Nat × CState) : PResult (List Nat × CState) :=
  PResult.bind (parseModel r.1 r.2) fun r => parseData fuel r.1 r.2

def parseRvm (fuel : Nat) (s : List Nat) : PResult (List Nat × CState) :=
  PResult.bind (parseHead s CState.init) (parseRvmTail fuel)

/-- Big-endian byte encoding of a 32-bit word. -/
def encodeU32 (v : Nat) : List Nat :=
  [v / 16777216 % 256, v / 65536 % 256, v / 256 % 256, v % 256]

theorem readU32_encode (v : Nat) (rest : List Nat) :
    readU32 (encodeU32 v ++ rest) = .ok (v % 4294967296, rest) := by
  have h : v / 16777216 % 256 * 16777216 + v / 65536 % 256 * 65536 +
      v / 256 % 256 * 256 + v % 256 = v % 4294967296 := by omega
  show Except.ok (v / 16777216 % 256 * 16777216 + v / 65536 % 256 * 65536 +
      v / 256 % 256 * 256 + v % 256, rest) =
    Except.ok (v % 4294967296, rest)
  rw [h]

/-! ### C9: the guarded end-group pop -/

theorem endGroup_panic_of_depth_le_one {st : CState}
    (h : st.nodeStack.length ≤ 1) : st.endGroup = .panic := by
  unfold CState.endGroup
  rw [if_pos h]

theorem endGroup_ok_pops_one {st st' : CState} (h : st.endGroup = .ok st') :
    2 ≤ st.nodeStack.length ∧
      st'.nodeStack.length = st.nodeStack.length - 1 := by
  unfold CState.endGroup at h
  split_ifs at h with hle
  refine ⟨by omega, ?_⟩
  cases hs : st.nodeStack with
  | nil => rw [hs] at h; cases h
  | cons top rest =>
      rw [hs] at h
      cases hsh : st.shape with
      | some parts => rw [hsh] at h; cases h; simp [hs]
      | none => rw [hsh] at h; cases h; simp [hs]

theorem stepEvent_preserves_depth {ev : CEvent} {st st' : CState}
    (h : stepEvent ev st = .ok st') (hd : 1 ≤ st.nodeStack.length) :
    1 ≤ st'.nodeStack.length := by
  cases ev with
  | header => simp only [stepEvent] at h; cases h; exact hd
  | model n => simp only [stepEvent] at h; cases h; simp [CState.model]
  | primitive p mat =>
      simp only [stepEvent] at h
      unfold CState.primitive at h
      split_ifs at h
      · cases h; simpa using hd
      · cases h; exact hd
  | beginGroup n t m =>
      simp only [stepEvent] at h
      unfold CState.beginGroup at h
      split_ifs at h
      cases hh : st.nodeStack.head? with
      | none => rw [hh] at h; cases h
      | some parent => rw [hh] at h; cases h; simp
  | endGroup =>
      simp only [stepEvent] at h
      have := endGroup_ok_pops_one h
      omega

/-- C9: invoking the end-group event at node-stack depth `≤ 1` hits the
`assert!(node_stack.len() > 1)` guard and panics before any pop or tree
mutation; a successful end-group requires depth `≥ 2` and pops exactly
one entry, and across any successfully processed event sequence a stack
depth of at least 1 is preserved — the stack never pops below depth 1. -/
theorem end_group_guarded_pop :
    (∀ st : CState, st.nodeStack.length ≤ 1 → st.endGroup = .panic) ∧
    (∀ st st' : CState, st.endGroup = .ok st' →
      2 ≤ st.nodeStack.length ∧
        st'.nodeStack.length = st.nodeStack.length - 1) ∧
    (∀ (evs : List CEvent) (st st' : CState), runEvents evs st = .ok st' →
      1 ≤ st.nodeStack.length → 1 ≤ st'.nodeStack.length) := by
  refine ⟨fun st h => endGroup_panic_of_depth_le_one h,
    fun st st' h => endGroup_ok_pops_one h, ?_⟩
  intro evs
  induction evs with
  | nil => intro st st' h hd; cases h; exact hd
  | cons ev evs ih =>
      intro st st' h hd
      unfold runEvents at h
      cases hs : stepEvent ev st with
      | ok st1 =>
          rw [hs] at h
          exact ih st1 st' h (stepEvent_preserves_depth hs hd)
      | error e => rw [hs] at h; cases h
      | panic => rw [hs] at h; cases h
      | fuelOut => rw [hs] at h; cases h

/-- Witness for the end-group guard: a stack of depth 1 makes `end_group`
panic, and from depth 2 the pop returns depth 1. -/
theorem end_group_guarded_pop_witness :
    (CState.mk [0] CTree.new none 0).endGroup = .panic ∧
    (2 ≤ (CState.mk [1, 0] CTree.new none 0).nodeStack.length ∧
      (CState.mk [0] CTree.new none 0).nodeStack.length =
        (CState.mk [1, 0] CTree.new none 0).nodeStack.length - 1) :=
  ⟨end_group_guarded_pop.1 ⟨[0], CTree.new, none, 0⟩ (by decide),
    end_group_guarded_pop.2.1 ⟨[1, 0], CTree.new, none, 0⟩
      ⟨[0], CTree.new, none, 0⟩ rfl⟩

/-! ### C8: zero counts in the nested polygons decoder -/

theorem readPolyVertices_length {n : Nat} {s vs rest}
    (h : readPolyVertices n s = .ok (vs, rest)) : vs.length = n := by
  induction n generalizing s vs rest with
  | zero => cases h; rfl
  | succ n ih =>
      unfold readPolyVertices at h
      split at h
      · cases h
      · split at h
        · cases h
        · cases h
          simp [ih (by assumption)]

theorem readPolyContours_spec {n : Nat} {s cs rest}
    (h : readPolyContours n s = .ok (cs, rest)) :
    cs.length = n ∧ ∀ c ∈ cs, c ≠ [] := by
  induction n generalizing s cs rest with
  | zero => cases h; exact ⟨rfl, by intro c hc; cases hc⟩
  | succ n ih =>
      unfold readPolyContours at h
      split at h
      · cases h
      · split_ifs at h with hz
        split at h
        · cases h
        · split at h
          · cases h
          · cases h
            obtain ⟨hlen, hne⟩ := ih (by assumption)
            refine ⟨by simp [hlen], ?_⟩
            intro c hc
            rcases List.mem_cons.mp hc with rfl | hc
            · have hv := readPolyVertices_length (by assumption)
              intro hnil
              rw [hnil] at hv
              simp at hv
              omega
            · exact hne c hc

theorem readPolyList_spec {n : Nat} {s ps rest}
    (h : readPolyList n s = .ok (ps, rest)) :
    ps.length = n ∧ ∀ p ∈ ps, p ≠ [] ∧ ∀ c ∈ p, c ≠ [] := by
  induction n generalizing s ps rest with
  | zero => cases h; exact ⟨rfl, by intro p hp; cases hp⟩
  | succ n ih =>
      unfold readPolyList at h
      split at h
      · cases h
      · split_ifs at h with hz
        split at h
        · cases h
        · split at h
          · cases h
          · cases h
            obtain ⟨hlen, hne⟩ := ih (by assumption)
            obtain ⟨hclen, hcne⟩ := readPolyContours_spec (by assumption)
            refine ⟨by simp [hlen], ?_⟩
            intro p hp
            rcases List.mem_cons.mp hp with rfl | hp
            · refine ⟨?_, hcne⟩
              intro hnil
              rw [hnil] at hclen
              simp at hclen
              omega
            · exact hne p hp

/-- C8 (amended): `PolygonsData::from_reader` rejects zero contour counts
and zero vertex counts with an `InvalidFormat` error — whenever a nonzero
polygon count is followed by a zero contour count, or a nonzero contour
count by a zero vertex count, the decode fails with `InvalidFormat`, and
a successful decode never contains an empty contour list or an empty
vertex list — but a zero **polygon** count is not validated: it decodes
to `Ok` with an empty polygon list rather than an error. -/
theorem polygons_from_reader_zero_counts :
    (∀ (s : List Nat) ps rest, polygonsFromReader s = .ok (ps, rest) →
      ∀ p ∈ ps, p ≠ [] ∧ ∀ c ∈ p, c ≠ []) ∧
    (∀ (k : Nat) (rest : List Nat), k < 4294967295 →
      polygonsFromReader (encodeU32 (k + 1) ++ encodeU32 0 ++ rest) =
        .error .invalidFormat) ∧
    (∀ (k m : Nat) (rest : List Nat), k < 4294967295 → m < 4294967295 →
      polygonsFromReader (encodeU32 (k + 1) ++ encodeU32 (m + 1) ++
          encodeU32 0 ++ rest) =
        .error .invalidFormat) ∧
    polygonsFromReader [0, 0, 0, 0] = .ok ([], []) := by
  refine ⟨?_, ?_, ?_, rfl⟩
  · intro s ps rest h
    unfold polygonsFromReader at h
    cases h1 : readU32 s with
    | error e => rw [h1] at h; cases h
    | ok r =>
        rw [h1] at h
        exact (readPolyList_spec h).2
  · intro k rest hk
    unfold polygonsFromReader
    rw [List.append_assoc]
    simp only [readU32_encode, Nat.mod_eq_of_lt (show k + 1 < 4294967296 by omega)]
    unfold readPolyList
    simp only [readU32_encode, Nat.zero_mod]
    simp
  · intro k m rest hk hm
    unfold polygonsFromReader
    rw [List.append_assoc, List.append_assoc]
    simp only [readU32_encode, Nat.mod_eq_of_lt (show k + 1 < 4294967296 by omega)]
    unfold readPolyList
    simp only [readU32_encode, Nat.mod_eq_of_lt (show m + 1 < 4294967296 by omega)]
    rw [if_neg (by omega)]
    unfold readPolyContours
    simp only [readU32_encode, Nat.zero_mod]
    simp

/-- Witness: a stream declaring 1 polygon, 1 contour, 1 vertex decodes
successfully with a nonempty contour list holding a nonempty vertex
list, while a zero contour count after polygon count 1 and a zero vertex
count after contour count 1 are `InvalidFormat` errors. -/
theorem polygons_from_reader_zero_counts_witness :
    ([[[(0 : Nat), 0, 0, 0, 0, 0]]] ≠ ([] : List (List (List F32Raw))) ∧
      ∀ c ∈ [[[(0 : Nat), 0, 0, 0, 0, 0]]], c ≠ []) ∧
    polygonsFromReader (encodeU32 1 ++ encodeU32 0 ++ []) =
      .error .invalidFormat ∧
    polygonsFromReader (encodeU32 1 ++ encodeU32 1 ++ encodeU32 0 ++ []) =
      .error .invalidFormat :=
  ⟨polygons_from_reader_zero_counts.1
      ([0, 0, 0, 1, 0, 0, 0, 1, 0, 0, 0, 1] ++ List.replicate 24 0)
      [[[[0, 0, 0, 0, 0, 0]]]] [] (by rfl)
      [[[0, 0, 0, 0, 0, 0]]] (by decide),
    polygons_from_reader_zero_counts.2.1 0 [] (by decide),
    polygons_from_reader_zero_counts.2.2.1 0 0 [] (by decide) (by decide)⟩

/-- Counterexample to C8 as stated: a zero polygon count is **not** an
`InvalidFormat` error — the stream `[0,0,0,0]` (polygon count 0) decodes
to `Ok` with an empty polygon list. -/
theorem polygons_zero_polygon_count_counterexample :
    polygonsFromReader [0, 0, 0, 0] = .ok ([], []) ∧
    ∀ e, polygonsFromReader [0, 0, 0, 0] ≠ .error e := by
  refine ⟨rfl, fun e he => ?_⟩
  rw [show polygonsFromReader [0, 0, 0, 0] = .ok ([], []) from rfl] at he
  cases he

/-! ### C7: out-of-range material id in a CNTB record -/

/-- A complete RVM stream whose single CNTB record carries material id
`256` (one byte too large): HEAD (version 1, empty strings), MODL
(version 1, empty strings), CNTB (version 1, empty name, zero
translation, material `256`). -/
def materialOverflowStream : List Nat :=
  encodeKeyword [72, 69, 65, 68] ++ List.replicate 8 0 ++ encodeU32 1 ++
    encodeU32 0 ++ encodeU32 0 ++ encodeU32 0 ++ encodeU32 0 ++
  encodeKeyword [77, 79, 68, 76] ++ List.replicate 8 0 ++ encodeU32 1 ++
    encodeU32 0 ++ encodeU32 0 ++
  encodeKeyword [67, 78, 84, 66] ++ List.replicate 8 0 ++ encodeU32 1 ++
    encodeU32 0 ++ List.replicate 12 0 ++ encodeU32 256

set_option maxRecDepth 40000 in
/-- Counterexample to C7 as stated: a CNTB material id that does not fit
in one byte does **not** abort the parse with an `InvalidFormat` error —
`CADDataCreator::begin_group` hits `assert!(material_id < 256)` and
the loader dies with a panic, which is a different failure mode. -/
theorem material_overflow_panics_counterexample :
    parseRvm 9 materialOverflowStream = .panic ∧
    ∀ e, parseRvm 9 materialOverflowStream ≠ .error e := by
  have h : parseRvm 9 materialOverflowStream = .panic := by rfl
  refine ⟨h, fun e he => ?_⟩
  rw [h] at he
  cases he

/-- C7 (amended): a CNTB group record whose material index is `≥ 256`
makes the import abort via the `assert!(material_id < 256)` panic in
`begin_group` — deterministically, before any node is created — and a
group node is only ever created for material ids `< 256`. -/
theorem material_id_overflow_aborts_with_panic :
    (∀ (st : CState) (name : List Nat) (tr : F32Raw × F32Raw × F32Raw)
      (materialId : Nat), 256 ≤ materialId →
        st.beginGroup name tr materialId = .panic) ∧
    (∀ (st : CState) (name : List Nat) (tr : F32Raw × F32Raw × F32Raw)
      (materialId : Nat) (st' : CState),
        st.beginGroup name tr materialId = .ok st' → materialId < 256) := by
  constructor
  · intro st name tr materialId h
    unfold CState.beginGroup
    rw [if_pos h]
  · intro st name tr materialId st' h
    unfold CState.beginGroup at h
    split_ifs at h with hge
    omega

/-- Witness: material id `256` panics `begin_group` from any state. -/
theorem material_id_overflow_witness :
    CState.init.beginGroup [] (0, 0, 0) 256 = .panic :=
  material_id_overflow_aborts_with_panic.1 CState.init [] (0, 0, 0) 256 (by decide)

/-! ### A grammar of well-formed RVM streams (for C2 and C10)

The grammar generates exactly the streams the spec calls well-formed:
`HEAD`, `MODL`, then balanced `CNTB`/`CNTE` sections with `PRIM` records,
terminated by `END`. Group names, translations, versions, primitive
payloads and polygon structures are arbitrary; the unread padding dwords
(the "garbage?" dwords skipped after each keyword, the primitive matrix
and its skipped bounding box, and the three dwords skipped after `CNTE`)
are encoded as zero bytes, which the parser provably never interprets. -/

mutual

/-- One top-level or group-level record. `prim` covers the ten fixed-arity
primitive type codes 1–10 (`ptypeIdx.val + 1` is the wire type code);
`polyPrim` is type code 11 with its nested polygon payload (a vertex is a
list of six raw words). -/
inductive RItem where
  | group (version : Nat) (name : List Nat) (t0 t1 t2 : Nat) (materialId : Nat)
      (children : RItems)
  | prim (version : Nat) (ptypeIdx : Fin 10) (matrix : List Nat) (payload : List Nat)
  | polyPrim (version : Nat) (matrix : List Nat)
      (polys : List (List (List (List Nat))))

/-- A sequence of records. -/
inductive RItems where
  | nil
  | cons (head : RItem) (tail : RItems)

end

/-- The word count of the fixed-arity payload of primitive type code
`ptypeIdx.val + 1` (pyramid 7, box 3, rtorus 4, ctorus 3, edish 2,
sdish 2, snout 9, cylinder 2, sphere 1, line 2). -/
def primArity (t : Fin 10) : Nat :=
  match t with
  | ⟨0, _⟩ => 7
  | ⟨1, _⟩ => 3
  | ⟨2, _⟩ => 4
  | ⟨3, _⟩ => 3
  | ⟨4, _⟩ => 2
  | ⟨5, _⟩ => 2
  | ⟨6, _⟩ => 9
  | ⟨7, _⟩ => 2
  | ⟨8, _⟩ => 1
  | ⟨9, _⟩ => 2

/-- The decoded primitive a fixed-arity record parses to (`readU32` leaves
every word reduced modulo `2^32`). -/
def decodePrim (t : Fin 10) (payload : List Nat) : RPrimitive :=
  match t with
  | ⟨0, _⟩ => .pyramid (payload.map (· % 4294967296))
  | ⟨1, _⟩ => .box (payload.map (· % 4294967296))
  | ⟨2, _⟩ => .rectangularTorus (payload.map (· % 4294967296))
  | ⟨3, _⟩ => .circularTorus (payload.map (· % 4294967296))
  | ⟨4, _⟩ => .ellipticalDish (payload.map (· % 4294967296))
  | ⟨5, _⟩ => .sphericalDish (payload.map (· % 4294967296))
  | ⟨6, _⟩ => .snout (payload.map (· % 4294967296))
  | ⟨7, _⟩ => .cylinder (payload.map (· % 4294967296))
  | ⟨8, _⟩ => .sphere (payload.headD 0 % 4294967296)
  | ⟨9, _⟩ => .line (payload.map (· % 4294967296))

/-- The decoded polygons payload. -/
def decodePolys (polys : List (List (List (List Nat)))) :
    List (List (List (List F32Raw))) :=
  polys.map (fun p => p.map (fun c => c.map (fun v => v.map (· % 4294967296))))

mutual

/-- Well-formedness of a record: string word counts stay below `2^30` (so
the `u32` byte-count product in `read_string` does not wrap), material ids
fit in a byte, fixed-arity payloads have their exact arity, the matrix has
12 words and — for the primitive kinds that reach a tessellator — decodes
to a matrix with nonzero determinant (else the
`transform.transpose().try_inverse().unwrap()` in the tessellators
panics), and polygon/contour/vertex lists are nonempty with vertex
arity 6. -/
def WFItem : RItem → Prop
  | .group _ name _ _ _ materialId children =>
      name.length < 1073741824 ∧ materialId < 256 ∧ WFItems children
  | .prim _ t matrix payload =>
      matrix.length = 12 ∧ payload.length = primArity t ∧
      (CState.primSupported (decodePrim t payload) = true →
        mat3Det (matrix.map (· % 4294967296)) ≠ 0)
  | .polyPrim _ matrix polys =>
      matrix.length = 12 ∧ mat3Det (matrix.map (· % 4294967296)) ≠ 0 ∧
      polys.length < 4294967296 ∧
      ∀ p ∈ polys, p ≠ [] ∧ p.length < 4294967296 ∧
        ∀ c ∈ p, c ≠ [] ∧ c.length < 4294967296 ∧ ∀ v ∈ c, v.length = 6

/-- Well-formedness of a record sequence. -/
def WFItems : RItems → Prop
  | .nil => True
  | .cons it rest => WFItem it ∧ WFItems rest

end

mutual

/-- Number of CNTB records (groups), nested ones included. -/
def countGroupsItem : RItem → Nat
  | .group _ _ _ _ _ _ children => 1 + countGroupsItems children
  | .prim _ _ _ _ => 0
  | .polyPrim _ _ _ => 0

/-- Number of CNTB records in a sequence. -/
def countGroupsItems : RItems → Nat
  | .nil => 0
  | .cons it rest => countGroupsItem it + countGroupsItems rest

end

mutual

/-- Fuel needed by the parser loops for one record (one loop iteration
per record, one extra for entering a group and one for its closing CNTE
iteration). -/
def sizeItem : RItem → Nat
  | .group _ _ _ _ _ _ children => 2 + sizeItems children
  | .prim _ _ _ _ => 1
  | .polyPrim _ _ _ => 1

/-- Fuel needed for a sequence plus its terminating keyword iteration. -/
def sizeItems : RItems → Nat
  | .nil => 1
  | .cons it rest => sizeItem it + sizeItems rest

end

/-- Encode a length-prefixed string. -/
def encodeString (ws : List Nat) : List Nat :=
  encodeU32 ws.length ++ (ws.map encodeU32).flatten

/-- Encode one polygon contour: vertex count, then the vertices. -/
def encodeContour (c : List (List Nat)) : List Nat :=
  encodeU32 c.length ++ (c.map (fun v => (v.map encodeU32).flatten)).flatten

/-- Encode one polygon: contour count, then the contours. -/
def encodePoly (p : List (List (List Nat))) : List Nat :=
  encodeU32 p.length ++ (p.map encodeContour).flatten

/-- Encode a polygons payload: polygon count, then the polygons. -/
def encodePolys (polys : List (List (List (List Nat)))) : List Nat :=
  encodeU32 polys.length ++ (polys.map encodePoly).flatten

mutual

/-- Encode one record as it appears on the wire (keyword included). -/
def encodeItem : RItem → List Nat
  | .group version name t0 t1 t2 materialId children =>
      encodeKeyword [67, 78, 84, 66] ++ List.replicate 8 0 ++ encodeU32 version ++
        encodeString name ++ encodeU32 t0 ++ encodeU32 t1 ++ encodeU32 t2 ++
        encodeU32 materialId ++ encodeItems children ++
        encodeKeyword [67, 78, 84, 69] ++ List.replicate 12 0
  | .prim version t matrix payload =>
      encodeKeyword [80, 82, 73, 77] ++ List.replicate 8 0 ++ encodeU32 version ++
        encodeU32 (t.val + 1) ++ (matrix.map encodeU32).flatten ++
        List.replicate 24 0 ++ (payload.map encodeU32).flatten
  | .polyPrim version matrix polys =>
      encodeKeyword [80, 82, 73, 77] ++ List.replicate 8 0 ++ encodeU32 version ++
        encodeU32 11 ++ (matrix.map encodeU32).flatten ++
        List.replicate 24 0 ++ encodePolys polys

/-- Encode a record sequence. -/
def encodeItems : RItems → List Nat
  | .nil => []
  | .cons it rest => encodeItem it ++ encodeItems rest

end

mutual

/-- The pure reference semantics of one interpreter event sequence for a
record: what `CADDataCreator` does when the parser feeds it the record's
events. -/
def runItem (st : CState) : RItem → PResult CState
  | .group _ name t0 t1 t2 materialId children =>
      PResult.bind
        (st.beginGroup (trimAtZero (name.map encodeU32).flatten)
          (t0 % 4294967296, t1 % 4294967296, t2 % 4294967296) (materialId % 4294967296))
        (fun st => PResult.bind (runItems st children) CState.endGroup)
  | .prim _ t matrix payload =>
      st.primitive (decodePrim t payload) (matrix.map (· % 4294967296))
  | .polyPrim _ matrix polys =>
      st.primitive (.polygons (decodePolys polys)) (matrix.map (· % 4294967296))

/-- The pure reference semantics of a record sequence. -/
def runItems (st : CState) : RItems → PResult CState
  | .nil => .ok st
  | .cons it rest => PResult.bind (runItem st it) (fun st => runItems st rest)

end

/-! ### Decoding lemmas for the encoders -/

theorem flatten_encodeU32_length (ws : List Nat) :
    ((ws.map encodeU32).flatten).length = 4 * ws.length := by
  induction ws with
  | nil => rfl
  | cons w ws ih =>
      simp only [List.map_cons, List.flatten_cons, List.length_append, ih,
        List.length_cons]
      simp [encodeU32]
      omega

theorem readString_encode (ws : List Nat) (rest : List Nat)
    (h : ws.length < 1073741824) :
    readString (encodeString ws ++ rest) =
      .ok (trimAtZero ((ws.map encodeU32).flatten), rest) := by
  unfold readString encodeString
  rw [List.append_assoc]
  simp only [readU32_encode, Nat.mod_eq_of_lt (show ws.length < 4294967296 by omega)]
  rw [Nat.mod_eq_of_lt (show ws.length * 4 < 4294967296 by omega)]
  by_cases hz : ws.length * 4 = 0
  · have hnil : ws = [] := by
      cases ws with
      | nil => rfl
      | cons w ws' => simp at hz
    subst hnil
    simp [trimAtZero]
  · rw [if_neg hz, if_neg (by rw [List.length_append, flatten_encodeU32_length]; omega),
      List.take_left' (by rw [flatten_encodeU32_length]; omega),
      List.drop_left' (by rw [flatten_encodeU32_length]; omega)]

theorem readF32Array_encode (ws : List Nat) (rest : List Nat) :
    readF32Array ws.length ((ws.map encodeU32).flatten ++ rest) =
      .ok (ws.map (· % 4294967296), rest) := by
  induction ws generalizing rest with
  | nil => rfl
  | cons w ws ih =>
      simp only [List.length_cons, List.map_cons, List.flatten_cons, List.append_assoc]
      unfold readF32Array
      simp only [readU32_encode, ih]

theorem readF32Array_encode' {n : Nat} (ws : List Nat) (rest : List Nat)
    (h : ws.length = n) :
    readF32Array n ((ws.map encodeU32).flatten ++ rest) =
      .ok (ws.map (· % 4294967296), rest) := by
  subst h
  exact readF32Array_encode ws rest

theorem skipBytes_replicate (k : Nat) (rest : List Nat) :
    skipBytes k (List.replicate (k * 4) 0 ++ rest) = rest := by
  unfold skipBytes
  exact List.drop_left' (by simp)

theorem readPolyVertices_encode (c : List (List Nat)) (rest : List Nat)
    (h6 : ∀ v ∈ c, v.length = 6) :
    readPolyVertices c.length
        ((c.map (fun v => ((v.map encodeU32).flatten))).flatten ++ rest) =
      .ok (c.map (fun v => v.map (· % 4294967296)), rest) := by
  induction c generalizing rest with
  | nil => rfl
  | cons v c ih =>
      simp only [List.length_cons, List.map_cons, List.flatten_cons, List.append_assoc]
      unfold readPolyVertices
      rw [readF32Array_encode' v _ (h6 v (by simp))]
      simp only [ih _ (fun v hv => h6 v (by simp [hv]))]

theorem readPolyContours_encode (p : List (List (List Nat))) (rest : List Nat)
    (hWF : ∀ c ∈ p, c ≠ [] ∧ c.length < 4294967296 ∧ ∀ v ∈ c, v.length = 6) :
    readPolyContours p.length ((p.map encodeContour).flatten ++ rest) =
      .ok (p.map (fun c => c.map (fun v => v.map (· % 4294967296))), rest) := by
  induction p generalizing rest with
  | nil => rfl
  | cons c p ih =>
      obtain ⟨hne, hlt, h6⟩ := hWF c (by simp)
      simp only [List.length_cons, List.map_cons, List.flatten_cons, List.append_assoc]
      unfold readPolyContours
      rw [show encodeContour c =
          encodeU32 c.length ++ (c.map (fun v => ((v.map encodeU32).flatten))).flatten
          from rfl,
        List.append_assoc]
      simp only [readU32_encode, Nat.mod_eq_of_lt hlt]
      rw [if_neg (by simpa using hne)]
      simp only [readPolyVertices_encode c _ h6,
        ih _ (fun c hc => hWF c (by simp [hc]))]

theorem readPolyList_encode (polys : List (List (List (List Nat)))) (rest : List Nat)
    (hWF : ∀ p ∈ polys, p ≠ [] ∧ p.length < 4294967296 ∧
      ∀ c ∈ p, c ≠ [] ∧ c.length < 4294967296 ∧ ∀ v ∈ c, v.length = 6) :
    readPolyList polys.length ((polys.map encodePoly).flatten ++ rest) =
      .ok (decodePolys polys, rest) := by
  induction polys generalizing rest with
  | nil => rfl
  | cons p polys ih =>
      obtain ⟨hne, hlt, hcs⟩ := hWF p (by simp)
      simp only [List.length_cons, List.map_cons, List.flatten_cons, List.append_assoc]
      unfold readPolyList
      rw [show encodePoly p = encodeU32 p.length ++ (p.map encodeContour).flatten from rfl,
        List.append_assoc]
      simp only [readU32_encode, Nat.mod_eq_of_lt hlt]
      rw [if_neg (by simpa using hne)]
      simp only [readPolyContours_encode p _ hcs,
        ih _ (fun p hp => hWF p (by simp [hp]))]
      rfl

theorem polygonsFromReader_encode (polys : List (List (List (List Nat))))
    (rest : List Nat)
    (hlen : polys.length < 4294967296)
    (hWF : ∀ p ∈ polys, p ≠ [] ∧ p.length < 4294967296 ∧
      ∀ c ∈ p, c ≠ [] ∧ c.length < 4294967296 ∧ ∀ v ∈ c, v.length = 6) :
    polygonsFromReader (encodePolys polys ++ rest) = .ok (decodePolys polys, rest) := by
  unfold polygonsFromReader encodePolys
  rw [List.append_assoc]
  simp only [readU32_encode, Nat.mod_eq_of_lt hlen]
  exact readPolyList_encode polys rest hWF

/-! ### Aligned keyword reads -/

theorem readIdentifier_of_step {s : List Nat} {id : Identifier} {st : IdState}
    (h : identStep (IdState.init s) = .ok (.inr (id, st))) :
    readIdentifier s = .ok (id, st.stream) := by
  unfold readIdentifier
  rw [show s.length + 2 = (s.length + 1) + 1 from rfl, identRead_done h]

theorem readIdentifier_HEAD (rest : List Nat) :
    readIdentifier (encodeKeyword [72, 69, 65, 68] ++ rest) = .ok (⟨72, 69, 65, 68⟩, rest) :=
  @readIdentifier_of_step _ _ ⟨encodeKeyword [72, 69, 65, 68], 16, rest⟩
    (by simp +arith +decide [identStep, IdState.init, IdState.readBytesUntil,
      IdState.readFirstThreeChars, IdState.readLastChar, Identifier.isValid,
      Identifier.eqStr, encodeKeyword, List.getD])

theorem readIdentifier_MODL (rest : List Nat) :
    readIdentifier (encodeKeyword [77, 79, 68, 76] ++ rest) = .ok (⟨77, 79, 68, 76⟩, rest) :=
  @readIdentifier_of_step _ _ ⟨encodeKeyword [77, 79, 68, 76], 16, rest⟩
    (by simp +arith +decide [identStep, IdState.init, IdState.readBytesUntil,
      IdState.readFirstThreeChars, IdState.readLastChar, Identifier.isValid,
      Identifier.eqStr, encodeKeyword, List.getD])

theorem readIdentifier_CNTB (rest : List Nat) :
    readIdentifier (encodeKeyword [67, 78, 84, 66] ++ rest) = .ok (⟨67, 78, 84, 66⟩, rest) :=
  @readIdentifier_of_step _ _ ⟨encodeKeyword [67, 78, 84, 66], 16, rest⟩
    (by simp +arith +decide [identStep, IdState.init, IdState.readBytesUntil,
      IdState.readFirstThreeChars, IdState.readLastChar, Identifier.isValid,
      Identifier.eqStr, encodeKeyword, List.getD])

theorem readIdentifier_CNTE (rest : List Nat) :
    readIdentifier (encodeKeyword [67, 78, 84, 69] ++ rest) = .ok (⟨67, 78, 84, 69⟩, rest) :=
  @readIdentifier_of_step _ _ ⟨encodeKeyword [67, 78, 84, 69], 16, rest⟩
    (by simp +arith +decide [identStep, IdState.init, IdState.readBytesUntil,
      IdState.readFirstThreeChars, IdState.readLastChar, Identifier.isValid,
      Identifier.eqStr, encodeKeyword, List.getD])

theorem readIdentifier_PRIM (rest : List Nat) :
    readIdentifier (encodeKeyword [80, 82, 73, 77] ++ rest) = .ok (⟨80, 82, 73, 77⟩, rest) :=
  @readIdentifier_of_step _ _ ⟨encodeKeyword [80, 82, 73, 77], 16, rest⟩
    (by simp +arith +decide [identStep, IdState.init, IdState.readBytesUntil,
      IdState.readFirstThreeChars, IdState.readLastChar, Identifier.isValid,
      Identifier.eqStr, encodeKeyword, List.getD])

theorem skipBytes_two (rest : List Nat) :
    skipBytes 2 (List.replicate 8 0 ++ rest) = rest := skipBytes_replicate 2 rest

theorem skipBytes_three (rest : List Nat) :
    skipBytes 3 (List.replicate 12 0 ++ rest) = rest := skipBytes_replicate 3 rest

theorem skipBytes_six (rest : List Nat) :
    skipBytes 6 (List.replicate 24 0 ++ rest) = rest := skipBytes_replicate 6 rest

theorem readIdentifier_END (rest : List Nat) :
    readIdentifier (encodeKeyword [69, 78, 68] ++ rest) = .ok (⟨69, 78, 68, 0⟩, rest) :=
  @readIdentifier_of_step _ _ ⟨encodeKeyword [69, 78, 68] ++ [0, 0, 0, 0], 12, rest⟩
    (by simp +arith +decide [identStep, IdState.init, IdState.readBytesUntil,
      IdState.readFirstThreeChars, IdState.readLastChar, Identifier.isValid,
      Identifier.eqStr, encodeKeyword, List.getD])

/-! ### Record-level parser correctness over the grammar encoders -/

/-- The wire encoding of a HEAD record. -/
def encodeHead (headVersion : Nat) (banner fileNote date user encoding : List Nat) :
    List Nat :=
  encodeKeyword [72, 69, 65, 68] ++ List.replicate 8 0 ++ encodeU32 headVersion ++
    encodeString banner ++ encodeString fileNote ++ encodeString date ++
    encodeString user ++
    (if 2 ≤ headVersion % 4294967296 then encodeString encoding else [])

/-- The wire encoding of a MODL record. -/
def encodeModel (modelVersion : Nat) (projectName modelName : List Nat) : List Nat :=
  encodeKeyword [77, 79, 68, 76] ++ List.replicate 8 0 ++ encodeU32 modelVersion ++
    encodeString projectName ++ encodeString modelName

theorem parseHead_encode (headVersion : Nat)
    (banner fileNote date user encoding : List Nat) (rest : List Nat) (st : CState)
    (hb : banner.length < 1073741824) (hf : fileNote.length < 1073741824)
    (hd : date.length < 1073741824) (hu : user.length < 1073741824)
    (he : encoding.length < 1073741824) :
    parseHead (encodeHead headVersion banner fileNote date user encoding ++ rest) st =
      .ok (rest, st) := by
  unfold parseHead encodeHead
  by_cases h2 : 2 ≤ headVersion % 4294967296
  · rw [if_pos h2]
    simp only [List.append_assoc, readIdentifier_HEAD, PResult.ofExcept]
    rw [if_neg (by decide), if_neg (by decide)]
    rw [skipBytes_two]
    simp only [readU32_encode, PResult.ofExcept, readString_encode _ _ hb,
      readString_encode _ _ hf, readString_encode _ _ hd, readString_encode _ _ hu,
      readString_encode _ _ he]
    rw [if_pos h2]
  · rw [if_neg h2]
    simp only [List.append_assoc, readIdentifier_HEAD, PResult.ofExcept]
    rw [if_neg (by decide), if_neg (by decide)]
    rw [skipBytes_two]
    simp only [readU32_encode, PResult.ofExcept, readString_encode _ _ hb,
      readString_encode _ _ hf, readString_encode _ _ hd, readString_encode _ _ hu,
      List.append_nil]
    rw [if_neg h2]
    rfl

theorem parseModel_encode (modelVersion : Nat) (projectName modelName : List Nat)
    (rest : List Nat) (st : CState)
    (hp : projectName.length < 1073741824) (hm : modelName.length < 1073741824) :
    parseModel (encodeModel modelVersion projectName modelName ++ rest) st =
      .ok (rest, st.model (trimAtZero ((modelName.map encodeU32).flatten))) := by
  unfold parseModel encodeModel
  simp only [List.append_assoc, readIdentifier_MODL, PResult.ofExcept]
  rw [if_neg (by decide), if_neg (by decide)]
  rw [skipBytes_two]
  simp only [readU32_encode, PResult.ofExcept, readString_encode _ _ hp,
    readString_encode _ _ hm]

theorem parsePrim_encode_fixed (version : Nat) (t : Fin 10)
    (matrix payload : List Nat) (rest : List Nat) (st : CState)
    (hm : matrix.length = 12) (hp : payload.length = primArity t) :
    parsePrim (List.replicate 8 0 ++ encodeU32 version ++ encodeU32 (t.val + 1) ++
        (matrix.map encodeU32).flatten ++ List.replicate 24 0 ++
        (payload.map encodeU32).flatten ++ rest) st =
      liftRes (st.primitive (decodePrim t payload)
        (matrix.map (· % 4294967296))) rest := by
  unfold parsePrim
  simp only [List.append_assoc]
  rw [skipBytes_two]
  simp only [readU32_encode, PResult.ofExcept]
  rw [Nat.mod_eq_of_lt (a := t.val + 1) (by omega)]
  rw [readF32Array_encode' matrix _ hm]
  simp only [PResult.ofExcept]
  rw [skipBytes_six]
  fin_cases t <;>
    first
      | (simp only [primFromReader, PResult.ofExcept]
         rw [readF32Array_encode' payload _ (by simpa [primArity] using hp)]
         simp [decodePrim, Except.map, PResult.ofExcept])
      | (cases payload with
         | nil => simp [primArity] at hp
         | cons w ws =>
             cases ws with
             | cons w2 ws2 => simp [primArity] at hp
             | nil =>
                 simp only [primFromReader, PResult.ofExcept, List.map_cons, List.map_nil,
                   List.flatten_cons, List.flatten_nil, List.append_nil, List.append_assoc,
                   readU32_encode]
                 simp [decodePrim, Except.map, PResult.ofExcept])

theorem parsePrim_encode_polys (version : Nat) (matrix : List Nat)
    (polys : List (List (List (List Nat)))) (rest : List Nat) (st : CState)
    (hm : matrix.length = 12)
    (hlen : polys.length < 4294967296)
    (hWF : ∀ p ∈ polys, p ≠ [] ∧ p.length < 4294967296 ∧
      ∀ c ∈ p, c ≠ [] ∧ c.length < 4294967296 ∧ ∀ v ∈ c, v.length = 6) :
    parsePrim (List.replicate 8 0 ++ encodeU32 version ++ encodeU32 11 ++
        (matrix.map encodeU32).flatten ++ List.replicate 24 0 ++
        encodePolys polys ++ rest) st =
      liftRes (st.primitive (.polygons (decodePolys polys))
        (matrix.map (· % 4294967296))) rest := by
  unfold parsePrim
  simp only [List.append_assoc]
  rw [skipBytes_two]
  simp only [readU32_encode, PResult.ofExcept]
  rw [readF32Array_encode' matrix _ hm]
  simp only [PResult.ofExcept]
  rw [skipBytes_six]
  simp only [primFromReader, PResult.ofExcept,
    polygonsFromReader_encode polys rest hlen hWF]
  rfl

/-! ### The loop-level correspondence -/

theorem sizeItem_pos (it : RItem) : 1 ≤ sizeItem it := by
  cases it <;> simp [sizeItem] <;> omega

theorem sizeItems_pos (items : RItems) : 1 ≤ sizeItems items := by
  cases items with
  | nil => simp [sizeItems]
  | cons it rest =>
      have := sizeItem_pos it
      simp [sizeItems]
      omega

/-- The stream after a group's payload: the encoded children, the CNTE
keyword with its skipped dwords, and the rest. -/
theorem parse_loops_encode (fuel : Nat) :
    (∀ items : RItems, WFItems items → sizeItems items ≤ fuel →
      ∀ (rest : List Nat) (st : CState),
        parseData fuel
            (encodeItems items ++ encodeKeyword [69, 78, 68] ++ rest) st =
          liftRes (runItems st items) rest) ∧
    (∀ items : RItems, WFItems items → sizeItems items ≤ fuel →
      ∀ (rest : List Nat) (st : CState),
        parseGroupBody fuel
            (encodeItems items ++ encodeKeyword [67, 78, 84, 69] ++
              List.replicate 12 0 ++ rest) st =
          liftRes (PResult.bind (runItems st items) CState.endGroup) rest) ∧
    (∀ (version : Nat) (name : List Nat) (t0 t1 t2 materialId : Nat)
      (children : RItems), name.length < 1073741824 → WFItems children →
      1 + sizeItems children ≤ fuel →
      ∀ (rest : List Nat) (st : CState),
        parseGroup fuel
            (List.replicate 8 0 ++ encodeU32 version ++ encodeString name ++
              encodeU32 t0 ++ encodeU32 t1 ++ encodeU32 t2 ++
              encodeU32 materialId ++ encodeItems children ++
              encodeKeyword [67, 78, 84, 69] ++ List.replicate 12 0 ++ rest) st =
          liftRes (runItem st (.group version name t0 t1 t2 materialId children))
            rest) := by
  induction fuel using Nat.strong_induction_on with
  | _ fuel ih =>
  refine ⟨?_, ?_, ?_⟩
  · -- parseData
    intro items hWF hsz rest st
    cases fuel with
    | zero => exact absurd hsz (by have := sizeItems_pos items; omega)
    | succ f =>
    cases items with
    | nil =>
        simp only [encodeItems, List.nil_append, parseData, List.append_assoc,
          readIdentifier_END, PResult.ofExcept]
        rw [if_pos (by decide)]
        rfl
    | cons it rest' =>
        cases it with
        | group version name t0 t1 t2 materialId children =>
            obtain ⟨hname, hmid, hWFc⟩ := hWF.1
            simp only [encodeItems, encodeItem, List.append_assoc, parseData,
              readIdentifier_CNTB, PResult.ofExcept]
            rw [if_neg (by decide), if_pos (by decide)]
            rw [show List.replicate 8 0 ++ (encodeU32 version ++ (encodeString name ++
                (encodeU32 t0 ++ (encodeU32 t1 ++ (encodeU32 t2 ++
                (encodeU32 materialId ++ (encodeItems children ++
                (encodeKeyword [67, 78, 84, 69] ++ (List.replicate 12 0 ++
                (encodeItems rest' ++ (encodeKeyword [69, 78, 68] ++ rest))))))))))) =
              List.replicate 8 0 ++ encodeU32 version ++ encodeString name ++
                encodeU32 t0 ++ encodeU32 t1 ++ encodeU32 t2 ++
                encodeU32 materialId ++ encodeItems children ++
                encodeKeyword [67, 78, 84, 69] ++ List.replicate 12 0 ++
                (encodeItems rest' ++ (encodeKeyword [69, 78, 68] ++ rest))
              by simp [List.append_assoc]]
            rw [(ih f (by omega)).2.2 version name t0 t1 t2 materialId children hname
              hWFc (by simp [sizeItems, sizeItem] at hsz; omega)
              (encodeItems rest' ++ (encodeKeyword [69, 78, 68] ++ rest)) st]
            cases hr : runItem st (.group version name t0 t1 t2 materialId children) with
            | ok st2 =>
                show parseData f
                  (encodeItems rest' ++ (encodeKeyword [69, 78, 68] ++ rest)) st2 = _
                rw [← List.append_assoc]
                rw [(ih f (by omega)).1 rest' hWF.2
                  (by have := sizeItems_pos children; simp [sizeItems, sizeItem] at hsz ⊢; omega)
                  rest st2]
                simp [runItems, hr, PResult.bind]
            | error e => simp [liftRes, runItems, hr, PResult.bind]
            | panic => simp [liftRes, runItems, hr, PResult.bind]
            | fuelOut => simp [liftRes, runItems, hr, PResult.bind]
        | prim version t matrix payload =>
            obtain ⟨hmat, hpay, -⟩ := hWF.1
            simp only [encodeItems, encodeItem, List.append_assoc, parseData,
              readIdentifier_PRIM, PResult.ofExcept]
            rw [if_neg (by decide), if_neg (by decide), if_pos (by decide)]
            rw [show List.replicate 8 0 ++ (encodeU32 version ++ (encodeU32 (t.val + 1) ++
                ((matrix.map encodeU32).flatten ++ (List.replicate 24 0 ++
                ((payload.map encodeU32).flatten ++ (encodeItems rest' ++
                  (encodeKeyword [69, 78, 68] ++ rest))))))) =
              List.replicate 8 0 ++ encodeU32 version ++ encodeU32 (t.val + 1) ++
                (matrix.map encodeU32).flatten ++ List.replicate 24 0 ++
                (payload.map encodeU32).flatten ++ (encodeItems rest' ++
                  (encodeKeyword [69, 78, 68] ++ rest)) by simp [List.append_assoc]]
            rw [parsePrim_encode_fixed version t matrix payload _ st hmat hpay]
            cases hpr : st.primitive (decodePrim t payload)
                (matrix.map (· % 4294967296)) with
            | ok st2 =>
                show parseData f
                  (encodeItems rest' ++ (encodeKeyword [69, 78, 68] ++ rest)) st2 = _
                rw [← List.append_assoc]
                rw [(ih f (by omega)).1 rest' hWF.2
                  (by simp [sizeItems, sizeItem] at hsz ⊢; omega) rest st2]
                simp [runItems, runItem, hpr, PResult.bind]
            | error e => simp [liftRes, runItems, runItem, hpr, PResult.bind]
            | panic => simp [liftRes, runItems, runItem, hpr, PResult.bind]
            | fuelOut => simp [liftRes, runItems, runItem, hpr, PResult.bind]
        | polyPrim version matrix polys =>
            obtain ⟨hmat, -, hplen, hpWF⟩ := hWF.1
            simp only [encodeItems, encodeItem, List.append_assoc, parseData,
              readIdentifier_PRIM, PResult.ofExcept]
            rw [if_neg (by decide), if_neg (by decide), if_pos (by decide)]
            rw [show List.replicate 8 0 ++ (encodeU32 version ++ (encodeU32 11 ++
                ((matrix.map encodeU32).flatten ++ (List.replicate 24 0 ++
                (encodePolys polys ++ (encodeItems rest' ++
                  (encodeKeyword [69, 78, 68] ++ rest))))))) =
              List.replicate 8 0 ++ encodeU32 version ++ encodeU32 11 ++
                (matrix.map encodeU32).flatten ++ List.replicate 24 0 ++
                encodePolys polys ++ (encodeItems rest' ++
                  (encodeKeyword [69, 78, 68] ++ rest)) by simp [List.append_assoc]]
            rw [parsePrim_encode_polys version matrix polys _ st hmat hplen hpWF]
            cases hpr : st.primitive (.polygons (decodePolys polys))
                (matrix.map (· % 4294967296)) with
            | ok st2 =>
                show parseData f
                  (encodeItems rest' ++ (encodeKeyword [69, 78, 68] ++ rest)) st2 = _
                rw [← List.append_assoc]
                rw [(ih f (by omega)).1 rest' hWF.2
                  (by simp [sizeItems, sizeItem] at hsz ⊢; omega) rest st2]
                simp [runItems, runItem, hpr, PResult.bind]
            | error e => simp [liftRes, runItems, runItem, hpr, PResult.bind]
            | panic => simp [liftRes, runItems, runItem, hpr, PResult.bind]
            | fuelOut => simp [liftRes, runItems, runItem, hpr, PResult.bind]
  · -- parseGroupBody
    intro items hWF hsz rest st
    cases fuel with
    | zero => exact absurd hsz (by have := sizeItems_pos items; omega)
    | succ f =>
    cases items with
    | nil =>
        simp only [encodeItems, List.nil_append, parseGroupBody, List.append_assoc,
          readIdentifier_CNTE, PResult.ofExcept]
        rw [if_pos (by decide)]
        rw [skipBytes_three]
        cases he : st.endGroup with
        | ok st2 => simp [liftRes, runItems, he, PResult.bind]
        | error e => simp [liftRes, runItems, he, PResult.bind]
        | panic => simp [liftRes, runItems, he, PResult.bind]
        | fuelOut => simp [liftRes, runItems, he, PResult.bind]
    | cons it rest' =>
        cases it with
        | group version name t0 t1 t2 materialId children =>
            obtain ⟨hname, hmid, hWFc⟩ := hWF.1
            simp only [encodeItems, encodeItem, List.append_assoc, parseGroupBody,
              readIdentifier_CNTB, PResult.ofExcept]
            rw [if_neg (by decide), if_pos (by decide)]
            rw [show List.replicate 8 0 ++ (encodeU32 version ++ (encodeString name ++
                (encodeU32 t0 ++ (encodeU32 t1 ++ (encodeU32 t2 ++
                (encodeU32 materialId ++ (encodeItems children ++
                (encodeKeyword [67, 78, 84, 69] ++ (List.replicate 12 0 ++
                (encodeItems rest' ++ (encodeKeyword [67, 78, 84, 69] ++
                  (List.replicate 12 0 ++ rest)))))))))))) =
              List.replicate 8 0 ++ encodeU32 version ++ encodeString name ++
                encodeU32 t0 ++ encodeU32 t1 ++ encodeU32 t2 ++
                encodeU32 materialId ++ encodeItems children ++
                encodeKeyword [67, 78, 84, 69] ++ List.replicate 12 0 ++
                (encodeItems rest' ++ (encodeKeyword [67, 78, 84, 69] ++
                  (List.replicate 12 0 ++ rest)))
              by simp [List.append_assoc]]
            rw [(ih f (by omega)).2.2 version name t0 t1 t2 materialId children hname
              hWFc (by simp [sizeItems, sizeItem] at hsz; omega)
              (encodeItems rest' ++ (encodeKeyword [67, 78, 84, 69] ++
                (List.replicate 12 0 ++ rest))) st]
            cases hr : runItem st (.group version name t0 t1 t2 materialId children) with
            | ok st2 =>
                show parseGroupBody f
                  (encodeItems rest' ++ (encodeKeyword [67, 78, 84, 69] ++
                    (List.replicate 12 0 ++ rest))) st2 = _
                rw [show encodeItems rest' ++ (encodeKeyword [67, 78, 84, 69] ++
                    (List.replicate 12 0 ++ rest)) =
                  encodeItems rest' ++ encodeKeyword [67, 78, 84, 69] ++
                    List.replicate 12 0 ++ rest by simp [List.append_assoc]]
                rw [(ih f (by omega)).2.1 rest' hWF.2
                  (by have := sizeItems_pos children; simp [sizeItems, sizeItem] at hsz ⊢; omega)
                  rest st2]
                simp [runItems, hr, PResult.bind]
            | error e => simp [liftRes, runItems, hr, PResult.bind]
            | panic => simp [liftRes, runItems, hr, PResult.bind]
            | fuelOut => simp [liftRes, runItems, hr, PResult.bind]
        | prim version t matrix payload =>
            obtain ⟨hmat, hpay, -⟩ := hWF.1
            simp only [encodeItems, encodeItem, List.append_assoc, parseGroupBody,
              readIdentifier_PRIM, PResult.ofExcept]
            rw [if_neg (by decide), if_neg (by decide), if_pos (by decide)]
            rw [show List.replicate 8 0 ++ (encodeU32 version ++ (encodeU32 (t.val + 1) ++
                ((matrix.map encodeU32).flatten ++ (List.replicate 24 0 ++
                ((payload.map encodeU32).flatten ++ (encodeItems rest' ++
                  (encodeKeyword [67, 78, 84, 69] ++ (List.replicate 12 0 ++ rest)))))))) =
              List.replicate 8 0 ++ encodeU32 version ++ encodeU32 (t.val + 1) ++
                (matrix.map encodeU32).flatten ++ List.replicate 24 0 ++
                (payload.map encodeU32).flatten ++ (encodeItems rest' ++
                  (encodeKeyword [67, 78, 84, 69] ++ (List.replicate 12 0 ++ rest)))
              by simp [List.append_assoc]]
            rw [parsePrim_encode_fixed version t matrix payload _ st hmat hpay]
            cases hpr : st.primitive (decodePrim t payload)
                (matrix.map (· % 4294967296)) with
            | ok st2 =>
                show parseGroupBody f
                  (encodeItems rest' ++ (encodeKeyword [67, 78, 84, 69] ++
                    (List.replicate 12 0 ++ rest))) st2 = _
                rw [show encodeItems rest' ++ (encodeKeyword [67, 78, 84, 69] ++
                    (List.replicate 12 0 ++ rest)) =
                  encodeItems rest' ++ encodeKeyword [67, 78, 84, 69] ++
                    List.replicate 12 0 ++ rest by simp [List.append_assoc]]
                rw [(ih f (by omega)).2.1 rest' hWF.2
                  (by simp [sizeItems, sizeItem] at hsz ⊢; omega) rest st2]
                simp [runItems, runItem, hpr, PResult.bind]
            | error e => simp [liftRes, runItems, runItem, hpr, PResult.bind]
            | panic => simp [liftRes, runItems, runItem, hpr, PResult.bind]
            | fuelOut => simp [liftRes, runItems, runItem, hpr, PResult.bind]
        | polyPrim version matrix polys =>
            obtain ⟨hmat, -, hplen, hpWF⟩ := hWF.1
            simp only [encodeItems, encodeItem, List.append_assoc, parseGroupBody,
              readIdentifier_PRIM, PResult.ofExcept]
            rw [if_neg (by decide), if_neg (by decide), if_pos (by decide)]
            rw [show List.replicate 8 0 ++ (encodeU32 version ++ (encodeU32 11 ++
                ((matrix.map encodeU32).flatten ++ (List.replicate 24 0 ++
                (encodePolys polys ++ (encodeItems rest' ++
                  (encodeKeyword [67, 78, 84, 69] ++ (List.replicate 12 0 ++ rest)))))))) =
              List.replicate 8 0 ++ encodeU32 version ++ encodeU32 11 ++
                (matrix.map encodeU32).flatten ++ List.replicate 24 0 ++
                encodePolys polys ++ (encodeItems rest' ++
                  (encodeKeyword [67, 78, 84, 69] ++ (List.replicate 12 0 ++ rest)))
              by simp [List.append_assoc]]
            rw [parsePrim_encode_polys version matrix polys _ st hmat hplen hpWF]
            cases hpr : st.primitive (.polygons (decodePolys polys))
                (matrix.map (· % 4294967296)) with
            | ok st2 =>
                show parseGroupBody f
                  (encodeItems rest' ++ (encodeKeyword [67, 78, 84, 69] ++
                    (List.replicate 12 0 ++ rest))) st2 = _
                rw [show encodeItems rest' ++ (encodeKeyword [67, 78, 84, 69] ++
                    (List.replicate 12 0 ++ rest)) =
                  encodeItems rest' ++ encodeKeyword [67, 78, 84, 69] ++
                    List.replicate 12 0 ++ rest by simp [List.append_assoc]]
                rw [(ih f (by omega)).2.1 rest' hWF.2
                  (by simp [sizeItems, sizeItem] at hsz ⊢; omega) rest st2]
                simp [runItems, runItem, hpr, PResult.bind]
            | error e => simp [liftRes, runItems, runItem, hpr, PResult.bind]
            | panic => simp [liftRes, runItems, runItem, hpr, PResult.bind]
            | fuelOut => simp [liftRes, runItems, runItem, hpr, PResult.bind]
  · -- parseGroup
    intro version name t0 t1 t2 materialId children hname hWFc hsz rest st
    cases fuel with
    | zero => omega
    | succ f =>
    simp only [parseGroup, List.append_assoc]
    rw [skipBytes_two]
    simp only [readU32_encode, PResult.ofExcept, readString_encode _ _ hname]
    cases hb : st.beginGroup (trimAtZero ((name.map encodeU32).flatten))
        (t0 % 4294967296, t1 % 4294967296, t2 % 4294967296) (materialId % 4294967296) with
    | ok st1 =>
        show parseGroupBody f
          (encodeItems children ++ (encodeKeyword [67, 78, 84, 69] ++
            (List.replicate 12 0 ++ rest))) st1 = _
        rw [show encodeItems children ++ (encodeKeyword [67, 78, 84, 69] ++
            (List.replicate 12 0 ++ rest)) =
          encodeItems children ++ encodeKeyword [67, 78, 84, 69] ++
            List.replicate 12 0 ++ rest by simp [List.append_assoc]]
        rw [(ih f (by omega)).2.1 children hWFc (by omega) rest st1]
        simp [runItem, hb, PResult.bind]
    | error e => simp [runItem, hb, PResult.bind, liftRes]
    | panic => simp [runItem, hb, PResult.bind, liftRes]
    | fuelOut => simp [runItem, hb, PResult.bind, liftRes]

/-! ### Pure creator semantics: node counting -/

theorem modifyNode_length (t : CTree) (i : Nat) (f : CNode → CNode) :
    (t.modifyNode i f).nodePool.length = t.nodePool.length := by
  simp [CTree.modifyNode]

theorem beginGroup_spec (st : CState) (groupName : List Nat)
    (tr : F32Raw × F32Raw × F32Raw) (materialId : Nat) (hmid : materialId < 256)
    (hstk : 1 ≤ st.nodeStack.length) :
    ∃ st' : CState, st.beginGroup groupName tr materialId = .ok st' ∧
      st'.nodeStack = st.tree.nodePool.length :: st.nodeStack ∧
      st'.tree.nodePool.length = st.tree.nodePool.length + 1 := by
  unfold CState.beginGroup
  rw [if_neg (by omega)]
  cases hs : st.nodeStack with
  | nil => rw [hs] at hstk; simp at hstk
  | cons p s' =>
      refine ⟨_, rfl, ?_, ?_⟩
      · simp [hs, CTree.createNodeWithParent, CTree.createNode, CTree.modifyNode]
      · simp [CTree.createNodeWithParent, CTree.createNode, CTree.modifyNode]

theorem endGroup_spec (st : CState) (h : 2 ≤ st.nodeStack.length) :
    ∃ st' : CState, st.endGroup = .ok st' ∧ st'.nodeStack = st.nodeStack.tail ∧
      st'.tree.nodePool.length = st.tree.nodePool.length := by
  unfold CState.endGroup
  rw [if_neg (by omega)]
  cases hs : st.nodeStack with
  | nil => rw [hs] at h; simp at h
  | cons top s' =>
      cases hsh : st.shape with
      | some parts =>
          exact ⟨_, rfl, by simp [hs], by simp [CTree.modifyNode]⟩
      | none => exact ⟨_, rfl, by simp [hs], rfl⟩

/-- A primitive event whose matrix is invertible whenever the kind is
supported succeeds, leaves the stack and the tree untouched, and counts
one part exactly when the kind is supported. -/
theorem primitive_spec (st : CState) (p : RPrimitive) (m : List F32Raw)
    (h : CState.primSupported p = true → mat3Det m ≠ 0) :
    ∃ st' : CState, st.primitive p m = .ok st' ∧
      st'.nodeStack = st.nodeStack ∧ st'.tree = st.tree ∧
      st'.partCount = st.partCount +
        (if CState.primSupported p then 1 else 0) := by
  unfold CState.primitive
  by_cases hs : CState.primSupported p = true
  · rw [if_pos hs, if_neg (h hs), if_pos hs]
    exact ⟨_, rfl, rfl, rfl, rfl⟩
  · rw [if_neg hs, if_neg hs]
    exact ⟨st, rfl, rfl, rfl, by simp⟩

mutual

/-- A well-formed record run from any state with a nonempty node stack
succeeds, restores the stack, and adds exactly `countGroupsItem` nodes. -/
theorem runItem_ok (it : RItem) (hWF : WFItem it) (st : CState)
    (hstk : 1 ≤ st.nodeStack.length) :
    ∃ st' : CState, runItem st it = .ok st' ∧
      st'.nodeStack = st.nodeStack ∧
      st'.tree.nodePool.length = st.tree.nodePool.length + countGroupsItem it := by
  cases it with
  | group version name t0 t1 t2 materialId children =>
      obtain ⟨hname, hmid, hWFc⟩ := hWF
      obtain ⟨st1, hb, hbs, hbl⟩ := beginGroup_spec st
        (trimAtZero (name.map encodeU32).flatten)
        (t0 % 4294967296, t1 % 4294967296, t2 % 4294967296) (materialId % 4294967296)
        (by omega) hstk
      obtain ⟨st2, hr, hrs, hrl⟩ := runItems_ok children hWFc st1
        (by rw [hbs]; simp)
      obtain ⟨st3, hegrp, hes, hel⟩ := endGroup_spec st2
        (by rw [hrs, hbs]; simp; omega)
      refine ⟨st3, ?_, ?_, ?_⟩
      · simp [runItem, hb, PResult.bind, hr, hegrp]
      · rw [hes, hrs, hbs]; rfl
      · rw [hel, hrl, hbl]; simp [countGroupsItem]; omega
  | prim version t matrix payload =>
      obtain ⟨hmat, hpay, hinv⟩ := hWF
      obtain ⟨st', h1, h1s, h1t, h1c⟩ := primitive_spec st (decodePrim t payload)
        (matrix.map (· % 4294967296)) hinv
      exact ⟨st', h1, h1s, by rw [h1t]; simp [countGroupsItem]⟩
  | polyPrim version matrix polys =>
      obtain ⟨hmat, hdet, hplen, hpWF⟩ := hWF
      obtain ⟨st', h1, h1s, h1t, h1c⟩ := primitive_spec st
        (.polygons (decodePolys polys)) (matrix.map (· % 4294967296))
        (fun _ => hdet)
      exact ⟨st', h1, h1s, by rw [h1t]; simp [countGroupsItem]⟩

/-- A well-formed record sequence run from any state with a nonempty node
stack succeeds, restores the stack, and adds `countGroupsItems` nodes. -/
theorem runItems_ok (items : RItems) (hWF : WFItems items) (st : CState)
    (hstk : 1 ≤ st.nodeStack.length) :
    ∃ st' : CState, runItems st items = .ok st' ∧
      st'.nodeStack = st.nodeStack ∧
      st'.tree.nodePool.length = st.tree.nodePool.length + countGroupsItems items := by
  cases items with
  | nil => exact ⟨st, rfl, rfl, by simp [countGroupsItems]⟩
  | cons it rest =>
      obtain ⟨st1, h1, h1s, h1l⟩ := runItem_ok it hWF.1 st hstk
      obtain ⟨st2, h2, h2s, h2l⟩ := runItems_ok rest hWF.2 st1 (by rw [h1s]; exact hstk)
      exact ⟨st2, by simp [runItems, h1, PResult.bind, h2], by rw [h2s, h1s],
        by rw [h2l, h1l]; simp [countGroupsItems]; omega⟩

end

/-! ### C2: full-document parse and the node count -/

/-- Full-document wire encoding: HEAD record, MODL record, the top-level
records, and the terminating END keyword. -/
def encodeDoc (headVersion : Nat) (banner fileNote date user encoding : List Nat)
    (modelVersion : Nat) (projectName modelName : List Nat) (items : RItems) :
    List Nat :=
  encodeHead headVersion banner fileNote date user encoding ++
    encodeModel modelVersion projectName modelName ++
    encodeItems items ++ encodeKeyword [69, 78, 68]

theorem parseRvm_encode (headVersion : Nat)
    (banner fileNote date user encoding : List Nat)
    (modelVersion : Nat) (projectName modelName : List Nat) (items : RItems)
    (hb : banner.length < 1073741824) (hf : fileNote.length < 1073741824)
    (hd : date.length < 1073741824) (hu : user.length < 1073741824)
    (he : encoding.length < 1073741824) (hp : projectName.length < 1073741824)
    (hm : modelName.length < 1073741824) (hWF : WFItems items)
    (fuel : Nat) (hfuel : sizeItems items ≤ fuel) :
    parseRvm fuel (encodeDoc headVersion banner fileNote date user encoding
        modelVersion projectName modelName items) =
      liftRes (runItems
        (CState.init.model (trimAtZero ((modelName.map encodeU32).flatten)))
        items) [] := by
  rw [show encodeDoc headVersion banner fileNote date user encoding
      modelVersion projectName modelName items =
      encodeHead headVersion banner fileNote date user encoding ++
        (encodeModel modelVersion projectName modelName ++
          (encodeItems items ++ encodeKeyword [69, 78, 68] ++ []))
    by simp [encodeDoc, List.append_assoc]]
  unfold parseRvm
  rw [parseHead_encode headVersion banner fileNote date user encoding _ CState.init
    hb hf hd hu he, PResult.bind_ok]
  unfold parseRvmTail
  simp only []
  rw [parseModel_encode modelVersion projectName modelName _ CState.init hp hm,
    PResult.bind_ok]
  simp only []
  rw [(parse_loops_encode fuel).1 items hWF hfuel []
    (CState.init.model (trimAtZero ((modelName.map encodeU32).flatten)))]

/-- The C2 counterexample stream: HEAD, MODL, one top-level PRIM box
record whose 12-float matrix is all zeros, END — balanced (there is no
CNTB/CNTE at all) and byte-level well-formed, but the box tessellator
panics at `transform.transpose().try_inverse().unwrap()`
(`mesh_builder.rs:114`) because the zero matrix is singular. -/
def zeroMatrixPrimStream : List Nat :=
  encodeDoc 1 [] [] [] [] [] 1 [] []
    (.cons (.prim 1 (1 : Fin 10) (List.replicate 12 0) [0, 0, 0]) .nil)

set_option maxRecDepth 100000 in
/-- Counterexample to C2 as stated: this well-formed stream (in the
spec's sense — HEAD, MODL, balanced sections, END) does not produce a
tree at all: the singular PRIM matrix makes the import die in the
tessellator's `unwrap` panic, so no node count can be stated. -/
theorem well_formed_zero_matrix_counterexample :
    parseRvm 9 zeroMatrixPrimStream = .panic ∧
    ∀ r, parseRvm 9 zeroMatrixPrimStream ≠ .ok r := by
  have h : parseRvm 9 zeroMatrixPrimStream = .panic := by rfl
  refine ⟨h, fun r hr => ?_⟩
  rw [h] at hr
  cases hr

/-- C2 (amended): for every well-formed RVM stream — a HEAD record, a
MODL record, then balanced CNTB/CNTE sections terminated by END, whose
string word counts stay below `2^30` (beyond that the `u32` byte-count
product in `read_string` wraps and the stream is misread) and whose PRIM
records that reach a tessellator carry invertible matrices (a singular
matrix panics the tessellator's `try_inverse().unwrap()`) — parsed
through the RVM parser with a CADDataCreator interpreter (with enough
fuel for the record loops), the parse succeeds, consumes the whole
stream, and the number of nodes in the resulting tree equals 1 (the root
node created on the model event) plus the number of CNTB group records
in the stream. -/
theorem well_formed_stream_node_count (headVersion : Nat)
    (banner fileNote date user encoding : List Nat) (modelVersion : Nat)
    (projectName modelName : List Nat) (items : RItems)
    (hb : banner.length < 1073741824) (hf : fileNote.length < 1073741824)
    (hd : date.length < 1073741824) (hu : user.length < 1073741824)
    (he : encoding.length < 1073741824) (hp : projectName.length < 1073741824)
    (hm : modelName.length < 1073741824) (hWF : WFItems items)
    (fuel : Nat) (hfuel : sizeItems items ≤ fuel) :
    ∃ st : CState,
      parseRvm fuel (encodeDoc headVersion banner fileNote date user encoding
        modelVersion projectName modelName items) = .ok ([], st) ∧
      st.tree.nodePool.length = 1 + countGroupsItems items := by
  have hM : (CState.init.model
      (trimAtZero ((modelName.map encodeU32).flatten))).nodeStack.length = 1 := by
    simp [CState.model, CState.init, CTree.new, CTree.createNode]
  have hP : (CState.init.model
      (trimAtZero ((modelName.map encodeU32).flatten))).tree.nodePool.length = 1 := by
    simp [CState.model, CState.init, CTree.new, CTree.createNode]
  obtain ⟨st', hrun, hstk, hlen⟩ := runItems_ok items hWF
    (CState.init.model (trimAtZero ((modelName.map encodeU32).flatten)))
    (by rw [hM])
  refine ⟨st', ?_, ?_⟩
  · rw [parseRvm_encode headVersion banner fileNote date user encoding
      modelVersion projectName modelName items hb hf hd hu he hp hm hWF fuel hfuel,
      hrun]
    rfl
  · rw [hlen, hP]

theorem well_formed_stream_node_count_witness :
    ∃ st : CState,
      parseRvm 4 (encodeDoc 1 [] [] [] [] [] 1 [] []
        (.cons (.group 1 [] 0 0 0 0 .nil) .nil)) = .ok ([], st) ∧
      st.tree.nodePool.length =
        1 + countGroupsItems (.cons (.group 1 [] 0 0 0 0 .nil) .nil) :=
  well_formed_stream_node_count 1 [] [] [] [] [] 1 [] []
    (.cons (.group 1 [] 0 0 0 0 .nil) .nil)
    (by decide) (by decide) (by decide) (by decide) (by decide) (by decide)
    (by decide) ⟨⟨by decide, by decide, trivial⟩, trivial⟩ 4 (by decide)

/-! ### C10: top-level PRIM records and shape attachment -/

/-- The shapes attached to node `i` of the tree a parse produced (empty
if the parse failed or the node does not exist). -/
def shapesOfNode (r : PResult (List Nat × CState)) (i : Nat) : List (List Nat) :=
  match r with
  | .ok (_, st) => (st.tree.nodePool.getD i ⟨[], none, none, [], []⟩).shapes
  | _ => []

/-- The 12-float identity transform on the wire: `1.0f32` is the bit
pattern `0x3F800000 = 1065353216`, so the first nine words are the
identity `Mat3` (determinant 1, invertible — the tessellators' `unwrap`
does not panic) and the last three are a zero translation. -/
def identityMatrixWords : List Nat :=
  [1065353216, 0, 0, 0, 1065353216, 0, 0, 0, 1065353216, 0, 0, 0]

/-- A stream with a PRIM record (a box with the identity transform)
directly in the top-level data loop, followed by one CNTB/CNTE group. -/
def topLevelPrimStream : List Nat :=
  encodeDoc 1 [] [] [] [] [] 1 [] []
    (.cons (.prim 1 (1 : Fin 10) identityMatrixWords [0, 0, 0])
      (.cons (.group 1 [] 0 0 0 0 .nil) .nil))

set_option maxRecDepth 100000 in
/-- Counterexample to C10's "never attached to any node": the shape part
tessellated for a top-level PRIM stays in the open accumulator, and the
next group's closing CNTE attaches the accumulator to that group's node
(node 1 of the pool), so the top-level mesh is attached to a tree node. -/
theorem top_level_prim_attached_counterexample :
    shapesOfNode (parseRvm 9 topLevelPrimStream) 1 = [[0]] := by rfl

/-- Number of top-level records the creator turns into a tessellated
shape part (`CADDataCreator::primitive` with a supported kind). -/
def countSupportedItems : RItems → Nat
  | .nil => 0
  | .cons (.prim _ t _ payload) rest =>
      (if CState.primSupported (decodePrim t payload) then 1 else 0) +
        countSupportedItems rest
  | .cons (.polyPrim _ _ _) rest => 1 + countSupportedItems rest
  | .cons (.group _ _ _ _ _ _ _) rest => countSupportedItems rest

/-- Running a group-free well-formed record sequence never touches the
tree and counts the supported primitives into `partCount`. -/
theorem runItems_no_groups (items : RItems) (hWF : WFItems items)
    (hg : countGroupsItems items = 0) (st : CState) :
    ∃ st' : CState, runItems st items = .ok st' ∧ st'.tree = st.tree ∧
      st'.nodeStack = st.nodeStack ∧
      st'.partCount = st.partCount + countSupportedItems items := by
  cases items with
  | nil => exact ⟨st, rfl, rfl, rfl, by simp [countSupportedItems]⟩
  | cons it rest =>
      cases it with
      | group version name t0 t1 t2 materialId children =>
          exact absurd hg (by simp [countGroupsItems, countGroupsItem])
      | prim version t matrix payload =>
          obtain ⟨hmat, hpay, hinv⟩ := hWF.1
          obtain ⟨st1, h1, h1s, h1t, h1c⟩ := primitive_spec st
            (decodePrim t payload) (matrix.map (· % 4294967296)) hinv
          obtain ⟨st', h2, h2t, h2s, h2c⟩ := runItems_no_groups rest hWF.2
            (by simp [countGroupsItems, countGroupsItem] at hg ⊢; omega) st1
          refine ⟨st', by simp [runItems, runItem, PResult.bind, h1, h2], ?_, ?_, ?_⟩
          · rw [h2t, h1t]
          · rw [h2s, h1s]
          · rw [h2c, h1c]
            simp [countSupportedItems]
            omega
      | polyPrim version matrix polys =>
          obtain ⟨hmat, hdet, hplen, hpWF⟩ := hWF.1
          obtain ⟨st1, h1, h1s, h1t, h1c⟩ := primitive_spec st
            (.polygons (decodePolys polys)) (matrix.map (· % 4294967296))
            (fun _ => hdet)
          obtain ⟨st', h2, h2t, h2s, h2c⟩ := runItems_no_groups rest hWF.2
            (by simp [countGroupsItems, countGroupsItem] at hg ⊢; omega) st1
          refine ⟨st', by simp [runItems, runItem, PResult.bind, h1, h2], ?_, ?_, ?_⟩
          · rw [h2t, h1t]
          · rw [h2s, h1s]
          · rw [h2c, h1c]
            simp [countSupportedItems, CState.primSupported, countGroupsItems]
            omega

/-- C10 (amended): PRIM records with invertible transforms in the
top-level data loop of a stream with no CNTB group at all parse
successfully and are tessellated into shape parts (`partCount` counts
every supported one), yet no node of the resulting tree carries any
shape — the meshes are absent from the finalized scene. (When a CNTB
group follows instead, the pending accumulator is attached to that
group's node; see the counterexample.) -/
theorem top_level_prim_not_attached (headVersion : Nat)
    (banner fileNote date user encoding : List Nat) (modelVersion : Nat)
    (projectName modelName : List Nat) (items : RItems)
    (hb : banner.length < 1073741824) (hf : fileNote.length < 1073741824)
    (hd : date.length < 1073741824) (hu : user.length < 1073741824)
    (he : encoding.length < 1073741824) (hp : projectName.length < 1073741824)
    (hm : modelName.length < 1073741824) (hWF : WFItems items)
    (hg : countGroupsItems items = 0)
    (fuel : Nat) (hfuel : sizeItems items ≤ fuel) :
    ∃ st : CState,
      parseRvm fuel (encodeDoc headVersion banner fileNote date user encoding
        modelVersion projectName modelName items) = .ok ([], st) ∧
      st.partCount = countSupportedItems items ∧
      ∀ n ∈ st.tree.nodePool, n.shapes = [] := by
  obtain ⟨st', hrun, htree, hstk, hcount⟩ := runItems_no_groups items hWF hg
    (CState.init.model (trimAtZero ((modelName.map encodeU32).flatten)))
  refine ⟨st', ?_, ?_, ?_⟩
  · rw [parseRvm_encode headVersion banner fileNote date user encoding
      modelVersion projectName modelName items hb hf hd hu he hp hm hWF fuel hfuel,
      hrun]
    rfl
  · rw [hcount]
    simp [CState.model, CState.init]
  · intro n hn
    rw [htree] at hn
    simp [CState.model, CState.init, CTree.new, CTree.createNode] at hn
    rw [hn]

set_option maxRecDepth 100000 in
theorem top_level_prim_not_attached_witness :
    ∃ st : CState,
      parseRvm 2 (encodeDoc 1 [] [] [] [] [] 1 [] []
        (.cons (.prim 1 (1 : Fin 10) identityMatrixWords [0, 0, 0]) .nil)) =
        .ok ([], st) ∧
      st.partCount = countSupportedItems
        (.cons (.prim 1 (1 : Fin 10) identityMatrixWords [0, 0, 0]) .nil) ∧
      ∀ n ∈ st.tree.nodePool, n.shapes = [] :=
  top_level_prim_not_attached 1 [] [] [] [] [] 1 [] []
    (.cons (.prim 1 (1 : Fin 10) identityMatrixWords [0, 0, 0]) .nil)
    (by decide) (by decide) (by decide) (by decide) (by decide) (by decide)
    (by decide) ⟨⟨by decide, by decide, by decide⟩, trivial⟩ (by decide) 2 (by decide)

/-! ### C3: `determine_num_segments_for_circle` (tessellate/cylinder.rs) -/

open Real in
/-- `TessellationOptions`: `max_sag` is a `Length` in meters, `max_length`
an optional `Length` in meters, `max_angle` an optional `Angle` in
radians. -/
structure TessellationOptions where
  maxSag : ℝ
  maxLength : Option ℝ
  maxAngle : Option ℝ

/-- The sag step of `determine_num_segments_for_circle`: starting from 4
segments, if `0 < sag_mm < radius_mm` take the max with
`ceil(pi / acos(1 - sag_mm / radius_mm))`. -/
noncomputable def segSag (radius_mm sag_mm : ℝ) : ℕ :=
  if 0 < sag_mm ∧ sag_mm < radius_mm then
    max 4 ⌈Real.pi / Real.arccos (1 - sag_mm / radius_mm)⌉₊
  else 4

/-- The chord-length step: if `max_length` is configured and positive,
take the max with `ceil(pi / asin(length_mm / (2 * radius_mm)))`. -/
noncomputable def segLength (radius_mm : ℝ) (maxLength_mm : Option ℝ)
    (n : ℕ) : ℕ :=
  match maxLength_mm with
  | some l => if 0 < l then max n ⌈Real.pi / Real.arcsin (l / (2 * radius_mm))⌉₊ else n
  | none => n

/-- The angle step: if `max_angle` is configured and positive, take the
max with `ceil(2 * pi / angle)`. -/
noncomputable def segAngle (maxAngle : Option ℝ) (n : ℕ) : ℕ :=
  match maxAngle with
  | some a => if 0 < a then max n ⌈2 * Real.pi / a⌉₊ else n
  | none => n

/-- `CylinderTessellationOperator::determine_num_segments_for_circle`:
lengths are converted to millimeters (`get_unit_in_meters() * 1e3`), then
the three bounds are combined by taking maxima over the floor of 4. -/
noncomputable def determine_num_segments_for_circle (r : ℝ)
    (opts : TessellationOptions) : ℕ :=
  segAngle opts.maxAngle
    (segLength (r * 1000) (opts.maxLength.map (fun l => l * 1000))
      (segSag (r * 1000) (opts.maxSag * 1000)))

theorem segSag_ge_four (radius_mm sag_mm : ℝ) : 4 ≤ segSag radius_mm sag_mm := by
  unfold segSag
  split_ifs <;> simp

theorem le_segLength (radius_mm : ℝ) (maxLength_mm : Option ℝ) (n : ℕ) :
    n ≤ segLength radius_mm maxLength_mm n := by
  unfold segLength
  cases maxLength_mm with
  | none => exact le_refl n
  | some l => dsimp only; split_ifs <;> simp

theorem le_segAngle (maxAngle : Option ℝ) (n : ℕ) : n ≤ segAngle maxAngle n := by
  unfold segAngle
  cases maxAngle with
  | none => exact le_refl n
  | some a => dsimp only; split_ifs <;> simp

theorem div_le_of_ceil_le {x y : ℝ} (hx : 0 < x) (hy : 0 < y) {n : ℕ}
    (hn : ⌈y / x⌉₊ ≤ n) : y / n ≤ x := by
  have hpos : 0 < y / x := div_pos hy hx
  have hc : 0 < ⌈y / x⌉₊ := Nat.ceil_pos.mpr hpos
  have hn0 : 0 < (n : ℝ) := by exact_mod_cast lt_of_lt_of_le hc hn
  have h1 : y / x ≤ (n : ℝ) := le_trans (Nat.le_ceil _) (by exact_mod_cast hn)
  rw [div_le_iff hn0]
  rw [div_le_iff hx] at h1
  nlinarith

theorem sag_bound (radius_mm sag_mm : ℝ) (hr : 0 < radius_mm) (hs : 0 < sag_mm)
    (n : ℕ) (hn : segSag radius_mm sag_mm ≤ n) :
    radius_mm * (1 - Real.cos (Real.pi / n)) ≤ sag_mm := by
  have h4 : 4 ≤ n := le_trans (segSag_ge_four radius_mm sag_mm) hn
  have hn0 : 0 < (n : ℝ) := by exact_mod_cast lt_of_lt_of_le (by norm_num) h4
  have hdiv_nonneg : 0 ≤ Real.pi / n := le_of_lt (div_pos Real.pi_pos hn0)
  by_cases hcase : sag_mm < radius_mm
  · have hseg : segSag radius_mm sag_mm =
        max 4 ⌈Real.pi / Real.arccos (1 - sag_mm / radius_mm)⌉₊ := by
      unfold segSag; rw [if_pos ⟨hs, hcase⟩]
    have hceil : ⌈Real.pi / Real.arccos (1 - sag_mm / radius_mm)⌉₊ ≤ n := by
      rw [hseg] at hn; omega
    have hratio0 : 0 < sag_mm / radius_mm := div_pos hs hr
    have hratio1 : sag_mm / radius_mm < 1 := (div_lt_one hr).mpr hcase
    have harg0 : (0 : ℝ) < 1 - sag_mm / radius_mm := by linarith
    have harg1 : 1 - sag_mm / radius_mm < 1 := by linarith
    have hacos_pos : 0 < Real.arccos (1 - sag_mm / radius_mm) :=
      Real.arccos_pos.mpr harg1
    have hle : Real.pi / n ≤ Real.arccos (1 - sag_mm / radius_mm) :=
      div_le_of_ceil_le hacos_pos Real.pi_pos hceil
    have hcos : Real.cos (Real.arccos (1 - sag_mm / radius_mm)) ≤
        Real.cos (Real.pi / n) :=
      Real.cos_le_cos_of_nonneg_of_le_pi hdiv_nonneg
        (le_trans (Real.arccos_le_pi _) (le_refl _)) hle
    rw [Real.cos_arccos (by linarith) (by linarith)] at hcos
    have : 1 - Real.cos (Real.pi / n) ≤ sag_mm / radius_mm := by linarith
    rw [le_div_iff hr] at this
    nlinarith
  · -- sag at least the radius: four segments already satisfy the bound
    push_neg at hcase
    have hle4 : Real.pi / n ≤ Real.pi / 4 := by
      apply div_le_div_of_nonneg_left (le_of_lt Real.pi_pos) (by norm_num)
      exact_mod_cast h4
    have hcosnn : 0 ≤ Real.cos (Real.pi / n) := by
      apply Real.cos_nonneg_of_mem_Icc
      constructor
      · linarith [Real.pi_pos]
      · calc Real.pi / n ≤ Real.pi / 4 := hle4
          _ ≤ Real.pi / 2 := by linarith [Real.pi_pos]
    nlinarith

theorem chord_bound (radius_mm l_mm : ℝ) (hr : 0 < radius_mm) (hl : 0 < l_mm)
    (n : ℕ) (h4 : 4 ≤ n)
    (hn : ⌈Real.pi / Real.arcsin (l_mm / (2 * radius_mm))⌉₊ ≤ n) :
    2 * radius_mm * Real.sin (Real.pi / n) ≤ l_mm := by
  have hn0 : 0 < (n : ℝ) := by exact_mod_cast lt_of_lt_of_le (by norm_num) h4
  have hdiv_nonneg : 0 ≤ Real.pi / n := le_of_lt (div_pos Real.pi_pos hn0)
  by_cases hcase : l_mm / (2 * radius_mm) < 1
  · have hratio0 : 0 < l_mm / (2 * radius_mm) := div_pos hl (by linarith)
    have hasin_pos : 0 < Real.arcsin (l_mm / (2 * radius_mm)) :=
      Real.arcsin_pos.mpr hratio0
    have hle : Real.pi / n ≤ Real.arcsin (l_mm / (2 * radius_mm)) :=
      div_le_of_ceil_le hasin_pos Real.pi_pos hn
    have hsin : Real.sin (Real.pi / n) ≤
        Real.sin (Real.arcsin (l_mm / (2 * radius_mm))) := by
      rcases eq_or_lt_of_le hle with heq | hlt
      · rw [heq]
      · exact le_of_lt (Real.strictMonoOn_sin
          ⟨by linarith [Real.pi_pos], le_trans hle (Real.arcsin_le_pi_div_two _)⟩
          ⟨by linarith [Real.arcsin_le_pi_div_two (l_mm / (2 * radius_mm)),
              Real.pi_pos, hasin_pos], Real.arcsin_le_pi_div_two _⟩ hlt)
    rw [Real.sin_arcsin (by linarith) (le_of_lt hcase)] at hsin
    rw [le_div_iff (by linarith : (0:ℝ) < 2 * radius_mm)] at hsin
    nlinarith
  · push_neg at hcase
    rw [le_div_iff (by linarith : (0:ℝ) < 2 * radius_mm)] at hcase
    have := Real.sin_le_one (Real.pi / n)
    nlinarith

theorem angle_bound (a : ℝ) (ha : 0 < a) (n : ℕ) (h4 : 4 ≤ n)
    (hn : ⌈2 * Real.pi / a⌉₊ ≤ n) : 2 * Real.pi / n ≤ a :=
  div_le_of_ceil_le ha (by linarith [Real.pi_pos]) hn

set_option maxHeartbeats 1000000 in
/-- C3 (amended): for every radius `r > 0` and every `TessellationOptions`
whose `max_sag` is positive and whose configured optional bounds are
positive, `determine_num_segments_for_circle` returns `n ≥ 4` with the
analytic sag `r(1 - cos(pi/n))` at most `max_sag`, the chord length
`2 r sin(pi/n)` at most `max_length` whenever configured, and the
inter-segment angle `2 pi / n` at most `max_angle` whenever configured.
With a nonpositive `max_sag` (or a configured nonpositive bound) the
corresponding solver step is skipped entirely and the bound can be
violated. -/
theorem determine_num_segments_for_circle_spec (r : ℝ)
    (opts : TessellationOptions) (hr : 0 < r) (hs : 0 < opts.maxSag)
    (hL : ∀ l ∈ opts.maxLength, 0 < l) (hA : ∀ a ∈ opts.maxAngle, 0 < a) :
    4 ≤ determine_num_segments_for_circle r opts ∧
    r * (1 - Real.cos (Real.pi / determine_num_segments_for_circle r opts)) ≤
      opts.maxSag ∧
    (∀ l ∈ opts.maxLength,
      2 * r * Real.sin (Real.pi / determine_num_segments_for_circle r opts) ≤ l) ∧
    (∀ a ∈ opts.maxAngle,
      2 * Real.pi / determine_num_segments_for_circle r opts ≤ a) := by
  have hrmm : 0 < r * 1000 := by linarith
  have hsmm : 0 < opts.maxSag * 1000 := by linarith
  have h1 : segSag (r * 1000) (opts.maxSag * 1000) ≤
      determine_num_segments_for_circle r opts := by
    unfold determine_num_segments_for_circle
    exact le_trans (le_segLength _ _ _) (le_segAngle _ _)
  have h4 : 4 ≤ determine_num_segments_for_circle r opts :=
    le_trans (segSag_ge_four _ _) h1
  refine ⟨h4, ?_, ?_, ?_⟩
  · have := sag_bound (r * 1000) (opts.maxSag * 1000) hrmm hsmm
      (determine_num_segments_for_circle r opts) h1
    nlinarith
  · intro l hl
    have hlpos := hL l hl
    have hceil : ⌈Real.pi / Real.arcsin (l * 1000 / (2 * (r * 1000)))⌉₊ ≤
        determine_num_segments_for_circle r opts := by
      unfold determine_num_segments_for_circle
      refine le_trans ?_ (le_segAngle _ _)
      rcases hmL : opts.maxLength with _ | l'
      · rw [hmL] at hl; cases hl
      · rw [hmL] at hl
        cases hl
        simp only [Option.map, segLength]
        rw [if_pos (by linarith)]
        exact le_max_right _ _
    have := chord_bound (r * 1000) (l * 1000) hrmm (by linarith)
      (determine_num_segments_for_circle r opts) h4 hceil
    nlinarith
  · intro a ha
    have hapos := hA a ha
    have hceil : ⌈2 * Real.pi / a⌉₊ ≤ determine_num_segments_for_circle r opts := by
      unfold determine_num_segments_for_circle
      rcases hmA : opts.maxAngle with _ | a'
      · rw [hmA] at ha; cases ha
      · rw [hmA] at ha
        cases ha
        simp only [segAngle]
        rw [if_pos (by linarith)]
        exact le_max_right _ _
    exact angle_bound a hapos _ h4 hceil

theorem determine_num_segments_for_circle_spec_witness :
    4 ≤ determine_num_segments_for_circle 1 ⟨1 / 2, none, none⟩ ∧
    1 * (1 - Real.cos
      (Real.pi / determine_num_segments_for_circle 1 ⟨1 / 2, none, none⟩)) ≤ 1 / 2 ∧
    (∀ l ∈ (none : Option ℝ),
      2 * 1 * Real.sin
        (Real.pi / determine_num_segments_for_circle 1 ⟨1 / 2, none, none⟩) ≤ l) ∧
    (∀ a ∈ (none : Option ℝ),
      2 * Real.pi / determine_num_segments_for_circle 1 ⟨1 / 2, none, none⟩ ≤ a) :=
  determine_num_segments_for_circle_spec 1 ⟨1 / 2, none, none⟩ (by norm_num)
    (by norm_num) (by simp) (by simp)

/-- Counterexample to C3 as stated (for every `TessellationOptions`): with
`max_sag = 0` the sag step is skipped (`sag_mm > 0.0` fails), the solver
returns the floor value 4, and the analytic sag `r(1 - cos(pi/4))` of the
square inscribed in the unit circle is strictly positive, violating
`sag <= max_sag`. -/
theorem circle_segments_zero_sag_counterexample :
    determine_num_segments_for_circle 1 ⟨0, none, none⟩ = 4 ∧
    ¬ (1 * (1 - Real.cos
        (Real.pi / determine_num_segments_for_circle 1 ⟨0, none, none⟩)) ≤ 0) := by
  have h : determine_num_segments_for_circle 1 ⟨0, none, none⟩ = 4 := by
    unfold determine_num_segments_for_circle segAngle segLength segSag
    norm_num
  refine ⟨h, ?_⟩
  rw [h]
  push_neg
  have hs2 : Real.sqrt 2 < 2 := by
    nlinarith [Real.sq_sqrt (by norm_num : (0:ℝ) ≤ 2), Real.sqrt_nonneg 2]
  have : Real.cos (Real.pi / 4) < 1 := by
    rw [Real.cos_pi_div_four]
    nlinarith
  push_cast
  nlinarith

/-! ### C5: cylinder tessellation (tessellate/cylinder.rs) -/

theorem flatMap_range_length {α : Type} (m n : ℕ) (f : ℕ → List α)
    (hf : ∀ k, (f k).length = n) :
    ((List.range m).flatMap f).length = m * n := by
  induction m with
  | zero => simp
  | succ m ih =>
      rw [List.range_succ, List.flatMap_append]
      simp [ih, hf]
      ring

theorem flatMap_range_getD {α : Type} (m n : ℕ) (f : ℕ → List α)
    (hf : ∀ k, (f k).length = n) (k i : ℕ) (hk : k < m) (hi : i < n) (dflt : α) :
    ((List.range m).flatMap f).getD (k * n + i) dflt = (f k).getD i dflt := by
  induction m with
  | zero => omega
  | succ m ih =>
      rw [List.range_succ, List.flatMap_append]
      rcases Nat.lt_or_ge k m with h | h
      · rw [List.getD_append]
        · exact ih h
        · rw [flatMap_range_length m n f hf]
          have h1 : (k + 1) * n ≤ m * n := Nat.mul_le_mul_right n h
          have h2 : k * n + i < (k + 1) * n := by
            rw [Nat.add_mul, Nat.one_mul]
            omega
          omega
      · have hkm : k = m := by omega
        rw [List.getD_append_right]
        · rw [flatMap_range_length m n f hf]
          have hidx : k * n + i - m * n = i := by rw [hkm]; omega
          rw [hidx, hkm]
          simp
        · rw [flatMap_range_length m n f hf, ← hkm]
          omega

/-- The angle `2 * pi * i / num_segments` used by `tessellate_unit_sphere_2d`. -/
noncomputable def thetaAngle (n i : ℕ) : ℝ := 2 * Real.pi * i / n

/-- A vertex of a tessellated circle of radius `r` at height `z`:
`(r * cos(theta_i), r * sin(theta_i), z)`. -/
noncomputable def circleVec (r z : ℝ) (n i : ℕ) : V3 :=
  ⟨r * Real.cos (thetaAngle n i), r * Real.sin (thetaAngle n i), z⟩

theorem sin_two_pi_div_pos (n : ℕ) (hn : 3 ≤ n) : 0 < Real.sin (2 * Real.pi / n) := by
  have hn0 : 0 < (n : ℝ) := by exact_mod_cast lt_of_lt_of_le (by norm_num) hn
  apply Real.sin_pos_of_pos_of_lt_pi
  · exact div_pos (by linarith [Real.pi_pos]) hn0
  · rw [div_lt_iff hn0]
    have h3 : (3 : ℝ) ≤ n := by exact_mod_cast hn
    nlinarith [Real.pi_pos]

theorem sin_theta_wrap (n : ℕ) (hn : 1 ≤ n) (i : ℕ) (hi : i < n) :
    Real.sin (thetaAngle n ((i + 1) % n) - thetaAngle n i) =
      Real.sin (2 * Real.pi / n) := by
  have hn0 : (n : ℝ) ≠ 0 := by
    have : 0 < (n : ℝ) := by exact_mod_cast hn
    linarith
  rcases Nat.lt_or_ge (i + 1) n with h | h
  · rw [Nat.mod_eq_of_lt h]
    have e : thetaAngle n (i + 1) - thetaAngle n i = 2 * Real.pi / n := by
      unfold thetaAngle
      push_cast
      field_simp
      ring
    rw [e]
  · have hin : i + 1 = n := by omega
    have hmod : (i + 1) % n = 0 := by rw [hin, Nat.mod_self]
    have hicast : (i : ℝ) = (n : ℝ) - 1 := by
      have : ((i : ℕ) : ℝ) + 1 = (n : ℝ) := by exact_mod_cast congrArg Nat.cast hin
      linarith
    have e : thetaAngle n 0 - thetaAngle n i = 2 * Real.pi / n - 2 * Real.pi := by
      unfold thetaAngle
      rw [hicast]
      push_cast
      field_simp
      ring
    rw [hmod, e, Real.sin_sub_two_pi]

/-- The positions of one cylinder cap in push order (`tessellate_cylinder_cap`):
the center vertex at height `z`, then circles `circle_index = 1 .. C-1` of
radius `radius * (circle_index + 1) / C`. -/
noncomputable def capPositions (R z : ℝ) (C n : ℕ) : List V3 :=
  ⟨0, 0, z⟩ :: (List.range (C - 1)).flatMap fun k =>
    (List.range n).map fun i => circleVec (R * ((k : ℝ) + 2) / C) z n i

/-- The positions of the cylinder side in push order (`tessellate_cylinder_side`):
rings at heights `H * hs / Hs - H/2` for `hs = 0 .. Hs`. -/
noncomputable def sidePositions (R H : ℝ) (Hs n : ℕ) : List V3 :=
  (List.range (Hs + 1)).flatMap fun hs =>
    (List.range n).map fun i =>
      circleVec R (H * (hs : ℝ) / Hs - H / 2) n i

/-- All positions of the tessellated cylinder in push order: top cap
(`dir = 1`), side, bottom cap (`dir = -1`); the identity transform and zero
translation of C5 leave them unchanged. -/
noncomputable def cylinderPositions (R H : ℝ) (C Hs n : ℕ) : List V3 :=
  capPositions R (H / 2) C n ++
    (sidePositions R H Hs n ++ capPositions R (-(H / 2)) C n)

/-- The fan triangles of a cap (`circle_index == 1`):
`(center, off+1+(i+d)%n, off+1+(i+(1+d)%2)%n)`. -/
def capFanTris (off d n : ℕ) : List (ℕ × ℕ × ℕ) :=
  (List.range n).map fun i =>
    (off, off + 1 + (i + d) % n, off + 1 + (i + (1 + d) % 2) % n)

/-- The quad triangles between two cap circles (`circle_index >= 2`):
`i2 = coff + (i+d)%n`, `i3 = coff + (i+(1+d)%2)%n`, `i0 = i2 - n`,
`i1 = i3 - n`, triangles `[i1, i0, i2]` and `[i1, i2, i3]`. -/
def capRingTris (coff d n : ℕ) : List (ℕ × ℕ × ℕ) :=
  (List.range n).flatMap fun i =>
    [(coff + (i + (1 + d) % 2) % n - n, coff + (i + d) % n - n, coff + (i + d) % n),
     (coff + (i + (1 + d) % 2) % n - n, coff + (i + d) % n, coff + (i + (1 + d) % 2) % n)]

/-- All triangles of one cap: circle 1 is a fan around the center, each
further circle a ring of quads; the circle at `circle_index` starts at
position `off + 1 + (circle_index - 1) * n`. -/
def capTris (off d C n : ℕ) : List (ℕ × ℕ × ℕ) :=
  (List.range (C - 1)).flatMap fun k =>
    if k = 0 then capFanTris off d n else capRingTris (off + 1 + k * n) d n

/-- The side-wall triangles: for each height segment `hs < Hs` and each
`i < n`: `i1 = voff + hs*n + i`, `i0 = voff + hs*n + (i+1)%n`,
`i2 = i0 + n`, `i3 = i1 + n`, triangles `[i1, i0, i2]` and `[i1, i2, i3]`. -/
def sideTris (voff Hs n : ℕ) : List (ℕ × ℕ × ℕ) :=
  (List.range Hs).flatMap fun hs =>
    (List.range n).flatMap fun i =>
      [(voff + hs * n + i, voff + hs * n + (i + 1) % n,
          voff + hs * n + (i + 1) % n + n),
       (voff + hs * n + i, voff + hs * n + (i + 1) % n + n,
          voff + hs * n + i + n)]

/-- The triangle list of the tessellated cylinder, in emission order:
top cap (`d = 0`), side, bottom cap (`d = 1`). -/
def cylinderTris (C Hs n : ℕ) : List (ℕ × ℕ × ℕ) :=
  capTris 0 0 C n ++
    (sideTris ((C - 1) * n + 1) Hs n ++
      capTris ((C - 1) * n + 1 + (Hs + 1) * n) 1 C n)

theorem capPositions_length (R z : ℝ) (C n : ℕ) :
    (capPositions R z C n).length = (C - 1) * n + 1 := by
  unfold capPositions
  rw [List.length_cons, flatMap_range_length (C - 1) n _ (fun k => by simp)]

theorem sidePositions_length (R H : ℝ) (Hs n : ℕ) :
    (sidePositions R H Hs n).length = (Hs + 1) * n := by
  unfold sidePositions
  rw [flatMap_range_length (Hs + 1) n _ (fun k => by simp)]

theorem capPositions_getD_zero (R z : ℝ) (C n : ℕ) (d : V3) :
    (capPositions R z C n).getD 0 d = ⟨0, 0, z⟩ := rfl

theorem capPositions_getD (R z : ℝ) (C n : ℕ) (k i : ℕ)
    (hk : k < C - 1) (hi : i < n) (d : V3) :
    (capPositions R z C n).getD (1 + (k * n + i)) d =
      circleVec (R * ((k : ℝ) + 2) / C) z n i := by
  unfold capPositions
  rw [Nat.add_comm 1 (k * n + i), List.getD_cons_succ]
  rw [flatMap_range_getD (C - 1) n _ (fun k => by simp) k i hk hi]
  rw [List.getD_eq_getElem?_getD, List.getElem?_map, List.getElem?_range hi]
  rfl

theorem sidePositions_getD (R H : ℝ) (Hs n : ℕ) (hs i : ℕ)
    (hhs : hs < Hs + 1) (hi : i < n) (d : V3) :
    (sidePositions R H Hs n).getD (hs * n + i) d =
      circleVec R (H * (hs : ℝ) / Hs - H / 2) n i := by
  unfold sidePositions
  rw [flatMap_range_getD (Hs + 1) n _ (fun k => by simp) hs i hhs hi]
  rw [List.getD_eq_getElem?_getD, List.getElem?_map, List.getElem?_range hi]
  rfl

theorem cylinderPositions_getD_top (R H : ℝ) (C Hs n : ℕ) (j : ℕ)
    (hj : j < (C - 1) * n + 1) (d : V3) :
    (cylinderPositions R H C Hs n).getD j d =
      (capPositions R (H / 2) C n).getD j d := by
  unfold cylinderPositions
  rw [List.getD_append]
  rw [capPositions_length]
  exact hj

theorem cylinderPositions_getD_side (R H : ℝ) (C Hs n : ℕ) (j : ℕ)
    (hj : j < (Hs + 1) * n) (d : V3) :
    (cylinderPositions R H C Hs n).getD ((C - 1) * n + 1 + j) d =
      (sidePositions R H Hs n).getD j d := by
  unfold cylinderPositions
  rw [List.getD_append_right]
  · rw [capPositions_length]
    have hidx : (C - 1) * n + 1 + j - ((C - 1) * n + 1) = j := by omega
    rw [hidx, List.getD_append]
    rw [sidePositions_length]
    exact hj
  · rw [capPositions_length]
    omega

theorem cylinderPositions_getD_bottom (R H : ℝ) (C Hs n : ℕ) (j : ℕ) (d : V3) :
    (cylinderPositions R H C Hs n).getD ((C - 1) * n + 1 + (Hs + 1) * n + j) d =
      (capPositions R (-(H / 2)) C n).getD j d := by
  unfold cylinderPositions
  rw [List.getD_append_right]
  · rw [capPositions_length]
    have hidx : (C - 1) * n + 1 + (Hs + 1) * n + j - ((C - 1) * n + 1) =
        (Hs + 1) * n + j := by omega
    rw [hidx, List.getD_append_right]
    · rw [sidePositions_length]
      have hidx2 : (Hs + 1) * n + j - (Hs + 1) * n = j := by omega
      rw [hidx2]
    · rw [sidePositions_length]
      omega
  · rw [capPositions_length]
    omega

/-- Signed volume of a cap fan triangle: center at height `z` first, then
two circle vertices. -/
theorem fan_dot (r z : ℝ) (n a b : ℕ) :
    V3.dot (V3.cross (V3.sub (circleVec r z n a) ⟨0, 0, z⟩)
        (V3.sub (circleVec r z n b) ⟨0, 0, z⟩)) ⟨0, 0, z⟩ =
      z * (r * r) * Real.sin (thetaAngle n b - thetaAngle n a) := by
  simp [circleVec, V3.cross, V3.dot, V3.sub, Real.sin_sub]
  ring

/-- Signed volume of the first cap ring triangle `[i1, i0, i2]`: previous
circle at angle `b`, previous circle at angle `a`, current circle at `a`. -/
theorem ring_dot_1 (rp rc z : ℝ) (n a b : ℕ) :
    V3.dot (V3.cross (V3.sub (circleVec rp z n a) (circleVec rp z n b))
        (V3.sub (circleVec rc z n a) (circleVec rp z n b))) (circleVec rp z n b) =
      z * (rp * (rc - rp)) * Real.sin (thetaAngle n b - thetaAngle n a) := by
  simp [circleVec, V3.cross, V3.dot, V3.sub, Real.sin_sub]
  ring

/-- Signed volume of the second cap ring triangle `[i1, i2, i3]`. -/
theorem ring_dot_2 (rp rc z : ℝ) (n a b : ℕ) :
    V3.dot (V3.cross (V3.sub (circleVec rc z n a) (circleVec rp z n b))
        (V3.sub (circleVec rc z n b) (circleVec rp z n b))) (circleVec rp z n b) =
      z * (rc * (rc - rp)) * Real.sin (thetaAngle n b - thetaAngle n a) := by
  simp [circleVec, V3.cross, V3.dot, V3.sub, Real.sin_sub]
  ring

/-- Signed volume of the first side-wall triangle `[i1, i0, i2]`. -/
theorem side_dot_1 (R z1 z2 : ℝ) (n a b : ℕ) :
    V3.dot (V3.cross (V3.sub (circleVec R z1 n b) (circleVec R z1 n a))
        (V3.sub (circleVec R z2 n b) (circleVec R z1 n a))) (circleVec R z1 n a) =
      R * R * (z2 - z1) * Real.sin (thetaAngle n b - thetaAngle n a) := by
  simp [circleVec, V3.cross, V3.dot, V3.sub, Real.sin_sub]
  ring

/-- Signed volume of the second side-wall triangle `[i1, i2, i3]`. -/
theorem side_dot_2 (R z1 z2 : ℝ) (n a b : ℕ) :
    V3.dot (V3.cross (V3.sub (circleVec R z2 n b) (circleVec R z1 n a))
        (V3.sub (circleVec R z2 n a) (circleVec R z1 n a))) (circleVec R z1 n a) =
      R * R * (z2 - z1) * Real.sin (thetaAngle n b - thetaAngle n a) := by
  simp [circleVec, V3.cross, V3.dot, V3.sub, Real.sin_sub]
  ring

theorem capTris_cases (off d C n : ℕ) (t : ℕ × ℕ × ℕ) (ht : t ∈ capTris off d C n) :
    (∃ i < n, t = (off, off + 1 + (i + d) % n, off + 1 + (i + (1 + d) % 2) % n)) ∨
    (∃ k, 1 ≤ k ∧ k < C - 1 ∧ ∃ i < n,
      (t = (off + 1 + k * n + (i + (1 + d) % 2) % n - n,
            off + 1 + k * n + (i + d) % n - n,
            off + 1 + k * n + (i + d) % n) ∨
       t = (off + 1 + k * n + (i + (1 + d) % 2) % n - n,
            off + 1 + k * n + (i + d) % n,
            off + 1 + k * n + (i + (1 + d) % 2) % n))) := by
  unfold capTris at ht
  rw [List.mem_flatMap] at ht
  obtain ⟨k, hk, htk⟩ := ht
  rw [List.mem_range] at hk
  by_cases hk0 : k = 0
  · subst hk0
    rw [if_pos rfl] at htk
    left
    unfold capFanTris at htk
    rw [List.mem_map] at htk
    obtain ⟨i, hi, he⟩ := htk
    exact ⟨i, List.mem_range.mp hi, he.symm⟩
  · rw [if_neg hk0] at htk
    right
    unfold capRingTris at htk
    rw [List.mem_flatMap] at htk
    obtain ⟨i, hi, hti⟩ := htk
    simp only [List.mem_cons, List.not_mem_nil, or_false] at hti
    exact ⟨k, by omega, hk, i, List.mem_range.mp hi, hti⟩

theorem sideTris_cases (voff Hs n : ℕ) (t : ℕ × ℕ × ℕ) (ht : t ∈ sideTris voff Hs n) :
    ∃ hs < Hs, ∃ i < n,
      (t = (voff + hs * n + i, voff + hs * n + (i + 1) % n,
            voff + hs * n + (i + 1) % n + n) ∨
       t = (voff + hs * n + i, voff + hs * n + (i + 1) % n + n,
            voff + hs * n + i + n)) := by
  unfold sideTris at ht
  rw [List.mem_flatMap] at ht
  obtain ⟨hs, hhs, hths⟩ := ht
  rw [List.mem_flatMap] at hths
  obtain ⟨i, hi, hti⟩ := hths
  simp only [List.mem_cons, List.not_mem_nil, or_false] at hti
  exact ⟨hs, List.mem_range.mp hhs, i, List.mem_range.mp hi, hti⟩

/-- The winding sign of a cap triangle: top caps (`d = 0`, positive `z`)
and bottom caps (`d = 1`, negative `z`) both give a positive product of
the cap height with the oriented sine of the segment. -/
theorem cap_sign (n : ℕ) (hn : 3 ≤ n) (z : ℝ) (d i : ℕ) (hi : i < n)
    (hd : (d = 0 ∧ 0 < z) ∨ (d = 1 ∧ z < 0)) :
    0 < z * Real.sin (thetaAngle n ((i + (1 + d) % 2) % n) -
        thetaAngle n ((i + d) % n)) := by
  have hs := sin_two_pi_div_pos n hn
  rcases hd with ⟨hd0, hz⟩ | ⟨hd1, hz⟩
  · subst hd0
    have e1 : (i + 0) % n = i := by rw [Nat.add_zero, Nat.mod_eq_of_lt hi]
    have e2 : (1 + 0) % 2 = 1 := by norm_num
    rw [e2, e1, sin_theta_wrap n (by omega) i hi]
    exact mul_pos hz hs
  · subst hd1
    have e1 : (1 + 1) % 2 = 0 := by norm_num
    have e2 : (i + 0) % n = i := by rw [Nat.add_zero, Nat.mod_eq_of_lt hi]
    rw [e1, e2]
    rw [show thetaAngle n i - thetaAngle n ((i + 1) % n) =
        -(thetaAngle n ((i + 1) % n) - thetaAngle n i) by ring]
    rw [Real.sin_neg, sin_theta_wrap n (by omega) i hi]
    nlinarith

/-- Every triangle of a cap points away from the cylinder axis plane:
the triangle normal dotted with its first vertex is positive. -/
theorem capTris_outward (posG : ℕ → V3) (off d C n : ℕ) (R z : ℝ)
    (hR : 0 < R) (hC : 2 ≤ C) (hn : 3 ≤ n)
    (hd : (d = 0 ∧ 0 < z) ∨ (d = 1 ∧ z < 0))
    (hpos : ∀ j, j < (C - 1) * n + 1 →
      posG (off + j) = (capPositions R z C n).getD j V3.zero) :
    ∀ t ∈ capTris off d C n,
      0 < V3.dot (V3.cross (V3.sub (posG t.2.1) (posG t.1))
          (V3.sub (posG t.2.2) (posG t.1))) (posG t.1) := by
  intro t ht
  have hn0 : 0 < n := by omega
  have hCr : (0 : ℝ) < C := by exact_mod_cast lt_of_lt_of_le (by norm_num) hC
  have hC0 : (C : ℝ) ≠ 0 := ne_of_gt hCr
  rcases capTris_cases off d C n t ht with ⟨i, hi, rfl⟩ | ⟨k, hk1, hk2, i, hi, hcase⟩
  · -- fan triangle
    dsimp only
    have ha' : (i + d) % n < n := Nat.mod_lt _ hn0
    have hb' : (i + (1 + d) % 2) % n < n := Nat.mod_lt _ hn0
    have hnle : n ≤ (C - 1) * n := Nat.le_mul_of_pos_left n (by omega)
    have hc0 : posG off = ⟨0, 0, z⟩ := by
      rw [show off = off + 0 by omega, hpos 0 (by omega), capPositions_getD_zero]
    have hc1 : posG (off + 1 + (i + d) % n) =
        circleVec (R * ((0 : ℕ) + 2 : ℝ) / C) z n ((i + d) % n) := by
      rw [show off + 1 + (i + d) % n = off + (1 + (0 * n + (i + d) % n)) by omega,
        hpos _ (by omega), capPositions_getD R z C n 0 _ (by omega) ha']
    have hc2 : posG (off + 1 + (i + (1 + d) % 2) % n) =
        circleVec (R * ((0 : ℕ) + 2 : ℝ) / C) z n ((i + (1 + d) % 2) % n) := by
      rw [show off + 1 + (i + (1 + d) % 2) % n =
          off + (1 + (0 * n + (i + (1 + d) % 2) % n)) by omega,
        hpos _ (by omega), capPositions_getD R z C n 0 _ (by omega) hb']
    rw [hc0, hc1, hc2, fan_dot]
    have hsign := cap_sign n hn z d i hi hd
    have hr2 : (0 : ℝ) < R * ((0 : ℕ) + 2 : ℝ) / C := by
      apply div_pos _ hCr
      push_cast
      nlinarith
    nlinarith [mul_pos hr2 hr2]
  · -- ring triangles
    have ha' : (i + d) % n < n := Nat.mod_lt _ hn0
    have hb' : (i + (1 + d) % 2) % n < n := Nat.mod_lt _ hn0
    have hkn : (k - 1) * n + n = k * n := by
      have h : ((k - 1) + 1) * n = (k - 1) * n + n := by rw [Nat.succ_mul]
      rw [show (k - 1) + 1 = k by omega] at h
      omega
    have hkk : ((k - 1) + 1) * n ≤ (C - 1) * n := Nat.mul_le_mul_right n (by omega)
    have hkk2 : (k + 1) * n ≤ (C - 1) * n := Nat.mul_le_mul_right n (by omega)
    have hsm : (k + 1) * n = k * n + n := by rw [Nat.succ_mul]
    have hsm2 : ((k - 1) + 1) * n = (k - 1) * n + n := by rw [Nat.succ_mul]
    have hcast : (((k - 1) : ℕ) : ℝ) = (k : ℝ) - 1 := by
      rw [Nat.cast_sub (by omega : 1 ≤ k)]
      norm_num
    have hprev : ∀ x, x < n → posG (off + 1 + k * n + x - n) =
        circleVec (R * (((k - 1) : ℕ) + 2 : ℝ) / C) z n x := by
      intro x hx
      rw [show off + 1 + k * n + x - n = off + (1 + ((k - 1) * n + x)) by omega,
        hpos _ (by omega), capPositions_getD R z C n (k - 1) x (by omega) hx]
    have hcur : ∀ x, x < n → posG (off + 1 + k * n + x) =
        circleVec (R * ((k : ℕ) + 2 : ℝ) / C) z n x := by
      intro x hx
      rw [show off + 1 + k * n + x = off + (1 + (k * n + x)) by omega,
        hpos _ (by omega), capPositions_getD R z C n k x (by omega) hx]
    have hsign := cap_sign n hn z d i hi hd
    have hrp : (0 : ℝ) < R * (((k - 1) : ℕ) + 2 : ℝ) / C := by
      apply div_pos _ hCr
      rw [hcast]
      have : (1 : ℝ) ≤ (k : ℝ) := by exact_mod_cast hk1
      nlinarith
    have hrc : (0 : ℝ) < R * ((k : ℕ) + 2 : ℝ) / C := by
      apply div_pos _ hCr
      have : (0 : ℝ) ≤ (k : ℝ) := Nat.cast_nonneg k
      nlinarith
    have hdiff : R * ((k : ℕ) + 2 : ℝ) / C - R * (((k - 1) : ℕ) + 2 : ℝ) / C =
        R / C := by
      rw [hcast]
      field_simp
      ring
    rcases hcase with rfl | rfl
    · dsimp only
      rw [hprev _ hb', hprev _ ha', hcur _ ha', ring_dot_1, hdiff]
      nlinarith [mul_pos hrp (div_pos hR hCr)]
    · dsimp only
      rw [hprev _ hb', hcur _ ha', hcur _ hb', ring_dot_2, hdiff]
      nlinarith [mul_pos hrc (div_pos hR hCr)]

/-- Every triangle of the tessellated cylinder faces outward: its normal
dotted with its first vertex position is strictly positive. -/
theorem cylinderTris_outward (R H : ℝ) (C Hs n : ℕ)
    (hR : 0 < R) (hH : 0 < H) (hn : 3 ≤ n) (hC : 2 ≤ C) (hHs : 1 ≤ Hs) :
    ∀ t ∈ cylinderTris C Hs n,
      0 < V3.dot (V3.cross
          (V3.sub ((cylinderPositions R H C Hs n).getD t.2.1 V3.zero)
            ((cylinderPositions R H C Hs n).getD t.1 V3.zero))
          (V3.sub ((cylinderPositions R H C Hs n).getD t.2.2 V3.zero)
            ((cylinderPositions R H C Hs n).getD t.1 V3.zero)))
        ((cylinderPositions R H C Hs n).getD t.1 V3.zero) := by
  intro t ht
  have hn0 : 0 < n := by omega
  have hHsr : (0 : ℝ) < Hs := by exact_mod_cast lt_of_lt_of_le (by norm_num) hHs
  unfold cylinderTris at ht
  rw [List.mem_append] at ht
  rcases ht with ht | ht
  · -- top cap
    refine capTris_outward (fun j => (cylinderPositions R H C Hs n).getD j V3.zero)
      0 0 C n R (H / 2) hR hC hn (Or.inl ⟨rfl, by linarith⟩) ?_ t ht
    intro j hj
    rw [show 0 + j = j by omega]
    exact cylinderPositions_getD_top R H C Hs n j hj V3.zero
  rw [List.mem_append] at ht
  rcases ht with ht | ht
  · -- side wall
    obtain ⟨hs, hhs, i, hi, hcase⟩ := sideTris_cases _ Hs n t ht
    have hi1 : (i + 1) % n < n := Nat.mod_lt _ hn0
    have hsm : (hs + 1) * n = hs * n + n := by rw [Nat.succ_mul]
    have hbound : ∀ x, x < n → hs * n + x < (Hs + 1) * n := by
      intro x hx
      have h1 : (hs + 1) * n ≤ (Hs + 1) * n := Nat.mul_le_mul_right n (by omega)
      omega
    have hbound2 : ∀ x, x < n → (hs + 1) * n + x < (Hs + 1) * n := by
      intro x hx
      have h1 : ((hs + 1) + 1) * n ≤ (Hs + 1) * n := Nat.mul_le_mul_right n (by omega)
      have h2 : ((hs + 1) + 1) * n = (hs + 1) * n + n := by rw [Nat.succ_mul]
      omega
    have hlow : ∀ x, x < n →
        (cylinderPositions R H C Hs n).getD ((C - 1) * n + 1 + hs * n + x) V3.zero =
          circleVec R (H * (hs : ℝ) / Hs - H / 2) n x := by
      intro x hx
      rw [show (C - 1) * n + 1 + hs * n + x = (C - 1) * n + 1 + (hs * n + x) by omega,
        cylinderPositions_getD_side R H C Hs n _ (hbound x hx) V3.zero,
        sidePositions_getD R H Hs n hs x (by omega) hx]
    have hhigh : ∀ x, x < n →
        (cylinderPositions R H C Hs n).getD
            ((C - 1) * n + 1 + hs * n + x + n) V3.zero =
          circleVec R (H * ((hs : ℝ) + 1) / Hs - H / 2) n x := by
      intro x hx
      rw [show (C - 1) * n + 1 + hs * n + x + n =
          (C - 1) * n + 1 + ((hs + 1) * n + x) by omega,
        cylinderPositions_getD_side R H C Hs n _ (hbound2 x hx) V3.zero,
        sidePositions_getD R H Hs n (hs + 1) x (by omega) hx]
      push_cast
      rfl
    have hzdiff : H * ((hs : ℝ) + 1) / Hs - H / 2 - (H * (hs : ℝ) / Hs - H / 2) =
        H / Hs := by
      field_simp
      ring
    have hsinpos : 0 < Real.sin (thetaAngle n ((i + 1) % n) - thetaAngle n i) := by
      rw [sin_theta_wrap n (by omega) i hi]
      exact sin_two_pi_div_pos n hn
    rcases hcase with rfl | rfl
    · dsimp only
      rw [hlow i hi, hlow _ hi1, hhigh _ hi1, side_dot_1, hzdiff]
      nlinarith [mul_pos (mul_pos hR hR) (div_pos hH hHsr)]
    · dsimp only
      rw [hlow i hi, hhigh _ hi1, hhigh i hi, side_dot_2, hzdiff]
      nlinarith [mul_pos (mul_pos hR hR) (div_pos hH hHsr)]
  · -- bottom cap
    refine capTris_outward (fun j => (cylinderPositions R H C Hs n).getD j V3.zero)
      ((C - 1) * n + 1 + (Hs + 1) * n) 1 C n R (-(H / 2)) hR hC hn
      (Or.inr ⟨rfl, by linarith⟩) ?_ t ht
    intro j hj
    exact cylinderPositions_getD_bottom R H C Hs n j V3.zero

/-- `determine_cylinder_tessellation_parameter`:
`(num_radial_circles, num_height_segments, num_segments_per_circle)`;
the radial and height counts are `2.max(ceil(radius_mm / max_length_mm))`
and `2.max(ceil(height_mm / max_length_mm))` when a positive `max_length`
is configured, else 2. -/
noncomputable def determine_cylinder_tessellation_parameter (r h : ℝ)
    (opts : TessellationOptions) : ℕ × ℕ × ℕ :=
  ((match opts.maxLength with
    | some l => if 0 < l * 1000 then max 2 ⌈(r * 1000) / (l * 1000)⌉₊ else 2
    | none => 2),
   (match opts.maxLength with
    | some l => if 0 < l * 1000 then max 2 ⌈(h * 1000) / (l * 1000)⌉₊ else 2
    | none => 2),
   determine_num_segments_for_circle r opts)

theorem determine_num_segments_ge_four (r : ℝ) (opts : TessellationOptions) :
    4 ≤ determine_num_segments_for_circle r opts := by
  unfold determine_num_segments_for_circle
  exact le_trans (segSag_ge_four _ _) (le_trans (le_segLength _ _ _) (le_segAngle _ _))

theorem param_radial_ge_two (r h : ℝ) (opts : TessellationOptions) :
    2 ≤ (determine_cylinder_tessellation_parameter r h opts).1 := by
  unfold determine_cylinder_tessellation_parameter
  cases hm : opts.maxLength with
  | none => simp
  | some l => dsimp only; split_ifs <;> simp

theorem param_height_ge_two (r h : ℝ) (opts : TessellationOptions) :
    2 ≤ (determine_cylinder_tessellation_parameter r h opts).2.1 := by
  unfold determine_cylinder_tessellation_parameter
  cases hm : opts.maxLength with
  | none => simp
  | some l => dsimp only; split_ifs <;> simp

theorem dot_normalize_pos (c w : V3) (h : 0 < V3.dot c w) :
    0 < V3.dot (V3.normalize c) w := by
  have hc : c.x ≠ 0 ∨ c.y ≠ 0 ∨ c.z ≠ 0 := by
    by_contra hcon
    push_neg at hcon
    obtain ⟨hx, hy, hz⟩ := hcon
    unfold V3.dot at h
    rw [hx, hy, hz] at h
    norm_num at h
  have hn := V3.norm_pos_of_ne_zero c hc
  simp only [V3.normalize, V3.smul, V3.dot] at h ⊢
  nlinarith [mul_pos (inv_pos.mpr hn) h]

/-- The tessellation parameter of the C5 cylinder: radius 4000 mm and
height 7000 mm (4 m and 7 m) under `max_sag = 4 mm`, `max_length = 1000 mm`
and no angle bound. -/
noncomputable def cylinderExampleParams : ℕ × ℕ × ℕ :=
  determine_cylinder_tessellation_parameter 4 7 ⟨4 / 1000, some 1, none⟩

/-- C5: the cylinder with radius 4000 mm and height 7000 mm tessellated
under `max_sag = 4 mm` and `max_length = 1000 mm` with the identity
transform and zero translation: every triangle `(i0, i1, i2)` of the
resulting mesh has the normalized cross product
`(v1 - v0) x (v2 - v0)` dotted with the first vertex position `v0`
strictly positive — all side-wall and cap faces (including the
parity-flipped bottom winding) point outward. -/
theorem cylinder_4000_7000_outward_faces :
    (cylinderTris cylinderExampleParams.1 cylinderExampleParams.2.1
        cylinderExampleParams.2.2).Forall
      (fun t =>
        0 < V3.dot
          (V3.normalize (V3.cross
            (V3.sub ((cylinderPositions 4000 7000 cylinderExampleParams.1
                cylinderExampleParams.2.1 cylinderExampleParams.2.2).getD
                t.2.1 V3.zero)
              ((cylinderPositions 4000 7000 cylinderExampleParams.1
                cylinderExampleParams.2.1 cylinderExampleParams.2.2).getD
                t.1 V3.zero))
            (V3.sub ((cylinderPositions 4000 7000 cylinderExampleParams.1
                cylinderExampleParams.2.1 cylinderExampleParams.2.2).getD
                t.2.2 V3.zero)
              ((cylinderPositions 4000 7000 cylinderExampleParams.1
                cylinderExampleParams.2.1 cylinderExampleParams.2.2).getD
                t.1 V3.zero))))
          ((cylinderPositions 4000 7000 cylinderExampleParams.1
            cylinderExampleParams.2.1 cylinderExampleParams.2.2).getD
            t.1 V3.zero)) := by
  rw [List.forall_iff_forall_mem]
  intro t ht
  apply dot_normalize_pos
  have h4 : 4 ≤ cylinderExampleParams.2.2 :=
    determine_num_segments_ge_four 4 ⟨4 / 1000, some 1, none⟩
  have hC : 2 ≤ cylinderExampleParams.1 :=
    param_radial_ge_two 4 7 ⟨4 / 1000, some 1, none⟩
  have hHs : 2 ≤ cylinderExampleParams.2.1 :=
    param_height_ge_two 4 7 ⟨4 / 1000, some 1, none⟩
  exact cylinderTris_outward 4000 7000 cylinderExampleParams.1
    cylinderExampleParams.2.1 cylinderExampleParams.2.2
    (by norm_num) (by norm_num) (by omega) hC (by omega) t ht

/-! ### C4: sphere tessellation (tessellate/sphere.rs) -/

theorem V3.norm_smul (c : ℝ) (a : V3) :
    (V3.smul c a).norm = |c| * a.norm := by
  unfold V3.norm V3.smul
  rw [show c * a.x * (c * a.x) + c * a.y * (c * a.y) + c * a.z * (c * a.z) =
      c ^ 2 * (a.x * a.x + a.y * a.y + a.z * a.z) by ring]
  rw [Real.sqrt_mul (sq_nonneg c), Real.sqrt_sq_eq_abs]

theorem V3.dot_self_eq_norm_sq (a : V3) : V3.dot a a = a.norm ^ 2 := by
  unfold V3.norm V3.dot
  rw [Real.sq_sqrt (V3.norm_sq_nonneg a)]

theorem V3.norm_eq_sqrt_dot (a : V3) : a.norm = Real.sqrt (V3.dot a a) := rfl

theorem V3.dot_pos_self (a : V3) (h : 0 < a.norm) : 0 < V3.dot a a := by
  rw [V3.dot_self_eq_norm_sq]
  positivity

theorem V3.norm_pos_of_dot_self_pos (a : V3) (h : 0 < V3.dot a a) : 0 < a.norm :=
  Real.sqrt_pos.mpr h

theorem V3.dot_smul_left (c : ℝ) (a b : V3) :
    V3.dot (V3.smul c a) b = c * V3.dot a b := by
  unfold V3.dot V3.smul
  ring

theorem V3.dot_comm (a b : V3) : V3.dot a b = V3.dot b a := by
  unfold V3.dot
  ring

theorem V3.dot_add_left (a b c : V3) :
    V3.dot (V3.add a b) c = V3.dot a c + V3.dot b c := by
  unfold V3.dot V3.add
  ring

theorem V3.dot_add_right (a b c : V3) :
    V3.dot a (V3.add b c) = V3.dot a b + V3.dot a c := by
  unfold V3.dot V3.add
  ring

theorem V3.norm_normalize_of_pos (a : V3) (h : 0 < a.norm) :
    (V3.normalize a).norm = 1 := by
  unfold V3.normalize
  rw [V3.norm_smul, abs_of_pos (inv_pos.mpr h), inv_mul_cancel₀ (ne_of_gt h)]

theorem V3.add_comm' (a b : V3) : V3.add a b = V3.add b a := by
  simp only [V3.add, V3.mk.injEq]
  refine ⟨by ring, by ring, by ring⟩

/-- The state of `SphereTessellationOperator` during `create_indices`:
the vertex positions, the work stack of triangles, the emitted index
buffer (as triangles) and the edge → middle-vertex map
(`map_edge_middle_vertex`, an association list keyed by the sorted edge). -/
structure SphState where
  positions : List V3
  stack : List (ℕ × ℕ × ℕ)
  indices : List (ℕ × ℕ × ℕ)
  edgeMap : List ((ℕ × ℕ) × ℕ)

/-- `HashMap::get` on the association list. -/
def lookupEdge : List ((ℕ × ℕ) × ℕ) → (ℕ × ℕ) → Option ℕ
  | [], _ => none
  | e :: rest, k => if e.1 = k then some e.2 else lookupEdge rest k

/-- `register_middle_vertex`: look the sorted edge up in the map; if absent,
re-project the edge midpoint onto the sphere
(`(v0 + v1).normalize() * radius`), append it and record it in the map. -/
noncomputable def registerMiddleVertex (r : ℝ) (st : SphState) (a b : ℕ) :
    SphState × ℕ :=
  match lookupEdge st.edgeMap (min a b, max a b) with
  | some i => (st, i)
  | none =>
      ({ st with
          positions := st.positions ++
            [V3.smul r (V3.normalize (V3.add (st.positions.getD a V3.zero)
              (st.positions.getD b V3.zero)))],
          edgeMap := st.edgeMap ++ [((min a b, max a b), st.positions.length)] },
        st.positions.length)

/-- `determine_edge_length_of_triangle`: the maximum of the three edge
lengths. -/
noncomputable def triEdgeLen (st : SphState) (t : ℕ × ℕ × ℕ) : ℝ :=
  max (max (V3.norm (V3.sub (st.positions.getD t.1 V3.zero)
      (st.positions.getD t.2.1 V3.zero)))
    (V3.norm (V3.sub (st.positions.getD t.2.1 V3.zero)
      (st.positions.getD t.2.2 V3.zero))))
    (V3.norm (V3.sub (st.positions.getD t.2.2 V3.zero)
      (st.positions.getD t.1 V3.zero)))

/-- `determine_sag_error_of_triangle`: `|norm((v0 + v1 + v2) / 3) - r|`. -/
noncomputable def triSag (r : ℝ) (st : SphState) (t : ℕ × ℕ × ℕ) : ℝ :=
  |V3.norm (V3.smul (1 / 3) (V3.add (V3.add (st.positions.getD t.1 V3.zero)
      (st.positions.getD t.2.1 V3.zero)) (st.positions.getD t.2.2 V3.zero))) - r|

/-- The subdivision branch of the loop: register the three middle
vertices (`v01`, `v12`, `v20`) and push the four children; `Vec::push`
order means the central child `[v01, v12, v20]` ends on top. -/
noncomputable def sphSubdivide (r : ℝ) (st : SphState) (t : ℕ × ℕ × ℕ) : SphState :=
  let r1 := registerMiddleVertex r st t.1 t.2.1
  let r2 := registerMiddleVertex r r1.1 t.2.1 t.2.2
  let r3 := registerMiddleVertex r r2.1 t.2.2 t.1
  { r3.1 with stack :=
      (r1.2, r2.2, r3.2) :: (t.2.2, r3.2, r2.2) :: (t.2.1, r2.2, r1.2) ::
        (t.1, r1.2, r3.2) :: r3.1.stack }

/-- One iteration of the `while let Some(t) = triangle_stack.pop()` loop of
`create_indices`: if the triangle violates the edge-length or sag bound it
is subdivided (with shared, re-projected middle vertices) and the four
children are pushed; otherwise it is emitted into the index buffer. -/
noncomputable def sphStep (r maxEdge maxSag : ℝ) (st : SphState) : SphState :=
  match st.stack with
  | [] => st
  | t :: rest =>
      if maxEdge < triEdgeLen st t ∨ maxSag < triSag r st t then
        sphSubdivide r { st with stack := rest } t
      else
        { st with stack := rest, indices := st.indices ++ [t] }

/-- `ICOSAHEDRON_VERTICES`. -/
noncomputable def icosahedronVertices : List V3 :=
  [⟨0, 0.8506508, 0.5257311⟩, ⟨0, 0.8506508, -0.5257311⟩,
   ⟨0, -0.8506508, 0.5257311⟩, ⟨0, -0.8506508, -0.5257311⟩,
   ⟨0.8506508, 0.5257311, 0⟩, ⟨0.8506508, -0.5257311, 0⟩,
   ⟨-0.8506508, 0.5257311, 0⟩, ⟨-0.8506508, -0.5257311, 0⟩,
   ⟨0.5257311, 0, 0.8506508⟩, ⟨-0.5257311, 0, 0.8506508⟩,
   ⟨0.5257311, 0, -0.8506508⟩, ⟨-0.5257311, 0, -0.8506508⟩]

/-- `ICOSAHEDRON_INDICES`, chunked into triangles. -/
def icosahedronIndices : List (ℕ × ℕ × ℕ) :=
  [(1, 0, 4), (0, 1, 6), (2, 3, 5), (3, 2, 7), (4, 5, 10), (5, 4, 8),
   (6, 7, 9), (7, 6, 11), (8, 9, 2), (9, 8, 0), (10, 11, 1), (11, 10, 3),
   (0, 8, 4), (0, 6, 9), (1, 4, 10), (1, 11, 6), (2, 5, 8), (2, 9, 7),
   (3, 10, 5), (3, 7, 11)]

/-- The operator state after `register_icosahedron_vertices` and the
initialization of the work stack (`Vec::pop` takes from the back, so the
head of the list stack is the last chunk). -/
noncomputable def sphInit (r : ℝ) : SphState :=
  ⟨icosahedronVertices.map (V3.smul r), icosahedronIndices.reverse, [], []⟩

/-- Running `fuel` iterations of the subdivision loop. -/
noncomputable def sphRun (r maxEdge maxSag : ℝ) : ℕ → SphState
  | 0 => sphInit r
  | fuel + 1 => sphStep r maxEdge maxSag (sphRun r maxEdge maxSag fuel)

/-- `determine_maximum_edge_length` (millimeters): starts at the radius,
clamped by `max_length` and by the chord `2 r sin(max_angle / 2)` of a
positive configured angle. -/
noncomputable def determine_maximum_edge_length (radius_mm : ℝ)
    (opts : TessellationOptions) : ℝ :=
  match opts.maxAngle with
  | some a =>
      if 0 < a then
        if 0 < 2 * radius_mm * Real.sin (a / 2) then
          min (match opts.maxLength with
            | some l => min radius_mm (l * 1000)
            | none => radius_mm) (2 * radius_mm * Real.sin (a / 2))
        else
          (match opts.maxLength with
            | some l => min radius_mm (l * 1000)
            | none => radius_mm)
      else
        (match opts.maxLength with
          | some l => min radius_mm (l * 1000)
          | none => radius_mm)
  | none =>
      (match opts.maxLength with
        | some l => min radius_mm (l * 1000)
        | none => radius_mm)

/-- The loop invariant of the sphere subdivision: every position is on
the sphere up to the seed icosahedron's rounding (`ICOSAHEDRON_VERTICES`
have squared norm `0.99999997304785`, not exactly 1); every stack triangle
references valid vertices whose pairwise dot products are positive (so no
subdivision edge is ever antipodal); every emitted triangle satisfies the
sag bound; and the edge map stores exactly the re-projected midpoints. -/
def SphInv (r maxSag : ℝ) (st : SphState) : Prop :=
  (∀ p ∈ st.positions, r * 0.9999999 ≤ p.norm ∧ p.norm ≤ r) ∧
  (∀ t ∈ st.stack,
    t.1 < st.positions.length ∧ t.2.1 < st.positions.length ∧
    t.2.2 < st.positions.length ∧
    0 < V3.dot (st.positions.getD t.1 V3.zero) (st.positions.getD t.2.1 V3.zero) ∧
    0 < V3.dot (st.positions.getD t.2.1 V3.zero) (st.positions.getD t.2.2 V3.zero) ∧
    0 < V3.dot (st.positions.getD t.2.2 V3.zero) (st.positions.getD t.1 V3.zero)) ∧
  (∀ t ∈ st.indices,
    t.1 < st.positions.length ∧ t.2.1 < st.positions.length ∧
    t.2.2 < st.positions.length ∧ triSag r st t ≤ maxSag) ∧
  (∀ e ∈ st.edgeMap,
    e.1.1 < st.positions.length ∧ e.1.2 < st.positions.length ∧
    e.2 < st.positions.length ∧
    st.positions.getD e.2 V3.zero =
      V3.smul r (V3.normalize (V3.add (st.positions.getD e.1.1 V3.zero)
        (st.positions.getD e.1.2 V3.zero))))

theorem lookupEdge_mem (m : List ((ℕ × ℕ) × ℕ)) (k : ℕ × ℕ) (i : ℕ)
    (h : lookupEdge m k = some i) : (k, i) ∈ m := by
  induction m with
  | nil => cases h
  | cons e rest ih =>
      unfold lookupEdge at h
      split_ifs at h with he
      · cases h
        rw [← he]
        exact List.mem_cons_self _ _
      · exact List.mem_cons_of_mem _ (ih h)

theorem V3.dot_smul_right (c : ℝ) (a b : V3) :
    V3.dot a (V3.smul c b) = c * V3.dot a b := by
  unfold V3.dot V3.smul
  ring

/-- Dot of a re-projected midpoint with another vector. -/
theorem mid_dot_pos_left (r : ℝ) (hr : 0 < r) (u w : V3)
    (hu : 0 < V3.dot u u) (huw : 0 < V3.dot u w) :
    0 < V3.dot (V3.smul r (V3.normalize u)) w := by
  unfold V3.normalize
  rw [V3.dot_smul_left, V3.dot_smul_left]
  have h1 : 0 < u.norm := V3.norm_pos_of_dot_self_pos u hu
  exact mul_pos hr (mul_pos (inv_pos.mpr h1) huw)

/-- Dot of two re-projected midpoints. -/
theorem mid_dot_pos_both (r : ℝ) (hr : 0 < r) (u v : V3)
    (hu : 0 < V3.dot u u) (hv : 0 < V3.dot v v) (huv : 0 < V3.dot u v) :
    0 < V3.dot (V3.smul r (V3.normalize u)) (V3.smul r (V3.normalize v)) := by
  unfold V3.normalize
  rw [V3.dot_smul_left, V3.dot_smul_left, V3.dot_smul_right, V3.dot_smul_right]
  have h1 : 0 < u.norm := V3.norm_pos_of_dot_self_pos u hu
  have h2 : 0 < v.norm := V3.norm_pos_of_dot_self_pos v hv
  exact mul_pos hr (mul_pos (inv_pos.mpr h1) (mul_pos hr (mul_pos (inv_pos.mpr h2) huv)))

theorem getD_mem_of_lt {l : List V3} {i : ℕ} (h : i < l.length) :
    l.getD i V3.zero ∈ l := by
  rw [List.getD_eq_getElem l V3.zero h]
  exact List.getElem_mem h

theorem registerMiddleVertex_spec (r maxSag : ℝ) (hr : 0 < r) (st : SphState)
    (a b : ℕ) (hInv : SphInv r maxSag st)
    (ha : a < st.positions.length) (hb : b < st.positions.length)
    (hdot : 0 < V3.dot (st.positions.getD a V3.zero) (st.positions.getD b V3.zero)) :
    SphInv r maxSag (registerMiddleVertex r st a b).1 ∧
    st.positions.length ≤ (registerMiddleVertex r st a b).1.positions.length ∧
    (∀ j, j < st.positions.length →
      (registerMiddleVertex r st a b).1.positions.getD j V3.zero =
        st.positions.getD j V3.zero) ∧
    (registerMiddleVertex r st a b).1.stack = st.stack ∧
    (registerMiddleVertex r st a b).1.indices = st.indices ∧
    (registerMiddleVertex r st a b).2 <
      (registerMiddleVertex r st a b).1.positions.length ∧
    (registerMiddleVertex r st a b).1.positions.getD
        (registerMiddleVertex r st a b).2 V3.zero =
      V3.smul r (V3.normalize (V3.add (st.positions.getD a V3.zero)
        (st.positions.getD b V3.zero))) := by
  unfold registerMiddleVertex
  cases hlk : lookupEdge st.edgeMap (min a b, max a b) with
  | some i =>
      have hmem := lookupEdge_mem _ _ _ hlk
      have h4 := hInv.2.2.2 _ hmem
      dsimp only
      refine ⟨hInv, le_refl _, fun j hj => rfl, rfl, rfl, h4.2.2.1, ?_⟩
      rw [h4.2.2.2]
      rcases le_total a b with hab | hab
      · rw [min_eq_left hab, max_eq_right hab]
      · rw [min_eq_right hab, max_eq_left hab, V3.add_comm']
  | none =>
      dsimp only
      have hpa := hInv.1 _ (getD_mem_of_lt ha)
      have hpb := hInv.1 _ (getD_mem_of_lt hb)
      have hna : 0 < (st.positions.getD a V3.zero).norm := by nlinarith [hpa.1]
      have hnb : 0 < (st.positions.getD b V3.zero).norm := by nlinarith [hpb.1]
      have hdaa := V3.dot_pos_self _ hna
      have hdbb := V3.dot_pos_self _ hnb
      have hu : 0 < V3.dot
          (V3.add (st.positions.getD a V3.zero) (st.positions.getD b V3.zero))
          (V3.add (st.positions.getD a V3.zero) (st.positions.getD b V3.zero)) := by
        rw [V3.dot_add_left, V3.dot_add_right, V3.dot_add_right,
          V3.dot_comm (st.positions.getD b V3.zero) (st.positions.getD a V3.zero)]
        linarith
      have hun := V3.norm_pos_of_dot_self_pos _ hu
      have hmidnorm : (V3.smul r (V3.normalize
          (V3.add (st.positions.getD a V3.zero)
            (st.positions.getD b V3.zero)))).norm = r := by
        rw [V3.norm_smul, V3.norm_normalize_of_pos _ hun, abs_of_pos hr, mul_one]
      have hlen' : (st.positions ++ [V3.smul r (V3.normalize
          (V3.add (st.positions.getD a V3.zero)
            (st.positions.getD b V3.zero)))]).length =
          st.positions.length + 1 := by simp
      have hstab : ∀ j, j < st.positions.length →
          (st.positions ++ [V3.smul r (V3.normalize
            (V3.add (st.positions.getD a V3.zero)
              (st.positions.getD b V3.zero)))]).getD j V3.zero =
            st.positions.getD j V3.zero :=
        fun j hj => List.getD_append _ _ _ _ hj
      have hlast : (st.positions ++ [V3.smul r (V3.normalize
          (V3.add (st.positions.getD a V3.zero)
            (st.positions.getD b V3.zero)))]).getD st.positions.length V3.zero =
          V3.smul r (V3.normalize (V3.add (st.positions.getD a V3.zero)
            (st.positions.getD b V3.zero))) := by
        rw [List.getD_append_right _ _ _ _ (le_refl _), Nat.sub_self]
        rfl
      refine ⟨⟨?_, ?_, ?_, ?_⟩, by rw [hlen']; omega, hstab, rfl, rfl,
        by rw [hlen']; omega, hlast⟩
      · intro p hp
        rcases List.mem_append.mp hp with hp | hp
        · exact hInv.1 p hp
        · rw [List.mem_singleton.mp hp, hmidnorm]
          constructor
          · nlinarith
          · exact le_refl r
      · intro t ht
        obtain ⟨v1, v2, v3, d1, d2, d3⟩ := hInv.2.1 t ht
        rw [hlen']
        refine ⟨by omega, by omega, by omega, ?_, ?_, ?_⟩
        · rw [hstab _ v1, hstab _ v2]; exact d1
        · rw [hstab _ v2, hstab _ v3]; exact d2
        · rw [hstab _ v3, hstab _ v1]; exact d3
      · intro t ht
        obtain ⟨v1, v2, v3, hsag⟩ := hInv.2.2.1 t ht
        rw [hlen']
        refine ⟨by omega, by omega, by omega, ?_⟩
        unfold triSag at hsag ⊢
        rw [hstab _ v1, hstab _ v2, hstab _ v3]
        exact hsag
      · intro e he
        rcases List.mem_append.mp he with he | he
        · obtain ⟨v1, v2, v3, heq⟩ := hInv.2.2.2 e he
          rw [hlen']
          refine ⟨by omega, by omega, by omega, ?_⟩
          rw [hstab _ v1, hstab _ v2, hstab _ v3]
          exact heq
        · rw [List.mem_singleton.mp he]
          have hmin : min a b < st.positions.length := by
            rcases le_total a b with h | h
            · rw [min_eq_left h]; exact ha
            · rw [min_eq_right h]; exact hb
          have hmax : max a b < st.positions.length := by
            rcases le_total a b with h | h
            · rw [max_eq_right h]; exact hb
            · rw [max_eq_left h]; exact ha
          refine ⟨?_, ?_, ?_, ?_⟩
          · rw [hlen']; exact Nat.lt_succ_of_lt hmin
          · rw [hlen']; exact Nat.lt_succ_of_lt hmax
          · rw [hlen']; omega
          · rw [hlast, hstab _ hmin, hstab _ hmax]
            rcases le_total a b with hab | hab
            · rw [min_eq_left hab, max_eq_right hab]
            · rw [min_eq_right hab, max_eq_left hab, V3.add_comm']

theorem dot_add_add_pos (pa pb pc pd : V3)
    (h1 : 0 < V3.dot pa pc) (h2 : 0 < V3.dot pa pd)
    (h3 : 0 < V3.dot pb pc) (h4 : 0 < V3.dot pb pd) :
    0 < V3.dot (V3.add pa pb) (V3.add pc pd) := by
  rw [V3.dot_add_left, V3.dot_add_right, V3.dot_add_right]
  linarith

theorem sphSubdivide_preserves_aux (r maxSag : ℝ) (hr : 0 < r)
    (st : SphState) (t : ℕ × ℕ × ℕ) (S3 : SphState) (i1 i2 i3 : ℕ)
    (hInv3 : SphInv r maxSag S3)
    (hlen : st.positions.length ≤ S3.positions.length)
    (h1 : t.1 < st.positions.length) (h2 : t.2.1 < st.positions.length)
    (h3 : t.2.2 < st.positions.length)
    (hi1 : i1 < S3.positions.length) (hi2 : i2 < S3.positions.length)
    (hi3 : i3 < S3.positions.length)
    (v0eq : S3.positions.getD t.1 V3.zero = st.positions.getD t.1 V3.zero)
    (v1eq : S3.positions.getD t.2.1 V3.zero = st.positions.getD t.2.1 V3.zero)
    (v2eq : S3.positions.getD t.2.2 V3.zero = st.positions.getD t.2.2 V3.zero)
    (m01 : S3.positions.getD i1 V3.zero =
      V3.smul r (V3.normalize (V3.add (st.positions.getD t.1 V3.zero)
        (st.positions.getD t.2.1 V3.zero))))
    (m12 : S3.positions.getD i2 V3.zero =
      V3.smul r (V3.normalize (V3.add (st.positions.getD t.2.1 V3.zero)
        (st.positions.getD t.2.2 V3.zero))))
    (m20 : S3.positions.getD i3 V3.zero =
      V3.smul r (V3.normalize (V3.add (st.positions.getD t.2.2 V3.zero)
        (st.positions.getD t.1 V3.zero))))
    (daa : 0 < V3.dot (st.positions.getD t.1 V3.zero) (st.positions.getD t.1 V3.zero))
    (dbb : 0 < V3.dot (st.positions.getD t.2.1 V3.zero) (st.positions.getD t.2.1 V3.zero))
    (dcc : 0 < V3.dot (st.positions.getD t.2.2 V3.zero) (st.positions.getD t.2.2 V3.zero))
    (d01 : 0 < V3.dot (st.positions.getD t.1 V3.zero) (st.positions.getD t.2.1 V3.zero))
    (d12 : 0 < V3.dot (st.positions.getD t.2.1 V3.zero) (st.positions.getD t.2.2 V3.zero))
    (d20 : 0 < V3.dot (st.positions.getD t.2.2 V3.zero) (st.positions.getD t.1 V3.zero)) :
    SphInv r maxSag { S3 with stack :=
      (i1, i2, i3) :: (t.2.2, i3, i2) :: (t.2.1, i2, i1) ::
        (t.1, i1, i3) :: S3.stack } := by
  have d10 : 0 < V3.dot (st.positions.getD t.2.1 V3.zero)
      (st.positions.getD t.1 V3.zero) := by rw [V3.dot_comm]; exact d01
  have d21 : 0 < V3.dot (st.positions.getD t.2.2 V3.zero)
      (st.positions.getD t.2.1 V3.zero) := by rw [V3.dot_comm]; exact d12
  have d02 : 0 < V3.dot (st.positions.getD t.1 V3.zero)
      (st.positions.getD t.2.2 V3.zero) := by rw [V3.dot_comm]; exact d20
  have hu01 := dot_add_add_pos _ _ _ _ daa d01 d10 dbb
  have hu12 := dot_add_add_pos _ _ _ _ dbb d12 d21 dcc
  have hu20 := dot_add_add_pos _ _ _ _ dcc d20 d02 daa
  have hu01_12 := dot_add_add_pos _ _ _ _ d01 d02 dbb d12
  have hu12_20 := dot_add_add_pos _ _ _ _ d12 d10 dcc d20
  have hu20_01 := dot_add_add_pos _ _ _ _ d20 d21 daa d01
  have hu01_20 := dot_add_add_pos _ _ _ _ d02 daa d12 d10
  have hu12_01 := dot_add_add_pos _ _ _ _ d10 dbb d20 d21
  have hu20_12 := dot_add_add_pos _ _ _ _ d21 dcc d01 d02
  have hu01_0 : 0 < V3.dot (V3.add (st.positions.getD t.1 V3.zero)
      (st.positions.getD t.2.1 V3.zero)) (st.positions.getD t.1 V3.zero) := by
    rw [V3.dot_add_left]; linarith
  have hu01_1 : 0 < V3.dot (V3.add (st.positions.getD t.1 V3.zero)
      (st.positions.getD t.2.1 V3.zero)) (st.positions.getD t.2.1 V3.zero) := by
    rw [V3.dot_add_left]; linarith
  have hu12_1 : 0 < V3.dot (V3.add (st.positions.getD t.2.1 V3.zero)
      (st.positions.getD t.2.2 V3.zero)) (st.positions.getD t.2.1 V3.zero) := by
    rw [V3.dot_add_left]; linarith
  have hu12_2 : 0 < V3.dot (V3.add (st.positions.getD t.2.1 V3.zero)
      (st.positions.getD t.2.2 V3.zero)) (st.positions.getD t.2.2 V3.zero) := by
    rw [V3.dot_add_left]; linarith
  have hu20_2 : 0 < V3.dot (V3.add (st.positions.getD t.2.2 V3.zero)
      (st.positions.getD t.1 V3.zero)) (st.positions.getD t.2.2 V3.zero) := by
    rw [V3.dot_add_left]; linarith
  have hu20_0 : 0 < V3.dot (V3.add (st.positions.getD t.2.2 V3.zero)
      (st.positions.getD t.1 V3.zero)) (st.positions.getD t.1 V3.zero) := by
    rw [V3.dot_add_left]; linarith
  refine ⟨hInv3.1, ?_, hInv3.2.2.1, hInv3.2.2.2⟩
  intro tt htt
  simp only [List.mem_cons] at htt
  rcases htt with rfl | rfl | rfl | rfl | htt
  · -- central child (v01, v12, v20)
    refine ⟨hi1, hi2, hi3, ?_, ?_, ?_⟩
    · rw [m01, m12]; exact mid_dot_pos_both r hr _ _ hu01 hu12 hu01_12
    · rw [m12, m20]; exact mid_dot_pos_both r hr _ _ hu12 hu20 hu12_20
    · rw [m20, m01]; exact mid_dot_pos_both r hr _ _ hu20 hu01 hu20_01
  · -- (t2, v20, v12)
    refine ⟨lt_of_lt_of_le h3 hlen, hi3, hi2, ?_, ?_, ?_⟩
    · rw [v2eq, m20, V3.dot_comm]; exact mid_dot_pos_left r hr _ _ hu20 hu20_2
    · rw [m20, m12]; exact mid_dot_pos_both r hr _ _ hu20 hu12 hu20_12
    · rw [m12, v2eq]; exact mid_dot_pos_left r hr _ _ hu12 hu12_2
  · -- (t1, v12, v01)
    refine ⟨lt_of_lt_of_le h2 hlen, hi2, hi1, ?_, ?_, ?_⟩
    · rw [v1eq, m12, V3.dot_comm]; exact mid_dot_pos_left r hr _ _ hu12 hu12_1
    · rw [m12, m01]; exact mid_dot_pos_both r hr _ _ hu12 hu01 hu12_01
    · rw [m01, v1eq]; exact mid_dot_pos_left r hr _ _ hu01 hu01_1
  · -- (t0, v01, v20)
    refine ⟨lt_of_lt_of_le h1 hlen, hi1, hi3, ?_, ?_, ?_⟩
    · rw [v0eq, m01, V3.dot_comm]; exact mid_dot_pos_left r hr _ _ hu01 hu01_0
    · rw [m01, m20]; exact mid_dot_pos_both r hr _ _ hu01 hu20 hu01_20
    · rw [m20, v0eq]; exact mid_dot_pos_left r hr _ _ hu20 hu20_0
  · exact hInv3.2.1 tt htt

theorem sphSubdivide_preserves (r maxSag : ℝ) (hr : 0 < r) (st : SphState)
    (t : ℕ × ℕ × ℕ) (hInv : SphInv r maxSag st)
    (h1 : t.1 < st.positions.length) (h2 : t.2.1 < st.positions.length)
    (h3 : t.2.2 < st.positions.length)
    (d01 : 0 < V3.dot (st.positions.getD t.1 V3.zero) (st.positions.getD t.2.1 V3.zero))
    (d12 : 0 < V3.dot (st.positions.getD t.2.1 V3.zero) (st.positions.getD t.2.2 V3.zero))
    (d20 : 0 < V3.dot (st.positions.getD t.2.2 V3.zero) (st.positions.getD t.1 V3.zero)) :
    SphInv r maxSag (sphSubdivide r st t) := by
  obtain ⟨inv1, len1, stab1, stk1, idxs1, lt1, val1⟩ :=
    registerMiddleVertex_spec r maxSag hr st t.1 t.2.1 hInv h1 h2 d01
  obtain ⟨inv2, len2, stab2, stk2, idxs2, lt2, val2⟩ :=
    registerMiddleVertex_spec r maxSag hr _ t.2.1 t.2.2 inv1
      (lt_of_lt_of_le h2 len1) (lt_of_lt_of_le h3 len1)
      (by rw [stab1 _ h2, stab1 _ h3]; exact d12)
  obtain ⟨inv3, len3, stab3, stk3, idxs3, lt3, val3⟩ :=
    registerMiddleVertex_spec r maxSag hr _ t.2.2 t.1 inv2
      (lt_of_lt_of_le (lt_of_lt_of_le h3 len1) len2)
      (lt_of_lt_of_le (lt_of_lt_of_le h1 len1) len2)
      (by rw [stab2 _ (lt_of_lt_of_le h3 len1), stab2 _ (lt_of_lt_of_le h1 len1),
          stab1 _ h3, stab1 _ h1]; exact d20)
  have hpa := hInv.1 _ (getD_mem_of_lt h1)
  have hpb := hInv.1 _ (getD_mem_of_lt h2)
  have hpc := hInv.1 _ (getD_mem_of_lt h3)
  have daa := V3.dot_pos_self (st.positions.getD t.1 V3.zero) (by nlinarith [hpa.1])
  have dbb := V3.dot_pos_self (st.positions.getD t.2.1 V3.zero) (by nlinarith [hpb.1])
  have dcc := V3.dot_pos_self (st.positions.getD t.2.2 V3.zero) (by nlinarith [hpc.1])
  refine sphSubdivide_preserves_aux r maxSag hr st t _ _ _ _ inv3
    (le_trans len1 (le_trans len2 len3))
    h1 h2 h3
    (lt_of_lt_of_le lt1 (le_trans len2 len3))
    (lt_of_lt_of_le lt2 len3) lt3
    ?_ ?_ ?_ ?_ ?_ ?_ daa dbb dcc d01 d12 d20
  · rw [stab3 _ (lt_of_lt_of_le (lt_of_lt_of_le h1 len1) len2),
      stab2 _ (lt_of_lt_of_le h1 len1), stab1 _ h1]
  · rw [stab3 _ (lt_of_lt_of_le (lt_of_lt_of_le h2 len1) len2),
      stab2 _ (lt_of_lt_of_le h2 len1), stab1 _ h2]
  · rw [stab3 _ (lt_of_lt_of_le (lt_of_lt_of_le h3 len1) len2),
      stab2 _ (lt_of_lt_of_le h3 len1), stab1 _ h3]
  · rw [stab3 _ (lt_of_lt_of_le lt1 len2), stab2 _ lt1, val1]
  · rw [stab3 _ lt2, val2, stab1 _ h2, stab1 _ h3]
  · rw [val3, stab2 _ (lt_of_lt_of_le h3 len1), stab2 _ (lt_of_lt_of_le h1 len1),
      stab1 _ h3, stab1 _ h1]

/-- One loop iteration preserves the subdivision invariant. -/
theorem sphStep_preserves (r maxEdge maxSag : ℝ) (hr : 0 < r) (st : SphState)
    (hInv : SphInv r maxSag st) : SphInv r maxSag (sphStep r maxEdge maxSag st) := by
  unfold sphStep
  cases hstk : st.stack with
  | nil => exact hInv
  | cons t rest =>
      obtain ⟨h1, h2, h3, d01, d12, d20⟩ := hInv.2.1 t
        (by rw [hstk]; exact List.mem_cons_self _ _)
      have hInv' : SphInv r maxSag { st with stack := rest } := by
        refine ⟨hInv.1, ?_, hInv.2.2.1, hInv.2.2.2⟩
        intro tt htt
        exact hInv.2.1 tt (by rw [hstk]; exact List.mem_cons_of_mem _ htt)
      dsimp only
      split_ifs with hguard
      · exact sphSubdivide_preserves r maxSag hr _ t hInv' h1 h2 h3 d01 d12 d20
      · push_neg at hguard
        refine ⟨hInv.1, ?_, ?_, hInv.2.2.2⟩
        · intro tt htt
          exact hInv.2.1 tt (by rw [hstk]; exact List.mem_cons_of_mem _ htt)
        · intro tt htt
          rcases List.mem_append.mp htt with htt | htt
          · exact hInv.2.2.1 tt htt
          · rw [List.mem_singleton.mp htt]
            exact ⟨h1, h2, h3, hguard.2⟩

theorem seed_norm_bounds (r : ℝ) (hr : 0 < r) (v : V3)
    (hv : v.x * v.x + v.y * v.y + v.z * v.z = 0.99999997304785) :
    r * 0.9999999 ≤ (V3.smul r v).norm ∧ (V3.smul r v).norm ≤ r := by
  rw [V3.norm_smul, abs_of_pos hr]
  unfold V3.norm
  rw [hv]
  constructor
  · have hc2 : (0.9999999 : ℝ) ≤ Real.sqrt 0.99999997304785 := by
      rw [show (0.9999999 : ℝ) = Real.sqrt (0.9999999 ^ 2) by
        rw [Real.sqrt_sq (by norm_num)]]
      exact Real.sqrt_le_sqrt (by norm_num)
    nlinarith
  · have hc : Real.sqrt 0.99999997304785 ≤ 1 := by
      rw [show (1 : ℝ) = Real.sqrt 1 by rw [Real.sqrt_one]]
      exact Real.sqrt_le_sqrt (by norm_num)
    nlinarith

theorem seed_dot_pos (r : ℝ) (hr : 0 < r) (va vb : V3) (h : 0 < V3.dot va vb) :
    0 < V3.dot (V3.smul r va) (V3.smul r vb) := by
  rw [V3.dot_smul_left, V3.dot_smul_right]
  exact mul_pos hr (mul_pos hr h)

/-- The invariant holds after `register_icosahedron_vertices` with the
initial icosahedron work stack. -/
theorem sphInit_inv (r maxSag : ℝ) (hr : 0 < r) : SphInv r maxSag (sphInit r) := by
  have hlen : (sphInit r).positions.length = 12 := by
    simp [sphInit, icosahedronVertices]
  refine ⟨?_, ?_, ?_, ?_⟩
  · intro p hp
    simp only [sphInit, icosahedronVertices, List.map_cons, List.map_nil,
      List.mem_cons, List.not_mem_nil, or_false] at hp
    rcases hp with rfl | rfl | rfl | rfl | rfl | rfl | rfl | rfl | rfl | rfl |
      rfl | rfl <;>
      exact seed_norm_bounds r hr _ (by norm_num)
  · intro t ht
    simp only [sphInit, List.mem_reverse, icosahedronIndices, List.mem_cons,
      List.not_mem_nil, or_false] at ht
    rcases ht with rfl | rfl | rfl | rfl | rfl | rfl | rfl | rfl | rfl | rfl |
      rfl | rfl | rfl | rfl | rfl | rfl | rfl | rfl | rfl | rfl <;>
      exact ⟨by rw [hlen]; norm_num, by rw [hlen]; norm_num,
        by rw [hlen]; norm_num,
        seed_dot_pos r hr _ _ (by norm_num [V3.dot]),
        seed_dot_pos r hr _ _ (by norm_num [V3.dot]),
        seed_dot_pos r hr _ _ (by norm_num [V3.dot])⟩
  · intro t ht
    simp [sphInit] at ht
  · intro e he
    simp [sphInit] at he

/-- The subdivision invariant holds after any number of loop iterations. -/
theorem sphRun_inv (r maxEdge maxSag : ℝ) (hr : 0 < r) (fuel : ℕ) :
    SphInv r maxSag (sphRun r maxEdge maxSag fuel) := by
  induction fuel with
  | zero => exact sphInit_inv r maxSag hr
  | succ fuel ih => exact sphStep_preserves r maxEdge maxSag hr _ ih

/-- C4 (amended): for every positive sphere diameter and every
`TessellationOptions`, at every point of the subdivision loop all vertex
positions are at distance `radius = diameter / 2` from the origin within
the seed icosahedron's floating-point rounding (relative error at most
`1e-7 < 2^-23`; re-projected middle vertices are exactly at `radius`), and
every triangle emitted into the index buffer has centroid sag error
`|norm((v0 + v1 + v2) / 3) - radius|` at most the configured `max_sag`
(the emission guard enforces it). For a non-positive diameter the vertex
distance claim fails; see the counterexample. -/
theorem sphere_tessellation_invariants (diameter : ℝ) (opts : TessellationOptions)
    (hd : 0 < diameter) (fuel : ℕ) :
    (∀ p ∈ (sphRun (diameter / 2)
        (determine_maximum_edge_length (diameter / 2) opts)
        (opts.maxSag * 1000) fuel).positions,
      |p.norm - diameter / 2| ≤ diameter / 2 * 0.0000001) ∧
    (∀ t ∈ (sphRun (diameter / 2)
        (determine_maximum_edge_length (diameter / 2) opts)
        (opts.maxSag * 1000) fuel).indices,
      triSag (diameter / 2)
        (sphRun (diameter / 2) (determine_maximum_edge_length (diameter / 2) opts)
          (opts.maxSag * 1000) fuel) t ≤ opts.maxSag * 1000) := by
  have hr : 0 < diameter / 2 := by linarith
  have hinv := sphRun_inv (diameter / 2)
    (determine_maximum_edge_length (diameter / 2) opts) (opts.maxSag * 1000) hr fuel
  constructor
  · intro p hp
    obtain ⟨hlow, hhigh⟩ := hinv.1 p hp
    rw [abs_sub_comm, abs_of_nonneg (by linarith)]
    linarith
  · intro t ht
    exact (hinv.2.2.1 t ht).2.2.2

theorem sphere_tessellation_invariants_witness :
    (∀ p ∈ (sphRun (2 / 2)
        (determine_maximum_edge_length (2 / 2) ⟨1, none, none⟩)
        ((1 : ℝ) * 1000) 0).positions,
      |p.norm - 2 / 2| ≤ 2 / 2 * 0.0000001) ∧
    (∀ t ∈ (sphRun (2 / 2)
        (determine_maximum_edge_length (2 / 2) ⟨1, none, none⟩)
        ((1 : ℝ) * 1000) 0).indices,
      triSag (2 / 2)
        (sphRun (2 / 2) (determine_maximum_edge_length (2 / 2) ⟨1, none, none⟩)
          ((1 : ℝ) * 1000) 0) t ≤ (1 : ℝ) * 1000) :=
  sphere_tessellation_invariants 2 ⟨1, none, none⟩ (by norm_num) 0

/-- Counterexample to C4 as stated over every sphere diameter: with a
negative diameter (representable in the `f32` `SphereData`), the radius
`diameter / 2` is negative and already the seed icosahedron vertices are
at distance about `|radius|` from the origin — not within floating-point
epsilon of `radius`. -/
theorem sphere_negative_diameter_counterexample :
    ∃ p ∈ (sphRun (-2 / 2)
        (determine_maximum_edge_length (-2 / 2) ⟨1, none, none⟩)
        ((1 : ℝ) * 1000) 0).positions,
      ¬ (|p.norm - -2 / 2| ≤ |(-2 : ℝ) / 2| * 0.0000001) := by
  refine ⟨V3.smul (-2 / 2) ⟨0, 0.8506508, 0.5257311⟩, ?_, ?_⟩
  · exact List.mem_map_of_mem _ (by simp [icosahedronVertices])
  · have hnn := V3.norm_nonneg (V3.smul (-2 / 2) ⟨0, 0.8506508, 0.5257311⟩)
    rw [not_le]
    have habs : |(-2 : ℝ) / 2| = 1 := by norm_num
    rw [habs]
    nlinarith [le_abs_self
      ((V3.smul ((-2 : ℝ) / 2) ⟨0, 0.8506508, 0.5257311⟩).norm - -2 / 2)]

end CadImport
